import Mathlib

/-! # REminiCRT: the SDL platform layer (`systemstub_sdl.cpp`)

A shallow embedding of `SystemStub_SDL`: the two palette tables, the offscreen
framebuffer with its block copy, the letterboxed viewport of `updateScreen`
and the input reducer `processEvent`.

Conventions of the embedding

* C arrays and pointers are maps from an element offset to the stored value.
  The value of a `uint8_t` read is taken `% 256`.
* `int` is `Int` (no overflow is modelled), `/` on `int` is `Int.tdiv`.
* An `assert` that fails, and an index outside a fixed-size table, make the
  operation return `none`.
-/

namespace REminiCRT

/-! ## SDL pixel format `SDL_PIXELFORMAT_ABGR8888` -/

/-- The library call `SDL_MapRGB(_fmt, r, g, b)` for `kPixelFormat =
SDL_PIXELFORMAT_ABGR8888`: the arguments are converted to `Uint8`, red is the
low byte, green the second, blue the third, and alpha (the high byte) is opaque. -/
def SDL_MapRGB (r g b : Int) : Nat :=
  (r % 256).toNat + (g % 256).toNat * 256 + (b % 256).toNat * 65536 + 255 * 16777216

/-- The library call `SDL_GetRGB(pixel, _fmt, &r, &g, &b)` for the same format:
the three low bytes of the pixel. -/
def SDL_GetRGB (pixel : Nat) : Nat × Nat × Nat :=
  (pixel % 256, pixel / 256 % 256, pixel / 65536 % 256)

/-! ## State -/

/-- Modelled from the spec: a bit of `PlayerInput::dirMask`. The header
`systemstub.h`, which declares `struct PlayerInput`, is not part of the sources;
the direction mask is four independently settable bits, up, down, left, right. -/
def DIR_UP : Nat := 1
/-- Modelled from the spec: a bit of `PlayerInput::dirMask`, see `DIR_UP`. -/
def DIR_DOWN : Nat := 2
/-- Modelled from the spec: a bit of `PlayerInput::dirMask`, see `DIR_UP`. -/
def DIR_LEFT : Nat := 4
/-- Modelled from the spec: a bit of `PlayerInput::dirMask`, see `DIR_UP`. -/
def DIR_RIGHT : Nat := 8

/-- Modelled from the spec: a bit of `PlayerInput::dbgMask`. The header
`systemstub.h` is not part of the sources; the debug mask is a bit mask of debug
sub-flags. -/
def DF_FASTMODE : Nat := 1
/-- Modelled from the spec: a bit of `PlayerInput::dbgMask`, see `DF_FASTMODE`. -/
def DF_DBLOCKS : Nat := 2
/-- Modelled from the spec: a bit of `PlayerInput::dbgMask`, see `DF_FASTMODE`. -/
def DF_SETLIFE : Nat := 4

/-- Modelled from the spec: `struct PlayerInput` of `systemstub.h` (not part of
the sources), with the fields `processEvent` uses: the direction bit mask, the
momentary buttons, the captured character, the one-shot requests, the debug
mask and the quit request. `dirMask` and `dbgMask` are `uint8_t`. -/
structure PlayerInput where
  dirMask : Nat
  enter : Bool
  space : Bool
  shift : Bool
  backspace : Bool
  escape : Bool
  lastChar : Int
  save : Bool
  load : Bool
  stateSlot : Int
  rewind : Bool
  dbgMask : Nat
  quit : Bool
deriving DecidableEq

/-- Modelled from the spec: `struct Color` of the missing headers, a triple of
bytes. -/
structure Color where
  r : Nat
  g : Nat
  b : Nat
deriving DecidableEq

/-- The fields of `struct SystemStub_SDL` that the modelled operations read or
write. `_joystick` and `_controller` record whether the pointer is non-null.
`_screenBuffer` maps an element offset from the start of the allocation to the
pixel stored there; the allocation is `[0, _screenW * _screenH)`. -/
structure SystemStub_SDL where
  _pi : PlayerInput
  _controller : Bool
  _screenBuffer : Int → Nat
  _fullscreen : Bool
  _overscanColor : Nat
  _rgbPalette : Nat → Nat
  _darkPalette : Nat → Nat
  _screenW : Int
  _screenH : Int
  _joystick : Bool
  _fadeOnUpdateScreen : Bool

/-- The record after `memset(&_pi, 0, sizeof(_pi))`. -/
def PlayerInput.zero : PlayerInput :=
  { dirMask := 0, enter := false, space := false, shift := false, backspace := false,
    escape := false, lastChar := 0, save := false, load := false, stateSlot := 0,
    rewind := false, dbgMask := 0, quit := false }

/-- The method `SystemStub_SDL::setScreenSize` on the modelled fields: nothing when the size
is unchanged, otherwise a fresh zeroed (`calloc`) buffer of the new size. -/
def setScreenSize (s : SystemStub_SDL) (w h : Int) : SystemStub_SDL :=
  if s._screenW = w ∧ s._screenH = h then s
  else { s with _screenBuffer := fun _ => 0, _screenW := w, _screenH := h }

/-- The method `SystemStub_SDL::init`. `numJoysticks`, `isGameController`, `controllerOpens`
and `joystickOpens` are the answers of `SDL_NumJoysticks() > 0`,
`SDL_IsGameController`, `SDL_GameControllerOpen` and `SDL_JoystickOpen`. -/
def init (w h : Int) (fullscreen : Bool)
    (numJoysticks isGameController controllerOpens joystickOpens : Bool) : SystemStub_SDL :=
  let s0 : SystemStub_SDL :=
    { _pi := PlayerInput.zero, _controller := false, _screenBuffer := fun _ => 0,
      _fullscreen := fullscreen, _overscanColor := 0, _rgbPalette := fun _ => 0,
      _darkPalette := fun _ => 0, _screenW := 0, _screenH := 0, _joystick := false,
      _fadeOnUpdateScreen := false }
  let s1 := setScreenSize s0 w h
  if numJoysticks then
    let ctl := isGameController && controllerOpens
    { s1 with _controller := ctl, _joystick := if !ctl then joystickOpens else false }
  else s1

/-! ## Palette -/

/-- The method `SystemStub_SDL::setPaletteColor`. Both tables have 256 entries, an index
outside them is rejected. -/
def setPaletteColor (s : SystemStub_SDL) (color r g b : Int) : Option SystemStub_SDL :=
  if 0 ≤ color ∧ color < 256 then
    some { s with
      _rgbPalette := Function.update s._rgbPalette color.toNat (SDL_MapRGB r g b)
      _darkPalette := Function.update s._darkPalette color.toNat
        (SDL_MapRGB (Int.tdiv r 4) (Int.tdiv g 4) (Int.tdiv b 4)) }
  else none

/-- The method `SystemStub_SDL::setPalette`: the loop reads the bytes `pal[3*i]`, `pal[3*i+1]`,
`pal[3*i+2]` for `i = 0, ..., n-1`. -/
def setPalette (s : SystemStub_SDL) (pal : Nat → Nat) (n : Int) : Option SystemStub_SDL :=
  if n ≤ 256 then
    (List.range n.toNat).foldlM
      (fun (st : SystemStub_SDL) (i : Nat) =>
        setPaletteColor st (i : Int) ((pal (3 * i) % 256 : Nat) : Int)
          ((pal (3 * i + 1) % 256 : Nat) : Int) ((pal (3 * i + 2) % 256 : Nat) : Int))
      s
  else none

/-- The method `SystemStub_SDL::getPalette`: the loop stores the three channels of
`_rgbPalette[i]` at `pal[3*i]`, `pal[3*i+1]`, `pal[3*i+2]` for `i = 0, ..., n-1`.
The result is the output buffer after the call. -/
def getPalette (s : SystemStub_SDL) (pal : Nat → Nat) (n : Int) : Option (Nat → Nat) :=
  if n ≤ 256 then
    some ((List.range n.toNat).foldl
      (fun (out : Nat → Nat) (i : Nat) =>
        let c := SDL_GetRGB (s._rgbPalette i)
        Function.update (Function.update (Function.update out (3 * i) c.1)
          (3 * i + 1) c.2.1) (3 * i + 2) c.2.2)
      pal)
  else none

/-- The method `SystemStub_SDL::setPaletteEntry`. -/
def setPaletteEntry (s : SystemStub_SDL) (i : Int) (c : Color) : Option SystemStub_SDL :=
  setPaletteColor s i ((c.r % 256 : Nat) : Int) ((c.g % 256 : Nat) : Int)
    ((c.b % 256 : Nat) : Int)

/-- The method `SystemStub_SDL::getPaletteEntry`. -/
def getPaletteEntry (s : SystemStub_SDL) (i : Int) : Option Color :=
  if 0 ≤ i ∧ i < 256 then
    let c := SDL_GetRGB (s._rgbPalette i.toNat)
    some { r := c.1, g := c.2.1, b := c.2.2 }
  else none

/-- A call of the palette interface. -/
inductive PaletteCall where
  | setPalette (pal : Nat → Nat) (n : Int)
  | setPaletteEntry (i : Int) (c : Color)

/-- Runs one palette call. -/
def PaletteCall.run (s : SystemStub_SDL) : PaletteCall → Option SystemStub_SDL
  | .setPalette pal n => REminiCRT.setPalette s pal n
  | .setPaletteEntry i c => REminiCRT.setPaletteEntry s i c

/-- Runs a sequence of palette calls, stopping at the first one that fails. -/
def runPaletteCalls (s : SystemStub_SDL) (calls : List PaletteCall) : Option SystemStub_SDL :=
  calls.foldlM PaletteCall.run s

/-! ## Block copy -/

/-- The clipping prologue of `SystemStub_SDL::copyRect`: `none` when the function
returns early, otherwise the values of `x`, `y`, `w`, `h` on entry to the loops. -/
def copyRectClip (screenW screenH : Int) (x y w h : Int) : Option (Int × Int × Int × Int) :=
  let xr : Option Int := if x < 0 then some 0 else if x ≥ screenW then none else some x
  match xr with
  | none => none
  | some x =>
    let yr : Option Int := if y < 0 then some 0 else if y ≥ screenH then none else some y
    match yr with
    | none => none
    | some y =>
      let w := if x + w > screenW then screenW - x else w
      let h := if y + h > screenH then screenH - y else h
      some (x, y, w, h)

/-- The memory accesses of the two nested loops of `copyRect`, in execution
order, for the values `x`, `y`, `w`, `h` on entry to the loops: the pair of the
offset written in `_screenBuffer` (`p[i]`, with `p = _screenBuffer + y * _screenW + x`
advanced by `_screenW` per row) and the offset read in `buf` (`buf[i]`, with
`buf += y * pitch + x` advanced by `pitch` per row). -/
def copyRectAccesses (screenW pitch : Int) (x y w h : Int) : List (Int × Int) :=
  (List.range h.toNat).flatMap fun (j : Nat) =>
    (List.range w.toNat).map fun (i : Nat) =>
      (y * screenW + x + (j : Int) * screenW + (i : Int),
       y * pitch + x + (j : Int) * pitch + (i : Int))

/-- Performs the stores `p[i] = _rgbPalette[buf[i]]` of a list of accesses. -/
def storePixels (pal : Nat → Nat) (buf : Int → Nat) (acc : List (Int × Int))
    (fb : Int → Nat) : Int → Nat :=
  acc.foldl (fun f a => Function.update f a.1 (pal (buf a.2 % 256))) fb

/-- The offsets written by the two loops of `SystemStub_SDL::drawRect`, in
execution order. -/
def drawRectWrites (screenW : Int) (x1 y1 x2 y2 : Int) : List Int :=
  ((List.range (x2 - x1 + 1).toNat).flatMap fun (k : Nat) =>
      [y2 * screenW + (x1 + (k : Int)), y1 * screenW + (x1 + (k : Int))]) ++
  ((List.range (y2 - y1 + 1).toNat).flatMap fun (k : Nat) =>
      [(y1 + (k : Int)) * screenW + x2, (y1 + (k : Int)) * screenW + x1])

/-- The method `SystemStub_SDL::drawRect`; `none` when the assertion fails. -/
def drawRect (s : SystemStub_SDL) (x y w h : Int) (color : Nat) : Option SystemStub_SDL :=
  let x1 := x
  let y1 := y
  let x2 := x + w - 1
  let y2 := y + h - 1
  if x1 ≥ 0 ∧ x2 < s._screenW ∧ y1 ≥ 0 ∧ y2 < s._screenH then
    some { s with
      _screenBuffer := (drawRectWrites s._screenW x1 y1 x2 y2).foldl
        (fun f k => Function.update f k (s._rgbPalette (color % 256))) s._screenBuffer }
  else none

/-- The method `SystemStub_SDL::copyRect`. -/
def copyRect (s : SystemStub_SDL) (x y w h : Int) (buf : Int → Nat) (pitch : Int) :
    Option SystemStub_SDL :=
  match copyRectClip s._screenW s._screenH x y w h with
  | none => some s
  | some (x, y, w, h) =>
    let s1 : SystemStub_SDL := { s with
      _screenBuffer := storePixels s._rgbPalette buf
        (copyRectAccesses s._screenW pitch x y w h) s._screenBuffer }
    if s._pi.dbgMask &&& DF_DBLOCKS ≠ 0 then drawRect s1 x y w h 0xE7 else some s1

/-- The framebuffer offsets that `copyRect` stores to in its two loops. -/
def copyRectWritten (s : SystemStub_SDL) (x y w h : Int) (pitch : Int) : List Int :=
  match copyRectClip s._screenW s._screenH x y w h with
  | none => []
  | some (x, y, w, h) => (copyRectAccesses s._screenW pitch x y w h).map Prod.fst

/-! ## Viewport -/

/-- The `GPU_Rect` (four `float` fields) of `updateScreen`, over the rationals. -/
structure GPU_Rect where
  x : ℚ
  y : ℚ
  w : ℚ
  h : ℚ
deriving DecidableEq

/-- The destination rectangle computed by `SystemStub_SDL::updateScreen` from the
logical size `_screenW`, `_screenH` and the window size `w`, `h` returned by
`SDL_GetWindowSize`, with the `float` operations taken over the rationals. -/
def updateScreenRect (screenW screenH : Int) (w h : Int) : GPU_Rect :=
  let aspect : ℚ := (screenW : ℚ) / (screenH : ℚ)
  let scaleW : ℚ := (w : ℚ) / (screenW : ℚ)
  let scaleH : ℚ := (h : ℚ) / (screenH : ℚ)
  if scaleW < scaleH then
    let rw : ℚ := (w : ℚ)
    let rh : ℚ := (w : ℚ) / aspect
    { w := rw, h := rh, x := 0, y := ((h : ℚ) - rh) / 2 }
  else
    let rw : ℚ := (h : ℚ) * aspect
    let rh : ℚ := (h : ℚ)
    { w := rw, h := rh, x := ((w : ℚ) - rw) / 2, y := 0 }

/-! ## Input events -/

/-- The SDL key code `SDLK_RETURN`. -/
def SDLK_RETURN : Int := 13
/-- The SDL key code `SDLK_ESCAPE`. -/
def SDLK_ESCAPE : Int := 27
/-- The SDL key code `SDLK_BACKSPACE`. -/
def SDLK_BACKSPACE : Int := 8
/-- The SDL key code `SDLK_TAB`. -/
def SDLK_TAB : Int := 9
/-- The SDL key code `SDLK_SPACE`. -/
def SDLK_SPACE : Int := 32
/-- The SDL key code `SDLK_0`. -/
def SDLK_0 : Int := 48
/-- The SDL key code `SDLK_9`. -/
def SDLK_9 : Int := 57
/-- The SDL key code `SDLK_a`. -/
def SDLK_a : Int := 97
/-- The SDL key code `SDLK_b`. -/
def SDLK_b : Int := 98
/-- The SDL key code `SDLK_f`. -/
def SDLK_f : Int := 102
/-- The SDL key code `SDLK_i`. -/
def SDLK_i : Int := 105
/-- The SDL key code `SDLK_l`. -/
def SDLK_l : Int := 108
/-- The SDL key code `SDLK_r`. -/
def SDLK_r : Int := 114
/-- The SDL key code `SDLK_s`. -/
def SDLK_s : Int := 115
/-- The SDL key code `SDLK_x`. -/
def SDLK_x : Int := 120
/-- The SDL key code `SDLK_z`. -/
def SDLK_z : Int := 122
/-- The SDL constant `SDLK_SCANCODE_MASK`, `1 << 30`. -/
def SDLK_SCANCODE_MASK : Int := 1073741824
/-- The SDL key code `SDLK_PAGEUP`. -/
def SDLK_PAGEUP : Int := SDLK_SCANCODE_MASK + 75
/-- The SDL key code `SDLK_PAGEDOWN`. -/
def SDLK_PAGEDOWN : Int := SDLK_SCANCODE_MASK + 78
/-- The SDL key code `SDLK_RIGHT`. -/
def SDLK_RIGHT : Int := SDLK_SCANCODE_MASK + 79
/-- The SDL key code `SDLK_LEFT`. -/
def SDLK_LEFT : Int := SDLK_SCANCODE_MASK + 80
/-- The SDL key code `SDLK_DOWN`. -/
def SDLK_DOWN : Int := SDLK_SCANCODE_MASK + 81
/-- The SDL key code `SDLK_UP`. -/
def SDLK_UP : Int := SDLK_SCANCODE_MASK + 82
/-- The SDL key code `SDLK_KP_MINUS`. -/
def SDLK_KP_MINUS : Int := SDLK_SCANCODE_MASK + 86
/-- The SDL key code `SDLK_KP_PLUS`. -/
def SDLK_KP_PLUS : Int := SDLK_SCANCODE_MASK + 87
/-- The SDL key code `SDLK_KP_SPACE`. -/
def SDLK_KP_SPACE : Int := SDLK_SCANCODE_MASK + 205
/-- The SDL key code `SDLK_LSHIFT`. -/
def SDLK_LSHIFT : Int := SDLK_SCANCODE_MASK + 225
/-- The SDL key code `SDLK_RSHIFT`. -/
def SDLK_RSHIFT : Int := SDLK_SCANCODE_MASK + 229
/-- The SDL scan code `SDL_SCANCODE_1`. -/
def SDL_SCANCODE_1 : Int := 30
/-- The SDL scan code `SDL_SCANCODE_9`. -/
def SDL_SCANCODE_9 : Int := 38
/-- The SDL scan code `SDL_SCANCODE_0`. -/
def SDL_SCANCODE_0 : Int := 39
/-- The SDL modifier mask `KMOD_CTRL`, `KMOD_LCTRL | KMOD_RCTRL`. -/
def KMOD_CTRL : Nat := 0xC0
/-- The SDL modifier mask `KMOD_ALT`, `KMOD_LALT | KMOD_RALT`. -/
def KMOD_ALT : Nat := 0x300
/-- The SDL hat position bit `SDL_HAT_UP`. -/
def SDL_HAT_UP : Nat := 1
/-- The SDL hat position bit `SDL_HAT_RIGHT`. -/
def SDL_HAT_RIGHT : Nat := 2
/-- The SDL hat position bit `SDL_HAT_DOWN`. -/
def SDL_HAT_DOWN : Nat := 4
/-- The SDL hat position bit `SDL_HAT_LEFT`. -/
def SDL_HAT_LEFT : Nat := 8
/-- The SDL button state `SDL_PRESSED`. -/
def SDL_PRESSED : Nat := 1
/-- The SDL window event id `SDL_WINDOWEVENT_FOCUS_GAINED`. -/
def SDL_WINDOWEVENT_FOCUS_GAINED : Nat := 12
/-- The SDL window event id `SDL_WINDOWEVENT_FOCUS_LOST`. -/
def SDL_WINDOWEVENT_FOCUS_LOST : Nat := 13
/-- The SDL controller axis `SDL_CONTROLLER_AXIS_LEFTX`. -/
def SDL_CONTROLLER_AXIS_LEFTX : Nat := 0
/-- The SDL controller axis `SDL_CONTROLLER_AXIS_LEFTY`. -/
def SDL_CONTROLLER_AXIS_LEFTY : Nat := 1
/-- The SDL controller axis `SDL_CONTROLLER_AXIS_RIGHTX`. -/
def SDL_CONTROLLER_AXIS_RIGHTX : Nat := 2
/-- The SDL controller axis `SDL_CONTROLLER_AXIS_RIGHTY`. -/
def SDL_CONTROLLER_AXIS_RIGHTY : Nat := 3
/-- The SDL controller button `SDL_CONTROLLER_BUTTON_A`. -/
def SDL_CONTROLLER_BUTTON_A : Nat := 0
/-- The SDL controller button `SDL_CONTROLLER_BUTTON_B`. -/
def SDL_CONTROLLER_BUTTON_B : Nat := 1
/-- The SDL controller button `SDL_CONTROLLER_BUTTON_X`. -/
def SDL_CONTROLLER_BUTTON_X : Nat := 2
/-- The SDL controller button `SDL_CONTROLLER_BUTTON_Y`. -/
def SDL_CONTROLLER_BUTTON_Y : Nat := 3
/-- The SDL controller button `SDL_CONTROLLER_BUTTON_BACK`. -/
def SDL_CONTROLLER_BUTTON_BACK : Nat := 4
/-- The SDL controller button `SDL_CONTROLLER_BUTTON_START`. -/
def SDL_CONTROLLER_BUTTON_START : Nat := 6
/-- The SDL controller button `SDL_CONTROLLER_BUTTON_DPAD_UP`. -/
def SDL_CONTROLLER_BUTTON_DPAD_UP : Nat := 11
/-- The SDL controller button `SDL_CONTROLLER_BUTTON_DPAD_DOWN`. -/
def SDL_CONTROLLER_BUTTON_DPAD_DOWN : Nat := 12
/-- The SDL controller button `SDL_CONTROLLER_BUTTON_DPAD_LEFT`. -/
def SDL_CONTROLLER_BUTTON_DPAD_LEFT : Nat := 13
/-- The SDL controller button `SDL_CONTROLLER_BUTTON_DPAD_RIGHT`. -/
def SDL_CONTROLLER_BUTTON_DPAD_RIGHT : Nat := 14
/-- The constant `kJoystickCommitValue`. -/
def kJoystickCommitValue : Int := 3200

/-- The SDL record `SDL_Keysym`: scan code, key code (`Sint32`) and modifier
state (`Uint16`). -/
structure SDL_Keysym where
  scancode : Int
  sym : Int
  mod : Nat
deriving DecidableEq

/-- The SDL events, by the `ev.type` cases of `processEvent`, each with the
fields of the union member that case reads; `other` is every remaining type. -/
inductive SDL_Event where
  | quit
  | window (event : Nat)
  | jhat (value : Nat)
  | jaxis (axis : Nat) (value : Int)
  | jbuttondown (state : Nat) (button : Nat)
  | jbuttonup (state : Nat) (button : Nat)
  | caxis (axis : Nat) (value : Int)
  | cbuttondown (state : Nat) (button : Nat)
  | cbuttonup (state : Nat) (button : Nat)
  | keyup (keysym : SDL_Keysym)
  | keydown (keysym : SDL_Keysym)
  | other
deriving DecidableEq

/-- The statement `m |= mask` on a `uint8_t` field. -/
def setBits (m mask : Nat) : Nat := (m ||| mask) % 256

/-- The statement `m &= ~mask` on a `uint8_t` field: `~mask` is the complement
of the 32-bit `int`, the result is converted back to `uint8_t`. -/
def clearBits (m mask : Nat) : Nat := (m &&& (0xFFFFFFFF ^^^ mask)) % 256

/-- The statement `m ^= mask` on a `uint8_t` field. -/
def toggleBits (m mask : Nat) : Nat := (m ^^^ mask) % 256

/-- The function `setAsciiChar`. -/
def setAsciiChar (pi : PlayerInput) (key : SDL_Keysym) : PlayerInput :=
  if key.sym ≥ SDLK_0 ∧ key.sym ≤ SDLK_9 then
    { pi with lastChar := 48 + key.sym - SDLK_0 }
  else if key.sym ≥ SDLK_a ∧ key.sym ≤ SDLK_z then
    { pi with lastChar := 65 + key.sym - SDLK_a }
  else if key.scancode = SDL_SCANCODE_0 then
    { pi with lastChar := 48 }
  else if key.scancode ≥ SDL_SCANCODE_1 ∧ key.scancode ≤ SDL_SCANCODE_9 then
    { pi with lastChar := 49 + key.scancode - SDL_SCANCODE_1 }
  else if key.sym = SDLK_SPACE ∨ key.sym = SDLK_KP_SPACE then
    { pi with lastChar := 32 }
  else
    { pi with lastChar := 0 }

/-- The method `SystemStub_SDL::changeGraphics` on the modelled fields. -/
def changeGraphics (s : SystemStub_SDL) (fullscreen : Bool) : SystemStub_SDL :=
  if fullscreen = s._fullscreen then s else { s with _fullscreen := fullscreen }

/-- The `SDL_KEYUP` case of `processEvent`. -/
def processKeyUp (s : SystemStub_SDL) (key : SDL_Keysym) : SystemStub_SDL :=
  if key.mod &&& KMOD_ALT ≠ 0 then
    if key.sym = SDLK_RETURN then changeGraphics s (!s._fullscreen)
    else if key.sym = SDLK_x then { s with _pi := { s._pi with quit := true } }
    else s
  else if key.mod &&& KMOD_CTRL ≠ 0 then
    if key.sym = SDLK_f then
      { s with _pi := { s._pi with dbgMask := toggleBits s._pi.dbgMask DF_FASTMODE } }
    else if key.sym = SDLK_b then
      { s with _pi := { s._pi with dbgMask := toggleBits s._pi.dbgMask DF_DBLOCKS } }
    else if key.sym = SDLK_i then
      { s with _pi := { s._pi with dbgMask := toggleBits s._pi.dbgMask DF_SETLIFE } }
    else if key.sym = SDLK_s then { s with _pi := { s._pi with save := true } }
    else if key.sym = SDLK_l then { s with _pi := { s._pi with load := true } }
    else if key.sym = SDLK_r then { s with _pi := { s._pi with rewind := true } }
    else if key.sym = SDLK_KP_PLUS ∨ key.sym = SDLK_PAGEUP then
      { s with _pi := { s._pi with stateSlot := 1 } }
    else if key.sym = SDLK_KP_MINUS ∨ key.sym = SDLK_PAGEDOWN then
      { s with _pi := { s._pi with stateSlot := -1 } }
    else s
  else
    let pi := setAsciiChar s._pi key
    if key.sym = SDLK_LEFT then
      { s with _pi := { pi with dirMask := clearBits pi.dirMask DIR_LEFT } }
    else if key.sym = SDLK_RIGHT then
      { s with _pi := { pi with dirMask := clearBits pi.dirMask DIR_RIGHT } }
    else if key.sym = SDLK_UP then
      { s with _pi := { pi with dirMask := clearBits pi.dirMask DIR_UP } }
    else if key.sym = SDLK_DOWN then
      { s with _pi := { pi with dirMask := clearBits pi.dirMask DIR_DOWN } }
    else if key.sym = SDLK_SPACE then { s with _pi := { pi with space := false } }
    else if key.sym = SDLK_RSHIFT ∨ key.sym = SDLK_LSHIFT then
      { s with _pi := { pi with shift := false } }
    else if key.sym = SDLK_RETURN then { s with _pi := { pi with enter := false } }
    else if key.sym = SDLK_ESCAPE then { s with _pi := { pi with escape := false } }
    else { s with _pi := pi }

/-- The `SDL_KEYDOWN` case of `processEvent`. -/
def processKeyDown (s : SystemStub_SDL) (key : SDL_Keysym) : SystemStub_SDL :=
  if key.mod &&& (KMOD_ALT ||| KMOD_CTRL) ≠ 0 then s
  else if key.sym = SDLK_LEFT then
    { s with _pi := { s._pi with dirMask := setBits s._pi.dirMask DIR_LEFT } }
  else if key.sym = SDLK_RIGHT then
    { s with _pi := { s._pi with dirMask := setBits s._pi.dirMask DIR_RIGHT } }
  else if key.sym = SDLK_UP then
    { s with _pi := { s._pi with dirMask := setBits s._pi.dirMask DIR_UP } }
  else if key.sym = SDLK_DOWN then
    { s with _pi := { s._pi with dirMask := setBits s._pi.dirMask DIR_DOWN } }
  else if key.sym = SDLK_BACKSPACE ∨ key.sym = SDLK_TAB then
    { s with _pi := { s._pi with backspace := true } }
  else if key.sym = SDLK_SPACE then { s with _pi := { s._pi with space := true } }
  else if key.sym = SDLK_RSHIFT ∨ key.sym = SDLK_LSHIFT then
    { s with _pi := { s._pi with shift := true } }
  else if key.sym = SDLK_RETURN then { s with _pi := { s._pi with enter := true } }
  else if key.sym = SDLK_ESCAPE then { s with _pi := { s._pi with escape := true } }
  else s

/-- The `SDL_JOYHATMOTION` case of `processEvent`, inside `if (_joystick)`. -/
def processJoyHat (pi : PlayerInput) (value : Nat) : PlayerInput :=
  let d0 : Nat := 0
  let d1 := if value &&& SDL_HAT_UP ≠ 0 then setBits d0 DIR_UP else d0
  let d2 := if value &&& SDL_HAT_DOWN ≠ 0 then setBits d1 DIR_DOWN else d1
  let d3 := if value &&& SDL_HAT_LEFT ≠ 0 then setBits d2 DIR_LEFT else d2
  let d4 := if value &&& SDL_HAT_RIGHT ≠ 0 then setBits d3 DIR_RIGHT else d3
  { pi with dirMask := d4 }

/-- The `SDL_JOYAXISMOTION` case of `processEvent`, inside `if (_joystick)`. -/
def processJoyAxis (pi : PlayerInput) (axis : Nat) (value : Int) : PlayerInput :=
  if axis = 0 then
    let d := clearBits pi.dirMask (DIR_RIGHT ||| DIR_LEFT)
    if value > kJoystickCommitValue then { pi with dirMask := setBits d DIR_RIGHT }
    else if value < -kJoystickCommitValue then { pi with dirMask := setBits d DIR_LEFT }
    else { pi with dirMask := d }
  else if axis = 1 then
    let d := clearBits pi.dirMask (DIR_UP ||| DIR_DOWN)
    if value > kJoystickCommitValue then { pi with dirMask := setBits d DIR_DOWN }
    else if value < -kJoystickCommitValue then { pi with dirMask := setBits d DIR_UP }
    else { pi with dirMask := d }
  else pi

/-- The `SDL_JOYBUTTONDOWN` and `SDL_JOYBUTTONUP` cases of `processEvent`, inside
`if (_joystick)`. -/
def processJoyButton (pi : PlayerInput) (state button : Nat) : PlayerInput :=
  let pressed : Bool := decide (state = SDL_PRESSED)
  if button = 0 then { pi with space := pressed }
  else if button = 1 then { pi with shift := pressed }
  else if button = 2 then { pi with enter := pressed }
  else if button = 3 then { pi with backspace := pressed }
  else pi

/-- The `SDL_CONTROLLERAXISMOTION` case of `processEvent`, inside
`if (_controller)`. -/
def processControllerAxis (pi : PlayerInput) (axis : Nat) (value : Int) : PlayerInput :=
  if axis = SDL_CONTROLLER_AXIS_LEFTX ∨ axis = SDL_CONTROLLER_AXIS_RIGHTX then
    let d1 := if value < -kJoystickCommitValue then setBits pi.dirMask DIR_LEFT
      else clearBits pi.dirMask DIR_LEFT
    let d2 := if value > kJoystickCommitValue then setBits d1 DIR_RIGHT
      else clearBits d1 DIR_RIGHT
    { pi with dirMask := d2 }
  else if axis = SDL_CONTROLLER_AXIS_LEFTY ∨ axis = SDL_CONTROLLER_AXIS_RIGHTY then
    let d1 := if value < -kJoystickCommitValue then setBits pi.dirMask DIR_UP
      else clearBits pi.dirMask DIR_UP
    let d2 := if value > kJoystickCommitValue then setBits d1 DIR_DOWN
      else clearBits d1 DIR_DOWN
    { pi with dirMask := d2 }
  else pi

/-- The `SDL_CONTROLLERBUTTONDOWN` and `SDL_CONTROLLERBUTTONUP` cases of
`processEvent`, inside `if (_controller)`. -/
def processControllerButton (pi : PlayerInput) (state button : Nat) : PlayerInput :=
  let pressed : Bool := decide (state = SDL_PRESSED)
  if button = SDL_CONTROLLER_BUTTON_A then { pi with enter := pressed }
  else if button = SDL_CONTROLLER_BUTTON_B then { pi with space := pressed }
  else if button = SDL_CONTROLLER_BUTTON_X then { pi with shift := pressed }
  else if button = SDL_CONTROLLER_BUTTON_Y then { pi with backspace := pressed }
  else if button = SDL_CONTROLLER_BUTTON_BACK ∨ button = SDL_CONTROLLER_BUTTON_START then
    { pi with escape := pressed }
  else if button = SDL_CONTROLLER_BUTTON_DPAD_UP then
    { pi with dirMask := if pressed then setBits pi.dirMask DIR_UP
        else clearBits pi.dirMask DIR_UP }
  else if button = SDL_CONTROLLER_BUTTON_DPAD_DOWN then
    { pi with dirMask := if pressed then setBits pi.dirMask DIR_DOWN
        else clearBits pi.dirMask DIR_DOWN }
  else if button = SDL_CONTROLLER_BUTTON_DPAD_LEFT then
    { pi with dirMask := if pressed then setBits pi.dirMask DIR_LEFT
        else clearBits pi.dirMask DIR_LEFT }
  else if button = SDL_CONTROLLER_BUTTON_DPAD_RIGHT then
    { pi with dirMask := if pressed then setBits pi.dirMask DIR_RIGHT
        else clearBits pi.dirMask DIR_RIGHT }
  else pi

/-- The method `SystemStub_SDL::processEvent`: the state and the value of the
reference parameter `paused` after the call. -/
def processEvent (s : SystemStub_SDL) (ev : SDL_Event) (paused : Bool) :
    SystemStub_SDL × Bool :=
  match ev with
  | .quit => ({ s with _pi := { s._pi with quit := true } }, paused)
  | .window event =>
    if event = SDL_WINDOWEVENT_FOCUS_GAINED ∨ event = SDL_WINDOWEVENT_FOCUS_LOST then
      (s, decide (event = SDL_WINDOWEVENT_FOCUS_LOST))
    else (s, paused)
  | .jhat value =>
    if s._joystick then ({ s with _pi := processJoyHat s._pi value }, paused) else (s, paused)
  | .jaxis axis value =>
    if s._joystick then ({ s with _pi := processJoyAxis s._pi axis value }, paused)
    else (s, paused)
  | .jbuttondown state button =>
    if s._joystick then ({ s with _pi := processJoyButton s._pi state button }, paused)
    else (s, paused)
  | .jbuttonup state button =>
    if s._joystick then ({ s with _pi := processJoyButton s._pi state button }, paused)
    else (s, paused)
  | .caxis axis value =>
    if s._controller then ({ s with _pi := processControllerAxis s._pi axis value }, paused)
    else (s, paused)
  | .cbuttondown state button =>
    if s._controller then
      ({ s with _pi := processControllerButton s._pi state button }, paused)
    else (s, paused)
  | .cbuttonup state button =>
    if s._controller then
      ({ s with _pi := processControllerButton s._pi state button }, paused)
    else (s, paused)
  | .keyup key => (processKeyUp s key, paused)
  | .keydown key => (processKeyDown s key, paused)
  | .other => (s, paused)

/-- The loop of `SystemStub_SDL::processEvents` from a given value of `paused`.
The list holds the successive answers of `SDL_PollEvent`: `some ev` for an event,
`none` for an empty queue. The result is `none` when the answers run out before
the loop is left. -/
def processEventsLoop (s : SystemStub_SDL) (paused : Bool) :
    List (Option SDL_Event) → Option SystemStub_SDL
  | [] => none
  | some ev :: rest =>
    let r := processEvent s ev paused
    if r.1._pi.quit then some r.1 else processEventsLoop r.1 r.2 rest
  | none :: rest =>
    if !paused then some s else processEventsLoop s paused rest

/-- The method `SystemStub_SDL::processEvents`. -/
def processEvents (s : SystemStub_SDL) (polls : List (Option SDL_Event)) :
    Option SystemStub_SDL :=
  processEventsLoop s false polls

/-- The state after the loop of `setPalette` has run `k` times. -/
def paletteAfter (s : SystemStub_SDL) (pal : Nat → Nat) (k : Nat) : SystemStub_SDL :=
  { s with
    _rgbPalette := fun i =>
      if i < k then
        SDL_MapRGB ((pal (3 * i) % 256 : Nat) : Int) ((pal (3 * i + 1) % 256 : Nat) : Int)
          ((pal (3 * i + 2) % 256 : Nat) : Int)
      else s._rgbPalette i
    _darkPalette := fun i =>
      if i < k then
        SDL_MapRGB (Int.tdiv ((pal (3 * i) % 256 : Nat) : Int) 4)
          (Int.tdiv ((pal (3 * i + 1) % 256 : Nat) : Int) 4)
          (Int.tdiv ((pal (3 * i + 2) % 256 : Nat) : Int) 4)
      else s._darkPalette i }

/-- The darkened table holds, channel by channel, a quarter of the normal table. -/
def DarkInv (s : SystemStub_SDL) : Prop :=
  ∀ i : Nat,
    SDL_GetRGB (s._darkPalette i) =
      ((SDL_GetRGB (s._rgbPalette i)).1 / 4, (SDL_GetRGB (s._rgbPalette i)).2.1 / 4,
        (SDL_GetRGB (s._rgbPalette i)).2.2 / 4)

/-- A palette of bytes used as a concrete input. -/
def samplePal : Nat → Nat := fun k => (37 * k + 5) % 256

/-- A fresh 256 x 224 windowed stub without joystick, used as a concrete input. -/
def sampleStub : SystemStub_SDL := init 256 224 false false false false false

/-- Two palette calls used as a concrete input. -/
def sampleCalls : List PaletteCall :=
  [PaletteCall.setPaletteEntry 5 { r := 200, g := 100, b := 7 },
   PaletteCall.setPalette samplePal 2]

/-- The stub `sampleStub` after `setPalette(samplePal, 2)`, used as a concrete
input. -/
def sampleStub2 : SystemStub_SDL := paletteAfter sampleStub samplePal 2

/-- A source buffer of palette indices, used as a concrete input. -/
def sampleBuf : Int → Nat := fun k => (k % 2).toNat

/-- The unmodified LEFT arrow key, used as a concrete input. -/
def sampleKeyLeft : SDL_Keysym := { scancode := 80, sym := SDLK_LEFT, mod := 0 }

/-- The key S with the left CTRL modifier held, used as a concrete input. -/
def sampleKeyCtrlS : SDL_Keysym := { scancode := 22, sym := SDLK_s, mod := 0x40 }

/-- The stub `sampleStub` after the key-up of CTRL+S, which requests a save; used
as a concrete input. -/
def sampleSaved : SystemStub_SDL :=
  (processEvent sampleStub (SDL_Event.keyup sampleKeyCtrlS) false).1

/-- The one-shot requests, the debug mask and the quit request of two records agree. -/
def SameRequests (p q : PlayerInput) : Prop :=
  q.save = p.save ∧ q.load = p.load ∧ q.rewind = p.rewind ∧ q.quit = p.quit ∧
    q.stateSlot = p.stateSlot ∧ q.dbgMask = p.dbgMask

/-- The state `r` differs from `s` at most in the fullscreen setting and the
meta-command fields, and no one-shot request set in `s` is cleared in `r`. -/
@[reducible] def MetaCommandOnly (s r : SystemStub_SDL) : Prop :=
  r = { s with
    _fullscreen := r._fullscreen
    _pi := { s._pi with
      quit := r._pi.quit
      dbgMask := r._pi.dbgMask
      save := r._pi.save
      load := r._pi.load
      rewind := r._pi.rewind
      stateSlot := r._pi.stateSlot } } ∧
  (s._pi.save = true → r._pi.save = true) ∧
  (s._pi.load = true → r._pi.load = true) ∧
  (s._pi.rewind = true → r._pi.rewind = true) ∧
  (s._pi.quit = true → r._pi.quit = true) ∧
  (s._pi.stateSlot ≠ 0 → r._pi.stateSlot ≠ 0)

/-- The answers of `SDL_PollEvent` during one poll: two events, then an empty
queue; used as a concrete input. -/
def samplePolls : List (Option SDL_Event) :=
  [some (SDL_Event.keydown sampleKeyLeft), some (SDL_Event.keyup sampleKeyLeft), none]

/-! ## Fade request and presentation -/

/-- What one call of `updateScreen` hands to the GPU: the bytes uploaded to the
texture, the destination rectangle passed to the shader, and whether the two
black bars of the fullscreen mode are drawn. -/
structure Presented where
  pixels : Int → Nat
  rect : GPU_Rect
  blackBars : Bool

/-- The method `SystemStub_SDL::fadeScreen`. -/
def fadeScreen (s : SystemStub_SDL) : SystemStub_SDL :=
  { s with _fadeOnUpdateScreen := true }

/-- The method `SystemStub_SDL::updateScreen`; `w` and `h` are the window size
answered by `SDL_GetWindowSize`. The texture is filled from `_screenBuffer`, no
field of the stub is assigned. -/
def updateScreen (s : SystemStub_SDL) (_shakeOffset : Int) (w h : Int) :
    SystemStub_SDL × Presented :=
  (s, { pixels := s._screenBuffer
        rect := updateScreenRect s._screenW s._screenH w h
        blackBars := s._fullscreen })

/-! ## Version detection -/

/-- The table of `detectVersion`, without its terminating entry: file name, type
and name of the version. The two resource types `kResourceTypeDOS` and
`kResourceTypeAmiga` are enumerators of a header that is not part of the sources
and are parameters. -/
def detectVersionTable (kResourceTypeDOS kResourceTypeAmiga : Int) :
    List (String × Int × String) :=
  [("INTRO.SEQ", kResourceTypeDOS, "DOS CD"),
   ("MENU1SSI.MAP", kResourceTypeDOS, "DOS SSI"),
   ("LEVEL1.MAP", kResourceTypeDOS, "DOS"),
   ("LEVEL1.BNQ", kResourceTypeDOS, "DOS (Demo)"),
   ("LEVEL1.LEV", kResourceTypeAmiga, "Amiga"),
   ("DEMO.LEV", kResourceTypeAmiga, "Amiga (Demo)")]

/-- The loop of `detectVersion` over the remaining table entries; `canOpen` is
the answer of `File::open` for a file name of the data directory. -/
def detectVersionLoop (canOpen : String → Bool) : List (String × Int × String) → Int
  | [] => -1
  | e :: rest => if canOpen e.1 then e.2.1 else detectVersionLoop canOpen rest

/-- The function `detectVersion`. -/
def detectVersion (kResourceTypeDOS kResourceTypeAmiga : Int) (canOpen : String → Bool) :
    Int :=
  detectVersionLoop canOpen (detectVersionTable kResourceTypeDOS kResourceTypeAmiga)

/-- The return value of `main`: `optionsAccepted` tells whether the `getopt_long`
loop ended without an unrecognised flag (otherwise the usage is printed and 0
returned); after a version was detected the game runs and `main` returns 0. -/
def main (kResourceTypeDOS kResourceTypeAmiga : Int) (optionsAccepted : Bool)
    (canOpen : String → Bool) : Int :=
  if !optionsAccepted then 0
  else
    let version := detectVersion kResourceTypeDOS kResourceTypeAmiga canOpen
    if version = -1 then -1 else 0

/-! ## Options and the configuration file -/

/-- Modelled from the spec: `struct Options` of the missing headers, the fixed set
of boolean options that `initOptions` names. -/
structure Options where
  bypass_protection : Bool
  enable_password_menu : Bool
  enable_language_selection : Bool
  fade_out_palette : Bool
  use_tile_data : Bool
  use_text_cutscenes : Bool
  use_words_protection : Bool
  use_white_tshirt : Bool
  play_asc_cutscene : Bool
  play_caillou_cutscene : Bool
  play_metro_cutscene : Bool
  play_serrure_cutscene : Bool
  play_carte_cutscene : Bool
  play_gamesaved_sound : Bool
deriving DecidableEq

/-- The global `g_options` before `initOptions` runs: a zero-initialised object of
static storage. -/
def Options.zero : Options :=
  { bypass_protection := false,
    enable_password_menu := false,
    enable_language_selection := false,
    fade_out_palette := false,
    use_tile_data := false,
    use_text_cutscenes := false,
    use_words_protection := false,
    use_white_tshirt := false,
    play_asc_cutscene := false,
    play_caillou_cutscene := false,
    play_metro_cutscene := false,
    play_serrure_cutscene := false,
    play_carte_cutscene := false,
    play_gamesaved_sound := false }

/-- An entry of the local table `opts` of `initOptions`: the option name and the
`bool *value` pointer into `g_options`, as the read and the write through it. -/
structure OptEntry where
  name : List Char
  get : Options → Bool
  set : Options → Bool → Options

/-- The local table `opts` of `initOptions`, without its terminating entry. -/
def opts : List OptEntry :=
  [{ name := "bypass_protection".toList, get := fun o => o.bypass_protection,
     set := fun o v => { o with bypass_protection := v } },
   { name := "enable_password_menu".toList, get := fun o => o.enable_password_menu,
     set := fun o v => { o with enable_password_menu := v } },
   { name := "enable_language_selection".toList, get := fun o => o.enable_language_selection,
     set := fun o v => { o with enable_language_selection := v } },
   { name := "fade_out_palette".toList, get := fun o => o.fade_out_palette,
     set := fun o v => { o with fade_out_palette := v } },
   { name := "use_tile_data".toList, get := fun o => o.use_tile_data,
     set := fun o v => { o with use_tile_data := v } },
   { name := "use_text_cutscenes".toList, get := fun o => o.use_text_cutscenes,
     set := fun o v => { o with use_text_cutscenes := v } },
   { name := "use_words_protection".toList, get := fun o => o.use_words_protection,
     set := fun o v => { o with use_words_protection := v } },
   { name := "use_white_tshirt".toList, get := fun o => o.use_white_tshirt,
     set := fun o v => { o with use_white_tshirt := v } },
   { name := "play_asc_cutscene".toList, get := fun o => o.play_asc_cutscene,
     set := fun o v => { o with play_asc_cutscene := v } },
   { name := "play_caillou_cutscene".toList, get := fun o => o.play_caillou_cutscene,
     set := fun o v => { o with play_caillou_cutscene := v } },
   { name := "play_metro_cutscene".toList, get := fun o => o.play_metro_cutscene,
     set := fun o v => { o with play_metro_cutscene := v } },
   { name := "play_serrure_cutscene".toList, get := fun o => o.play_serrure_cutscene,
     set := fun o v => { o with play_serrure_cutscene := v } },
   { name := "play_carte_cutscene".toList, get := fun o => o.play_carte_cutscene,
     set := fun o v => { o with play_carte_cutscene := v } },
   { name := "play_gamesaved_sound".toList, get := fun o => o.play_gamesaved_sound,
     set := fun o v => { o with play_gamesaved_sound := v } }]

/-- The assignments of the defaults at the start of `initOptions`; the option
`use_tile_data` is not assigned. -/
def setDefaults (o : Options) : Options :=
  { o with
    bypass_protection := true
    enable_password_menu := false
    enable_language_selection := false
    fade_out_palette := true
    use_text_cutscenes := false
    use_words_protection := false
    use_white_tshirt := false
    play_asc_cutscene := false
    play_caillou_cutscene := false
    play_metro_cutscene := false
    play_serrure_cutscene := false
    play_carte_cutscene := false
    play_gamesaved_sound := false }

/-- The library predicate `isspace` in the C locale: space, tab, line feed,
vertical tab, form feed, carriage return. -/
def isspace (c : Char) : Bool :=
  c == ' ' || c == '\t' || c == '\n' || c == Char.ofNat 11 || c == Char.ofNat 12 || c == '\r'

/-- The library call `strchr(buf, c)` on a C string given by its characters: the
rest of the string from the first `c` on, or `none`. -/
def strchr (buf : List Char) (c : Char) : Option (List Char) :=
  match buf.dropWhile (fun x => x != c) with
  | [] => none
  | p => some p

/-- The loop over `opts` in `initOptions`: the first entry whose name equals the
first `strlen(name)` characters of `buf` (`strncmp(...) == 0`) receives `value`;
`none` when no entry matches (`foundOption` stays false). -/
def assignOption (o : Options) (buf : List Char) (value : Bool) : List OptEntry → Option Options
  | [] => none
  | e :: rest =>
    if e.name.isPrefixOf buf then some (e.set o value) else assignOption o buf value rest

/-- The body of the `while (fgets(...))` loop of `initOptions` for one content of
`buf`, given as the characters before the terminating NUL: the options
afterwards and the texts passed to `warning`. -/
def configLine (o : Options) (buf : List Char) : Options × List (List Char) :=
  if buf.head? = some '#' then (o, [])
  else
    match strchr buf '=' with
    | none => (o, [])
    | some p =>
      match (p.drop 1).dropWhile isspace with
      | [] => (o, [])
      | c :: _ =>
        let value : Bool := c == 't' || c == 'T' || c == '1'
        match assignOption o buf value opts with
        | some o' => (o', [])
        | none => (o, [buf])

/-- The successive contents that `fgets(buf, size, fp)` with `size = cap + 1`
stores for the rest of a stream: at most `cap` characters each, ending after a
line feed or at the end of the stream. `cur` holds the characters already read
for the current call. -/
def fgetsChunks (cap : Nat) : List Char → List Char → List (List Char)
  | [], cur => if cur = [] then [] else [cur]
  | c :: rest, cur =>
    if c = '\n' ∨ (cur ++ [c]).length = cap then (cur ++ [c]) :: fgetsChunks cap rest []
    else fgetsChunks cap rest (cur ++ [c])

/-- The function `initOptions` started on a value `g` of `g_options`; `file` is the
content of `rs.cfg`, or `none` when `fopen` fails. The result is the options and
the texts passed to `warning`. A chunk is seen by the loop body as a C string,
that is up to its first NUL. -/
def initOptions (g : Options) (file : Option (List Char)) : Options × List (List Char) :=
  match file with
  | none => (setDefaults g, [])
  | some content =>
    (fgetsChunks 255 content []).foldl
      (fun (acc : Options × List (List Char)) (chunk : List Char) =>
        let r := configLine acc.1 (chunk.takeWhile (fun x => x != Char.ofNat 0))
        (r.1, acc.2 ++ r.2))
      (setDefaults g, [])

/-- The configuration file of three lines used as a concrete input. -/
def sampleConfig : List Char :=
  "use_white_tshirt = True\n# comment\nfoo = bar\n".toList

/-- A sequence of events handed to `processEvent` one after the other, from a
state and a value of `paused`. -/
def runEvents (s : SystemStub_SDL) (paused : Bool) (evs : List SDL_Event) :
    SystemStub_SDL × Bool :=
  evs.foldl (fun st ev => processEvent st.1 ev st.2) (s, paused)

/-- A stub with an open joystick and no controller, used as a concrete input. -/
def sampleJoyStub : SystemStub_SDL := init 256 224 false true false false true

/-- A stub with an open controller and no joystick, used as a concrete input. -/
def samplePadStub : SystemStub_SDL := init 256 224 false true true true false

/-- The unmodified BACKSPACE key, used as a concrete input. -/
def sampleKeyBackspace : SDL_Keysym := { scancode := 42, sym := SDLK_BACKSPACE, mod := 0 }

/-- The unmodified SPACE key, used as a concrete input. -/
def sampleKeySpace : SDL_Keysym := { scancode := 44, sym := SDLK_SPACE, mod := 0 }

/-- The unmodified key A, used as a concrete input. -/
def sampleKeyA : SDL_Keysym := { scancode := 4, sym := SDLK_a, mod := 0 }

/-- The answer of `File::open` in a data directory that holds `LEVEL1.MAP` and
`LEVEL1.LEV` only; used as a concrete input. -/
def sampleCanOpen : String → Bool := fun f => f == "LEVEL1.MAP" || f == "LEVEL1.LEV"

/-- The names of the table `opts`, in table order. -/
def optNames : List (List Char) := opts.map (fun e => e.name)

/-- The entry of the table `opts` for `use_white_tshirt`, used as a concrete input. -/
def sampleOptEntry : OptEntry :=
  { name := "use_white_tshirt".toList, get := fun o => o.use_white_tshirt,
    set := fun o v => { o with use_white_tshirt := v } }

/-- A configuration file whose only line assigns `use_white_tshirt` after 300
blanks, so that the line does not fit the 256-byte buffer; used as a concrete
input. -/
def sampleLongAssignment : List Char :=
  "use_white_tshirt = ".toList ++ List.replicate 300 ' ' ++ "1\n".toList

/-- A configuration file whose only line is a comment of 255 characters followed
on the same line by the text of an assignment; used as a concrete input. -/
def sampleLongComment : List Char :=
  '#' :: List.replicate 254 'x' ++ "use_white_tshirt = 1\n".toList

/-! ## True-colour block copy and the accesses of the block copies -/

/-- The memory accesses of the two nested loops of `copyRectRgb24`, in execution
order: the pair of the offset written in `_screenBuffer` (`p[i]`, with
`p = _screenBuffer + y * _screenW + x` advanced by `_screenW` per row) and the
offset in `rgb` of the triple read (`rgb` advances by 3 after every pixel). -/
def copyRectRgb24Accesses (screenW : Int) (x y w h : Int) : List (Int × Int) :=
  (List.range h.toNat).flatMap fun (j : Nat) =>
    (List.range w.toNat).map fun (i : Nat) =>
      (y * screenW + x + (j : Int) * screenW + (i : Int),
       3 * ((j : Int) * (w.toNat : Int) + (i : Int)))

/-- Performs the stores `p[i] = SDL_MapRGB(_fmt, rgb[0], rgb[1], rgb[2])` of a
list of accesses. -/
def storeRgb24 (rgb : Int → Nat) (acc : List (Int × Int)) (fb : Int → Nat) : Int → Nat :=
  acc.foldl
    (fun f a => Function.update f a.1
      (SDL_MapRGB ((rgb a.2 % 256 : Nat) : Int) ((rgb (a.2 + 1) % 256 : Nat) : Int)
        ((rgb (a.2 + 2) % 256 : Nat) : Int)))
    fb

/-- The method `SystemStub_SDL::copyRectRgb24`; `none` when an assertion fails. -/
def copyRectRgb24 (s : SystemStub_SDL) (x y w h : Int) (rgb : Int → Nat) :
    Option SystemStub_SDL :=
  if x ≥ 0 ∧ x + w ≤ s._screenW ∧ y ≥ 0 ∧ y + h ≤ s._screenH then
    let s1 : SystemStub_SDL := { s with
      _screenBuffer := storeRgb24 rgb (copyRectRgb24Accesses s._screenW x y w h)
        s._screenBuffer }
    if s._pi.dbgMask &&& DF_DBLOCKS ≠ 0 then drawRect s1 x y w h 0xE7 else some s1
  else none

/-- The offsets of `buf` that `copyRect` reads in its two loops. -/
def copyRectRead (s : SystemStub_SDL) (x y w h : Int) (pitch : Int) : List Int :=
  match copyRectClip s._screenW s._screenH x y w h with
  | none => []
  | some (x, y, w, h) => (copyRectAccesses s._screenW pitch x y w h).map Prod.snd

/-- The framebuffer offsets that the `drawRect` call at the end of `copyRect`
stores to when the debug-blocks bit is set. -/
def copyRectOutline (s : SystemStub_SDL) (x y w h : Int) : List Int :=
  match copyRectClip s._screenW s._screenH x y w h with
  | none => []
  | some (x, y, w, h) => drawRectWrites s._screenW x y (x + w - 1) (y + h - 1)

/-- The key B with the left CTRL modifier held, used as a concrete input. -/
def sampleKeyCtrlB : SDL_Keysym := { scancode := 5, sym := SDLK_b, mod := 0x40 }

/-- The stub `sampleStub` after `setPalette(samplePal, 256)` and the key-up of
CTRL+B, which sets the debug-blocks bit; used as a concrete input. -/
def sampleDebugStub : SystemStub_SDL :=
  (processEvent (paletteAfter sampleStub samplePal 256) (SDL_Event.keyup sampleKeyCtrlB)
    false).1

/-- A tightly packed true-colour source, used as a concrete input. -/
def sampleRgb : Int → Nat := fun k => (k % 256).toNat

/-! # Theorems -/

/-! ## Palette: closed forms -/

section PaletteLemmas

/-- The three channels of a packed pixel are the three bytes it was packed from. -/
theorem SDL_GetRGB_MapRGB (r g b : Nat) (hr : r < 256) (hg : g < 256) (hb : b < 256) :
    SDL_GetRGB (SDL_MapRGB (r : Int) (g : Int) (b : Int)) = (r, g, b) := by
  simp only [SDL_GetRGB, SDL_MapRGB, Prod.mk.injEq]
  omega

/-- Truncated division by four of a byte promoted to `int`. -/
theorem tdiv_four_cast (r : Nat) : Int.tdiv (r : Int) 4 = ((r / 4 : Nat) : Int) := by
  rw [Int.tdiv_eq_ediv (by omega) (by omega)]
  omega

/-- A fold in `Option` that succeeds keeps every property each step keeps. -/
theorem foldlM_option_preserves {σ α : Type} (P : σ → Prop) (f : σ → α → Option σ)
    (hf : ∀ st a st', f st a = some st' → P st → P st') :
    ∀ (l : List α) (st st' : σ), l.foldlM f st = some st' → P st → P st' := by
  intro l
  induction l with
  | nil =>
    intro st st' h hP
    simp only [List.foldlM_nil, Option.pure_def, Option.some.injEq] at h
    exact h ▸ hP
  | cons a l ih =>
    intro st st' h hP
    simp only [List.foldlM_cons, Option.bind_eq_bind, Option.bind_eq_some] at h
    obtain ⟨st1, h1, h2⟩ := h
    exact ih st1 st' h2 (hf st a st1 h1 hP)

theorem setPalette_loop (s : SystemStub_SDL) (pal : Nat → Nat) :
    ∀ k : Nat, k ≤ 256 →
      (List.range k).foldlM
        (fun (st : SystemStub_SDL) (i : Nat) =>
          setPaletteColor st (i : Int) ((pal (3 * i) % 256 : Nat) : Int)
            ((pal (3 * i + 1) % 256 : Nat) : Int) ((pal (3 * i + 2) % 256 : Nat) : Int))
        s = some (paletteAfter s pal k) := by
  intro k
  induction k with
  | zero =>
    intro _
    simp [paletteAfter]
  | succ k ih =>
    intro hk
    rw [List.range_succ, List.foldlM_append, ih (by omega)]
    have hguard : (0 : Int) ≤ (k : Int) ∧ (k : Int) < 256 := by omega
    simp only [Option.bind_eq_bind, Option.some_bind, List.foldlM_cons, List.foldlM_nil,
      setPaletteColor, hguard, and_self, if_true, Option.pure_def, Option.bind_some,
      Int.toNat_ofNat, paletteAfter, Option.some.injEq]
    congr 1
    · funext i
      by_cases h1 : i = k
      · subst h1
        simp
      · have h2 : (i < k + 1) = (i < k) := by
          apply propext
          omega
        simp [Function.update_noteq h1, h2]
    · funext i
      by_cases h1 : i = k
      · subst h1
        simp
      · have h2 : (i < k + 1) = (i < k) := by
          apply propext
          omega
        simp [Function.update_noteq h1, h2]

/-- Closed form of `setPalette`. -/
theorem setPalette_eq (s : SystemStub_SDL) (pal : Nat → Nat) (n : Int) (hn : n ≤ 256) :
    setPalette s pal n = some (paletteAfter s pal n.toNat) := by
  unfold setPalette
  rw [if_pos hn]
  exact setPalette_loop s pal n.toNat (by omega)

/-- The output buffer after the loop of `getPalette` has run `k` times. -/
theorem getPalette_loop (rgb : Nat → Nat) (out : Nat → Nat) :
    ∀ (k : Nat) (j : Nat),
      (List.range k).foldl
        (fun (o : Nat → Nat) (i : Nat) =>
          let c := SDL_GetRGB (rgb i)
          Function.update (Function.update (Function.update o (3 * i) c.1)
            (3 * i + 1) c.2.1) (3 * i + 2) c.2.2)
        out j =
      if j < 3 * k then
        (if j % 3 = 0 then (SDL_GetRGB (rgb (j / 3))).1
         else if j % 3 = 1 then (SDL_GetRGB (rgb (j / 3))).2.1
         else (SDL_GetRGB (rgb (j / 3))).2.2)
      else out j := by
  intro k
  induction k with
  | zero =>
    intro j
    simp
  | succ k ih =>
    intro j
    rw [List.range_succ, List.foldl_append]
    simp only [List.foldl_cons, List.foldl_nil]
    by_cases h2 : j = 3 * k + 2
    · subst h2
      have e1 : (3 * k + 2) % 3 = 2 := by omega
      have e2 : (3 * k + 2) / 3 = k := by omega
      have e3 : 3 * k + 2 < 3 * (k + 1) := by omega
      simp [e1, e2, e3]
    · rw [Function.update_noteq h2]
      by_cases h1 : j = 3 * k + 1
      · subst h1
        have e1 : (3 * k + 1) % 3 = 1 := by omega
        have e2 : (3 * k + 1) / 3 = k := by omega
        have e3 : 3 * k + 1 < 3 * (k + 1) := by omega
        simp [e1, e2, e3]
      · rw [Function.update_noteq h1]
        by_cases h0 : j = 3 * k
        · subst h0
          have e1 : (3 * k) % 3 = 0 := by omega
          have e2 : (3 * k) / 3 = k := by omega
          have e3 : 3 * k < 3 * (k + 1) := by omega
          simp [e1, e2, e3]
        · rw [Function.update_noteq h0, ih j]
          have h3 : (j < 3 * (k + 1)) = (j < 3 * k) := by
            apply propext
            omega
          simp only [h3]

end PaletteLemmas

/-! ## Palette: round trip and the darkened table -/

/-- C1: for every `n ≤ 256` and every array `pal` whose first `3 * n` entries are
bytes, `setPalette(pal, n)` succeeds and a following `getPalette(out, n)` succeeds
and leaves in `out` exactly the `3 * n` bytes of `pal` (every channel of every
entry `i < n` unchanged); the rest of `out` is not touched. -/
theorem setPalette_getPalette_roundtrip (s : SystemStub_SDL) (pal out : Nat → Nat) (n : Int)
    (hn : n ≤ 256) (hpal : ∀ k : Nat, (k : Int) < 3 * n → pal k < 256) :
    ∃ s' out', setPalette s pal n = some s' ∧ getPalette s' out n = some out' ∧
      (∀ k : Nat, (k : Int) < 3 * n → out' k = pal k) ∧
      (∀ k : Nat, 3 * n ≤ (k : Int) → out' k = out k) := by
  refine ⟨paletteAfter s pal n.toNat, _, setPalette_eq s pal n hn,
    by unfold getPalette; rw [if_pos hn], ?_, ?_⟩
  · intro k hk
    rw [getPalette_loop]
    have h1 : k < 3 * n.toNat := by omega
    have h2 : k / 3 < n.toNat := by omega
    have hb0 := hpal (3 * (k / 3)) (by omega)
    have hb1 := hpal (3 * (k / 3) + 1) (by omega)
    have hb2 := hpal (3 * (k / 3) + 2) (by omega)
    simp only [if_pos h1, paletteAfter, if_pos h2]
    rw [SDL_GetRGB_MapRGB _ _ _ (Nat.mod_lt _ (by decide)) (Nat.mod_lt _ (by decide))
      (Nat.mod_lt _ (by decide))]
    have hk' := hpal k hk
    rcases (by omega : k % 3 = 0 ∨ k % 3 = 1 ∨ k % 3 = 2) with h | h | h
    · have e : 3 * (k / 3) = k := by omega
      simp only [h, if_true, e]
      exact Nat.mod_eq_of_lt hk'
    · have e : 3 * (k / 3) + 1 = k := by omega
      simp only [h, e]
      simpa using hk'
    · have e : 3 * (k / 3) + 2 = k := by omega
      simp only [h, e]
      simpa using hk'
  · intro k hk
    rw [getPalette_loop]
    have h1 : ¬ k < 3 * n.toNat := by omega
    simp only [if_neg h1]

/-- C1, at a concrete input: two entries written to a fresh 256 x 224 stub and
read back. -/
theorem setPalette_getPalette_roundtrip_witness :
    ∃ s' out', setPalette (sampleStub) samplePal 2 = some s' ∧
      getPalette s' (fun _ => 0) 2 = some out' ∧
      (∀ k : Nat, (k : Int) < 3 * 2 → out' k = samplePal k) ∧
      (∀ k : Nat, 3 * 2 ≤ (k : Int) → out' k = (fun _ => 0) k) :=
  setPalette_getPalette_roundtrip (sampleStub) samplePal
    (fun _ => 0) 2 (by decide) (fun k _ => Nat.mod_lt _ (by decide))

theorem DarkInv_init (w h : Int) (fullscreen nj gc co jo : Bool) :
    DarkInv (init w h fullscreen nj gc co jo) := by
  intro i
  unfold init setScreenSize
  simp only
  split_ifs <;> simp [SDL_GetRGB]

theorem DarkInv_setPaletteColor (s s' : SystemStub_SDL) (color : Int) (r g b : Nat)
    (h : setPaletteColor s color ((r % 256 : Nat) : Int) ((g % 256 : Nat) : Int)
      ((b % 256 : Nat) : Int) = some s') (hs : DarkInv s) : DarkInv s' := by
  unfold setPaletteColor at h
  split_ifs at h with hc
  simp only [Option.some.injEq] at h
  subst h
  intro i
  by_cases hi : i = color.toNat
  · subst hi
    simp only [Function.update_same, tdiv_four_cast]
    rw [SDL_GetRGB_MapRGB _ _ _ (Nat.mod_lt _ (by decide)) (Nat.mod_lt _ (by decide))
      (Nat.mod_lt _ (by decide))]
    rw [SDL_GetRGB_MapRGB _ _ _ (by omega) (by omega) (by omega)]
  · simp only [Function.update_noteq hi]
    exact hs i

theorem DarkInv_setPalette (s s' : SystemStub_SDL) (pal : Nat → Nat) (n : Int)
    (h : setPalette s pal n = some s') (hs : DarkInv s) : DarkInv s' := by
  unfold setPalette at h
  split_ifs at h
  exact foldlM_option_preserves DarkInv
    (fun (st : SystemStub_SDL) (i : Nat) =>
      setPaletteColor st (i : Int) ((pal (3 * i) % 256 : Nat) : Int)
        ((pal (3 * i + 1) % 256 : Nat) : Int) ((pal (3 * i + 2) % 256 : Nat) : Int))
    (fun st i st' hst hP => DarkInv_setPaletteColor st st' (i : Int) _ _ _ hst hP)
    (List.range n.toNat) s s' h hs

theorem DarkInv_run (s s' : SystemStub_SDL) (c : PaletteCall)
    (h : PaletteCall.run s c = some s') (hs : DarkInv s) : DarkInv s' := by
  cases c with
  | setPalette pal n => exact DarkInv_setPalette s s' pal n h hs
  | setPaletteEntry i c => exact DarkInv_setPaletteColor s s' i c.r c.g c.b h hs

/-- C2: in every state reached from `init` by a sequence of `setPalette` and
`setPaletteEntry` calls, for every index `i` in `0..255` each channel stored in
`_darkPalette[i]` is the corresponding channel of `_rgbPalette[i]` divided by 4
(floor division). -/
theorem darkPalette_is_quarter (w h : Int) (fullscreen nj gc co jo : Bool)
    (calls : List PaletteCall) (s : SystemStub_SDL)
    (hrun : runPaletteCalls (init w h fullscreen nj gc co jo) calls = some s)
    (i : Nat) (_hi : i < 256) :
    (SDL_GetRGB (s._darkPalette i)).1 = (SDL_GetRGB (s._rgbPalette i)).1 / 4 ∧
    (SDL_GetRGB (s._darkPalette i)).2.1 = (SDL_GetRGB (s._rgbPalette i)).2.1 / 4 ∧
    (SDL_GetRGB (s._darkPalette i)).2.2 = (SDL_GetRGB (s._rgbPalette i)).2.2 / 4 := by
  have hinv : DarkInv s :=
    foldlM_option_preserves DarkInv PaletteCall.run
      (fun st c st' hst hP => DarkInv_run st st' c hst hP) calls _ s hrun
      (DarkInv_init w h fullscreen nj gc co jo)
  have := hinv i
  rw [this]
  exact ⟨rfl, rfl, rfl⟩

/-- C2, at a concrete input: entry 5 after a `setPaletteEntry` and a `setPalette`
call on a fresh stub. -/
theorem darkPalette_is_quarter_witness :
    ∃ s, runPaletteCalls sampleStub sampleCalls = some s ∧
      (SDL_GetRGB (s._darkPalette 5)).1 = (SDL_GetRGB (s._rgbPalette 5)).1 / 4 ∧
      (SDL_GetRGB (s._darkPalette 5)).2.1 = (SDL_GetRGB (s._rgbPalette 5)).2.1 / 4 ∧
      (SDL_GetRGB (s._darkPalette 5)).2.2 = (SDL_GetRGB (s._rgbPalette 5)).2.2 / 4 :=
  ⟨_, rfl, darkPalette_is_quarter 256 224 false false false false false sampleCalls _ rfl 5
    (by decide)⟩

/-! ## Block copy: stores of the two loops -/

/-- An offset that no access writes keeps its value. -/
theorem storePixels_of_not_mem (pal : Nat → Nat) (buf : Int → Nat) (k : Int) :
    ∀ (acc : List (Int × Int)) (fb : Int → Nat), (∀ a ∈ acc, a.1 ≠ k) →
      storePixels pal buf acc fb k = fb k := by
  intro acc
  induction acc with
  | nil =>
    intro fb _
    rfl
  | cons a l ih =>
    intro fb hne
    have ha : a.1 ≠ k := hne a (List.mem_cons_self a l)
    have hl : ∀ b ∈ l, b.1 ≠ k := fun b hb => hne b (List.mem_cons_of_mem a hb)
    show storePixels pal buf l (Function.update fb a.1 (pal (buf a.2 % 256))) k = fb k
    rw [ih _ hl, Function.update_noteq (Ne.symm ha)]

/-- An offset that some access writes, all of them with the value `v`, holds `v`. -/
theorem storePixels_of_mem (pal : Nat → Nat) (buf : Int → Nat) (k : Int) (v : Nat) :
    ∀ (acc : List (Int × Int)) (fb : Int → Nat), (∃ a ∈ acc, a.1 = k) →
      (∀ a ∈ acc, a.1 = k → pal (buf a.2 % 256) = v) →
      storePixels pal buf acc fb k = v := by
  intro acc
  induction acc with
  | nil =>
    intro fb hex _
    obtain ⟨a, ha, _⟩ := hex
    exact absurd ha (List.not_mem_nil a)
  | cons a l ih =>
    intro fb hex hval
    show storePixels pal buf l (Function.update fb a.1 (pal (buf a.2 % 256))) k = v
    by_cases hl : ∃ b ∈ l, b.1 = k
    · exact ih _ hl (fun b hb hbk => hval b (List.mem_cons_of_mem a hb) hbk)
    · have hne : ∀ b ∈ l, b.1 ≠ k := fun b hb hbk => hl ⟨b, hb, hbk⟩
      rw [storePixels_of_not_mem pal buf k l _ hne]
      obtain ⟨c, hc, hck⟩ := hex
      rcases List.mem_cons.mp hc with hca | hcl
      · subst hca
        rw [← hck, Function.update_same]
        exact hval c (List.mem_cons_self c l) hck
      · exact absurd hck (hne c hcl)

/-- The accesses of the loops of `copyRect` are the pairs for `j < h`, `i < w`. -/
theorem mem_copyRectAccesses (screenW pitch x y w h : Int) (a : Int × Int) :
    a ∈ copyRectAccesses screenW pitch x y w h ↔
      ∃ j : Nat, j < h.toNat ∧ ∃ i : Nat, i < w.toNat ∧
        a = (y * screenW + x + (j : Int) * screenW + (i : Int),
             y * pitch + x + (j : Int) * pitch + (i : Int)) := by
  simp only [copyRectAccesses, List.mem_flatMap, List.mem_map, List.mem_range]
  constructor
  · rintro ⟨j, hj, i, hi, rfl⟩
    exact ⟨j, hj, i, hi, rfl⟩
  · rintro ⟨j, hj, i, hi, rfl⟩
    exact ⟨j, hj, i, hi, rfl⟩

/-- A row offset below the row length determines row and column. -/
theorem row_col_unique (W j j' i i' : Int) (hi : 0 ≤ i) (hiW : i < W) (hi' : 0 ≤ i')
    (hiW' : i' < W) (h : j * W + i = j' * W + i') : j = j' ∧ i = i' := by
  have hj : j = j' := by
    rcases lt_trichotomy j j' with hlt | heq | hgt
    · exfalso
      have h1 : 0 ≤ (j' - j - 1) * W := mul_nonneg (by omega) (by omega)
      nlinarith
    · exact heq
    · exfalso
      have h1 : 0 ≤ (j - j' - 1) * W := mul_nonneg (by omega) (by omega)
      nlinarith
  subst hj
  exact ⟨rfl, by omega⟩

/-- With the debug-blocks bit clear `copyRect` always returns, and only the
framebuffer differs afterwards. -/
theorem copyRect_of_dbg_clear (s : SystemStub_SDL) (x y w h : Int) (buf : Int → Nat)
    (pitch : Int) (hdbg : s._pi.dbgMask &&& DF_DBLOCKS = 0) :
    copyRect s x y w h buf pitch =
      some { s with _screenBuffer :=
        match copyRectClip s._screenW s._screenH x y w h with
        | none => s._screenBuffer
        | some (cx, cy, cw, ch) =>
          storePixels s._rgbPalette buf (copyRectAccesses s._screenW pitch cx cy cw ch)
            s._screenBuffer } := by
  unfold copyRect
  cases hc : copyRectClip s._screenW s._screenH x y w h with
  | none => rfl
  | some r =>
    obtain ⟨cx, cy, cw, ch⟩ := r
    simp only [hdbg, ne_eq, not_true_eq_false, if_false]

/-- The clipping prologue on a rectangle inside the framebuffer. -/
theorem copyRectClip_inside (W H x y w h : Int) (hx : 0 ≤ x) (hy : 0 ≤ y)
    (hxw : x + w ≤ W) (hyh : y + h ≤ H) :
    copyRectClip W H x y w h = if x ≥ W ∨ y ≥ H then none else some (x, y, w, h) := by
  unfold copyRectClip
  have h1 : ¬ x < 0 := by omega
  have h2 : ¬ y < 0 := by omega
  have h3 : ¬ x + w > W := by omega
  have h4 : ¬ y + h > H := by omega
  by_cases hxW : x ≥ W
  · simp [h1, hxW]
  · by_cases hyH : y ≥ H
    · simp [h1, h2, hxW, hyH]
    · simp [h1, h2, h3, h4, hxW, hyH]

/-- C5: for a rectangle inside the framebuffer (`0 ≤ x`, `0 ≤ y`, `x + w ≤ _screenW`,
`y + h ≤ _screenH`) and the debug-blocks bit clear, `copyRect` returns; afterwards
every pixel `(col, row)` of the rectangle holds `_rgbPalette[buf[row * pitch + col]]`,
every framebuffer pixel outside the rectangle is unchanged, no offset other than
those of the rectangle is written, and nothing but the framebuffer changes. -/
theorem copyRect_inside (s : SystemStub_SDL) (x y w h : Int) (buf : Int → Nat) (pitch : Int)
    (hdbg : s._pi.dbgMask &&& DF_DBLOCKS = 0) (hx : 0 ≤ x) (hy : 0 ≤ y)
    (hxw : x + w ≤ s._screenW) (hyh : y + h ≤ s._screenH) :
    ∃ s', copyRect s x y w h buf pitch = some s' ∧
      (∀ col row : Int, x ≤ col → col < x + w → y ≤ row → row < y + h →
        s'._screenBuffer (row * s._screenW + col) =
          s._rgbPalette (buf (row * pitch + col) % 256)) ∧
      (∀ col row : Int, 0 ≤ col → col < s._screenW → 0 ≤ row → row < s._screenH →
        ¬ (x ≤ col ∧ col < x + w ∧ y ≤ row ∧ row < y + h) →
        s'._screenBuffer (row * s._screenW + col) =
          s._screenBuffer (row * s._screenW + col)) ∧
      (∀ k : Int,
        (¬ ∃ col row : Int, x ≤ col ∧ col < x + w ∧ y ≤ row ∧ row < y + h ∧
          k = row * s._screenW + col) →
        s'._screenBuffer k = s._screenBuffer k) ∧
      s' = { s with _screenBuffer := s'._screenBuffer } := by
  refine ⟨_, copyRect_of_dbg_clear s x y w h buf pitch hdbg, ?_, ?_, ?_, rfl⟩
  · intro col row hc1 hc2 hr1 hr2
    have hxW : ¬ (x ≥ s._screenW ∨ y ≥ s._screenH) := by omega
    simp only [copyRectClip_inside _ _ x y w h hx hy hxw hyh, if_neg hxW]
    apply storePixels_of_mem
    · refine ⟨(y * s._screenW + x + ((row - y).toNat : Int) * s._screenW +
        ((col - x).toNat : Int), y * pitch + x + ((row - y).toNat : Int) * pitch +
        ((col - x).toNat : Int)), ?_, ?_⟩
      · rw [mem_copyRectAccesses]
        exact ⟨(row - y).toNat, by omega, (col - x).toNat, by omega, rfl⟩
      · have e1 : ((row - y).toNat : Int) = row - y := Int.toNat_of_nonneg (by omega)
        have e2 : ((col - x).toNat : Int) = col - x := Int.toNat_of_nonneg (by omega)
        simp only [e1, e2]
        ring
    · intro a ha hak
      rw [mem_copyRectAccesses] at ha
      obtain ⟨j, hj, i, hi, rfl⟩ := ha
      simp only at hak
      have hu := row_col_unique s._screenW (y + (j : Int)) row (x + (i : Int)) col
        (by omega) (by omega) (by omega) (by omega) (by linarith)
      obtain ⟨hrow, hcol⟩ := hu
      have e : y * pitch + x + (j : Int) * pitch + (i : Int) = row * pitch + col := by
        rw [← hrow, ← hcol]
        ring
      simp only [e]
  · intro col row hc1 hc2 hr1 hr2 hout
    by_cases hxW : (x ≥ s._screenW ∨ y ≥ s._screenH)
    · simp only [copyRectClip_inside _ _ x y w h hx hy hxw hyh, if_pos hxW]
    · simp only [copyRectClip_inside _ _ x y w h hx hy hxw hyh, if_neg hxW]
      apply storePixels_of_not_mem
      intro a ha hak
      rw [mem_copyRectAccesses] at ha
      obtain ⟨j, hj, i, hi, rfl⟩ := ha
      simp only at hak
      have hu := row_col_unique s._screenW (y + (j : Int)) row (x + (i : Int)) col
        (by omega) (by omega) (by omega) (by omega) (by linarith)
      obtain ⟨hrow, hcol⟩ := hu
      exact hout (by omega)
  · intro k hout
    by_cases hxW : (x ≥ s._screenW ∨ y ≥ s._screenH)
    · simp only [copyRectClip_inside _ _ x y w h hx hy hxw hyh, if_pos hxW]
    · simp only [copyRectClip_inside _ _ x y w h hx hy hxw hyh, if_neg hxW]
      apply storePixels_of_not_mem
      intro a ha hak
      rw [mem_copyRectAccesses] at ha
      obtain ⟨j, hj, i, hi, rfl⟩ := ha
      simp only at hak
      exact hout ⟨x + (i : Int), y + (j : Int), by omega, by omega, by omega, by omega,
        by rw [← hak]; ring⟩

/-- C5, at a concrete input: a 4 x 2 block at (2, 3) of the 256 x 224 framebuffer. -/
theorem copyRect_inside_witness :
    ∃ s', copyRect sampleStub2 2 3 4 2 sampleBuf 256 = some s' ∧
      (∀ col row : Int, 2 ≤ col → col < 2 + 4 → 3 ≤ row → row < 3 + 2 →
        s'._screenBuffer (row * sampleStub2._screenW + col) =
          sampleStub2._rgbPalette (sampleBuf (row * 256 + col) % 256)) ∧
      (∀ col row : Int, 0 ≤ col → col < sampleStub2._screenW → 0 ≤ row →
        row < sampleStub2._screenH →
        ¬ (2 ≤ col ∧ col < 2 + 4 ∧ 3 ≤ row ∧ row < 3 + 2) →
        s'._screenBuffer (row * sampleStub2._screenW + col) =
          sampleStub2._screenBuffer (row * sampleStub2._screenW + col)) ∧
      (∀ k : Int,
        (¬ ∃ col row : Int, 2 ≤ col ∧ col < 2 + 4 ∧ 3 ≤ row ∧ row < 3 + 2 ∧
          k = row * sampleStub2._screenW + col) →
        s'._screenBuffer k = sampleStub2._screenBuffer k) ∧
      s' = { sampleStub2 with _screenBuffer := s'._screenBuffer } :=
  copyRect_inside sampleStub2 2 3 4 2 sampleBuf 256 (by decide) (by decide) (by decide)
    (by decide) (by decide)

/-- The stub `sampleStub2` is the state after a successful `setPalette` on a fresh
stub, its framebuffer is still zeroed and entry 0 of its palette is not zero. -/
theorem sampleStub2_reached :
    setPalette sampleStub samplePal 2 = some sampleStub2 ∧
      (∀ k, sampleStub2._screenBuffer k = 0) ∧
      sampleStub2._rgbPalette 0 = 4283378181 ∧
      sampleStub2._pi.dbgMask &&& DF_DBLOCKS = 0 ∧
      sampleStub2._screenW = 256 ∧ sampleStub2._screenH = 224 :=
  ⟨setPalette_eq sampleStub samplePal 2 (by decide), fun _ => rfl, by decide, by decide,
    by decide, by decide⟩

/-- C3, evaluated where it fails: on the 256 x 224 stub reached by `setPalette`
from a fresh one, with the debug-blocks bit clear, the rectangle `x = -5, y = 0, w = 3, h = 1` has no pixel in common with the
framebuffer, and `copyRect` changes the pixel at offset 0 from 0 to
`_rgbPalette[buf[0]]`. -/
theorem copyRect_left_of_screen_writes :
    setPalette sampleStub samplePal 2 = some sampleStub2 ∧
    (∀ col row : Int, -5 ≤ col → col < -5 + 3 → 0 ≤ row → row < 0 + 1 →
      ¬ (0 ≤ col ∧ col < sampleStub2._screenW ∧ 0 ≤ row ∧ row < sampleStub2._screenH)) ∧
    sampleStub2._pi.dbgMask &&& DF_DBLOCKS = 0 ∧
    sampleStub2._screenBuffer 0 = 0 ∧
    (copyRect sampleStub2 (-5) 0 3 1 (fun _ => 0) 256).map (fun t => t._screenBuffer 0) =
      some 4283378181 ∧
    copyRectWritten sampleStub2 (-5) 0 3 1 256 = [0, 1, 2] := by
  refine ⟨setPalette_eq sampleStub samplePal 2 (by decide), ?_, by decide, by decide,
    by decide, by decide⟩
  intro col row h1 h2 _ _ hin
  omega

/-- C4, evaluated where it fails: on the 256 x 224 stub reached by `setPalette`
from a fresh one, with the debug-blocks bit clear, the rectangle `x = -5, y = 0, w = 8, h = 1` meets the framebuffer in the
columns 0, 1, 2 of row 0, and `copyRect` writes the offsets 0 to 7: the width is
not reduced by the clamped amount, and the pixel at offset 3 changes. -/
theorem copyRect_negative_x_keeps_width :
    setPalette sampleStub samplePal 2 = some sampleStub2 ∧
    (∀ col row : Int, (-5 ≤ col ∧ col < -5 + 8 ∧ 0 ≤ row ∧ row < 0 + 1) ∧
        (0 ≤ col ∧ col < sampleStub2._screenW ∧ 0 ≤ row ∧ row < sampleStub2._screenH) ↔
      row * sampleStub2._screenW + col ∈ [(0 : Int), 1, 2] ∧ row = 0) ∧
    sampleStub2._pi.dbgMask &&& DF_DBLOCKS = 0 ∧
    copyRectWritten sampleStub2 (-5) 0 8 1 256 = [0, 1, 2, 3, 4, 5, 6, 7] ∧
    sampleStub2._screenBuffer 3 = 0 ∧
    (copyRect sampleStub2 (-5) 0 8 1 (fun _ => 0) 256).map (fun t => t._screenBuffer 3) =
      some 4283378181 := by
  refine ⟨setPalette_eq sampleStub samplePal 2 (by decide), ?_, by decide, by decide,
    by decide, by decide⟩
  intro col row
  have hW : sampleStub2._screenW = 256 := by decide
  have hH : sampleStub2._screenH = 224 := by decide
  simp only [hW, hH, List.mem_cons, List.mem_singleton, List.not_mem_nil, or_false]
  constructor
  · rintro ⟨⟨h1, h2, h3, h4⟩, h5, h6, h7, h8⟩
    omega
  · rintro ⟨h1, h2⟩
    subst h2
    omega

/-- The clipping prologue in closed form. -/
theorem copyRectClip_eq (W H x y w h : Int) :
    copyRectClip W H x y w h =
      if (0 ≤ x ∧ W ≤ x) ∨ (0 ≤ y ∧ H ≤ y) then none
      else some (max x 0, max y 0,
        (if max x 0 + w > W then W - max x 0 else w),
        (if max y 0 + h > H then H - max y 0 else h)) := by
  unfold copyRectClip
  by_cases hx0 : x < 0
  · have mx : max x 0 = 0 := max_eq_right (by omega)
    have nx : ¬ (0 ≤ x ∧ W ≤ x) := by omega
    by_cases hy0 : y < 0
    · have my : max y 0 = 0 := max_eq_right (by omega)
      have ny : ¬ (0 ≤ y ∧ H ≤ y) := by omega
      simp [hx0, hy0, mx, my, nx, ny]
    · have my : max y 0 = y := max_eq_left (by omega)
      by_cases hyH : y ≥ H
      · have ny : (0 ≤ y ∧ H ≤ y) := by omega
        simp [hx0, hy0, hyH, ny]
      · have ny : ¬ (0 ≤ y ∧ H ≤ y) := by omega
        simp [hx0, hy0, hyH, mx, my, nx, ny]
  · have mx : max x 0 = x := max_eq_left (by omega)
    by_cases hxW : x ≥ W
    · have nx : (0 ≤ x ∧ W ≤ x) := by omega
      simp [hx0, hxW, nx]
    · have nx : ¬ (0 ≤ x ∧ W ≤ x) := by omega
      by_cases hy0 : y < 0
      · have my : max y 0 = 0 := max_eq_right (by omega)
        have ny : ¬ (0 ≤ y ∧ H ≤ y) := by omega
        simp [hx0, hxW, hy0, mx, my, nx, ny]
      · have my : max y 0 = y := max_eq_left (by omega)
        by_cases hyH : y ≥ H
        · have ny : (0 ≤ y ∧ H ≤ y) := by omega
          simp [hx0, hxW, hy0, hyH, ny]
        · have ny : ¬ (0 ≤ y ∧ H ≤ y) := by omega
          simp [hx0, hxW, hy0, hyH, mx, my, nx, ny]

/-- No access is made when the width or the height is not positive. -/
theorem copyRectAccesses_empty (W pitch x y w h : Int) (hwh : w ≤ 0 ∨ h ≤ 0) :
    copyRectAccesses W pitch x y w h = [] := by
  rcases hwh with h0 | h0
  · have : w.toNat = 0 := by omega
    simp [copyRectAccesses, this]
  · have : h.toNat = 0 := by omega
    simp [copyRectAccesses, this]

/-- A rectangle that starts right of or below the framebuffer, or that is empty,
is not copied: `copyRect` with the debug-blocks bit clear returns the state
unchanged. -/
theorem copyRect_right_below_or_empty (s : SystemStub_SDL) (x y w h : Int) (buf : Int → Nat)
    (pitch : Int) (hdbg : s._pi.dbgMask &&& DF_DBLOCKS = 0)
    (hout : (0 ≤ x ∧ s._screenW ≤ x) ∨ (0 ≤ y ∧ s._screenH ≤ y) ∨ w ≤ 0 ∨ h ≤ 0) :
    copyRect s x y w h buf pitch = some s := by
  rw [copyRect_of_dbg_clear s x y w h buf pitch hdbg, copyRectClip_eq]
  by_cases hret : (0 ≤ x ∧ s._screenW ≤ x) ∨ (0 ≤ y ∧ s._screenH ≤ y)
  · simp only [if_pos hret]
  · simp only [if_neg hret]
    rw [copyRectAccesses_empty]
    · rfl
    · have hm1 := le_max_left x 0
      have hm2 := le_max_right x 0
      have hm3 := le_max_left y 0
      have hm4 := le_max_right y 0
      rcases max_choice x 0 with e1 | e1 <;> rcases max_choice y 0 with e2 | e2 <;>
        split_ifs <;> omega

/-! ## Viewport -/

/-- The width-constrained branch is taken exactly when `Ww * Lh < Wh * Lw`. -/
theorem scale_lt_iff (Lw Lh Ww Wh : ℚ) (hLw : 0 < Lw) (hLh : 0 < Lh) :
    Ww / Lw < Wh / Lh ↔ Ww * Lh < Wh * Lw :=
  div_lt_div_iff₀ hLw hLh

/-- C6: for positive logical and window sizes the rectangle computed by
`updateScreen`, in exact rational arithmetic, lies inside the window. -/
theorem updateScreenRect_inside_window (Lw Lh Ww Wh : Int) (hLw : 0 < Lw) (hLh : 0 < Lh)
    (hWw : 0 < Ww) (hWh : 0 < Wh) :
    0 ≤ (updateScreenRect Lw Lh Ww Wh).x ∧ 0 ≤ (updateScreenRect Lw Lh Ww Wh).y ∧
    (updateScreenRect Lw Lh Ww Wh).x + (updateScreenRect Lw Lh Ww Wh).w ≤ (Ww : ℚ) ∧
    (updateScreenRect Lw Lh Ww Wh).y + (updateScreenRect Lw Lh Ww Wh).h ≤ (Wh : ℚ) := by
  have a : (0 : ℚ) < (Lw : ℚ) := by exact_mod_cast hLw
  have b : (0 : ℚ) < (Lh : ℚ) := by exact_mod_cast hLh
  have c : (0 : ℚ) < (Ww : ℚ) := by exact_mod_cast hWw
  have d : (0 : ℚ) < (Wh : ℚ) := by exact_mod_cast hWh
  unfold updateScreenRect
  simp only
  have e1 : (Ww : ℚ) / ((Lw : ℚ) / (Lh : ℚ)) = (Ww : ℚ) * (Lh : ℚ) / (Lw : ℚ) := by
    field_simp
  have e2 : (Wh : ℚ) * ((Lw : ℚ) / (Lh : ℚ)) = (Wh : ℚ) * (Lw : ℚ) / (Lh : ℚ) := by
    field_simp
  split_ifs with hlt
  · rw [scale_lt_iff _ _ _ _ a b] at hlt
    have hle : (Ww : ℚ) * (Lh : ℚ) / (Lw : ℚ) ≤ (Wh : ℚ) := by
      rw [div_le_iff₀ a]
      exact le_of_lt hlt
    have hpos : 0 ≤ (Ww : ℚ) * (Lh : ℚ) / (Lw : ℚ) := by positivity
    simp only [e1]
    refine ⟨le_refl _, ?_, ?_, ?_⟩
    · linarith
    · linarith
    · linarith
  · rw [scale_lt_iff _ _ _ _ a b, not_lt] at hlt
    have hle : (Wh : ℚ) * (Lw : ℚ) / (Lh : ℚ) ≤ (Ww : ℚ) := by
      rw [div_le_iff₀ b]
      exact hlt
    have hpos : 0 ≤ (Wh : ℚ) * (Lw : ℚ) / (Lh : ℚ) := by positivity
    simp only [e2]
    refine ⟨?_, le_refl _, ?_, ?_⟩
    · linarith
    · linarith
    · linarith

/-- C6, at a concrete input: a 256 x 224 picture in a 1920 x 1080 window. -/
theorem updateScreenRect_inside_window_witness :
    0 ≤ (updateScreenRect 256 224 1920 1080).x ∧ 0 ≤ (updateScreenRect 256 224 1920 1080).y ∧
    (updateScreenRect 256 224 1920 1080).x + (updateScreenRect 256 224 1920 1080).w ≤
      ((1920 : Int) : ℚ) ∧
    (updateScreenRect 256 224 1920 1080).y + (updateScreenRect 256 224 1920 1080).h ≤
      ((1080 : Int) : ℚ) :=
  updateScreenRect_inside_window 256 224 1920 1080 (by decide) (by decide) (by decide)
    (by decide)

/-- C7: for positive logical and window sizes the rectangle computed by
`updateScreen`, in exact rational arithmetic, has `w / h = Lw / Lh` and is centred:
when `Ww / Lw < Wh / Lh` then `w = Ww`, `h = Ww / (Lw / Lh)`, `x = 0` and
`y = (Wh - h) / 2`; otherwise `h = Wh`, `w = Wh * (Lw / Lh)`, `y = 0` and
`x = (Ww - w) / 2`. In both cases the margins on either side are equal:
`2 * x + w = Ww` and `2 * y + h = Wh`. -/
theorem updateScreenRect_aspect_centred (Lw Lh Ww Wh : Int) (hLw : 0 < Lw) (hLh : 0 < Lh)
    (hWw : 0 < Ww) (hWh : 0 < Wh) :
    (updateScreenRect Lw Lh Ww Wh).w / (updateScreenRect Lw Lh Ww Wh).h =
      (Lw : ℚ) / (Lh : ℚ) ∧
    (((Ww : ℚ) / (Lw : ℚ) < (Wh : ℚ) / (Lh : ℚ)) →
      (updateScreenRect Lw Lh Ww Wh).w = (Ww : ℚ) ∧
      (updateScreenRect Lw Lh Ww Wh).h = (Ww : ℚ) / ((Lw : ℚ) / (Lh : ℚ)) ∧
      (updateScreenRect Lw Lh Ww Wh).x = 0 ∧
      (updateScreenRect Lw Lh Ww Wh).y =
        ((Wh : ℚ) - (updateScreenRect Lw Lh Ww Wh).h) / 2) ∧
    (¬ ((Ww : ℚ) / (Lw : ℚ) < (Wh : ℚ) / (Lh : ℚ)) →
      (updateScreenRect Lw Lh Ww Wh).h = (Wh : ℚ) ∧
      (updateScreenRect Lw Lh Ww Wh).w = (Wh : ℚ) * ((Lw : ℚ) / (Lh : ℚ)) ∧
      (updateScreenRect Lw Lh Ww Wh).y = 0 ∧
      (updateScreenRect Lw Lh Ww Wh).x =
        ((Ww : ℚ) - (updateScreenRect Lw Lh Ww Wh).w) / 2) ∧
    2 * (updateScreenRect Lw Lh Ww Wh).x + (updateScreenRect Lw Lh Ww Wh).w = (Ww : ℚ) ∧
    2 * (updateScreenRect Lw Lh Ww Wh).y + (updateScreenRect Lw Lh Ww Wh).h = (Wh : ℚ) := by
  have a : (Lw : ℚ) ≠ 0 := by exact_mod_cast (ne_of_gt hLw)
  have b : (Lh : ℚ) ≠ 0 := by exact_mod_cast (ne_of_gt hLh)
  have c : (Ww : ℚ) ≠ 0 := by exact_mod_cast (ne_of_gt hWw)
  have d : (Wh : ℚ) ≠ 0 := by exact_mod_cast (ne_of_gt hWh)
  unfold updateScreenRect
  simp only
  refine ⟨?_, ?_, ?_, ?_, ?_⟩
  · split_ifs with hlt
    · simp only
      field_simp
      ring
    · simp only
      field_simp
      ring
  · intro hlt
    simp only [if_pos hlt, and_self]
  · intro hlt
    simp only [if_neg hlt, and_self]
  · split_ifs with hlt
    · simp only
      ring
    · simp only
      ring
  · split_ifs with hlt
    · simp only
      ring
    · simp only
      ring

/-- C7, at a concrete input: a 256 x 224 picture in a 1920 x 1080 window. -/
theorem updateScreenRect_aspect_centred_witness :
    (updateScreenRect 256 224 1920 1080).w / (updateScreenRect 256 224 1920 1080).h =
      ((256 : Int) : ℚ) / ((224 : Int) : ℚ) ∧
    ((((1920 : Int) : ℚ) / ((256 : Int) : ℚ) < ((1080 : Int) : ℚ) / ((224 : Int) : ℚ)) →
      (updateScreenRect 256 224 1920 1080).w = ((1920 : Int) : ℚ) ∧
      (updateScreenRect 256 224 1920 1080).h =
        ((1920 : Int) : ℚ) / (((256 : Int) : ℚ) / ((224 : Int) : ℚ)) ∧
      (updateScreenRect 256 224 1920 1080).x = 0 ∧
      (updateScreenRect 256 224 1920 1080).y =
        (((1080 : Int) : ℚ) - (updateScreenRect 256 224 1920 1080).h) / 2) ∧
    (¬ (((1920 : Int) : ℚ) / ((256 : Int) : ℚ) < ((1080 : Int) : ℚ) / ((224 : Int) : ℚ)) →
      (updateScreenRect 256 224 1920 1080).h = ((1080 : Int) : ℚ) ∧
      (updateScreenRect 256 224 1920 1080).w =
        ((1080 : Int) : ℚ) * (((256 : Int) : ℚ) / ((224 : Int) : ℚ)) ∧
      (updateScreenRect 256 224 1920 1080).y = 0 ∧
      (updateScreenRect 256 224 1920 1080).x =
        (((1920 : Int) : ℚ) - (updateScreenRect 256 224 1920 1080).w) / 2) ∧
    2 * (updateScreenRect 256 224 1920 1080).x + (updateScreenRect 256 224 1920 1080).w =
      ((1920 : Int) : ℚ) ∧
    2 * (updateScreenRect 256 224 1920 1080).y + (updateScreenRect 256 224 1920 1080).h =
      ((1080 : Int) : ℚ) :=
  updateScreenRect_aspect_centred 256 224 1920 1080 (by decide) (by decide) (by decide)
    (by decide)

/-! ## Input: bit operations on the masks -/

theorem mod_256_eq_and (x : Nat) : x % 256 = x &&& 255 := by
  have h := Nat.and_pow_two_sub_one_eq_mod x 8
  simpa using h.symm

theorem and_or_self_right (m b : Nat) : (m &&& b) ||| b = b := by
  apply Nat.eq_of_testBit_eq
  intro i
  simp only [Nat.testBit_or, Nat.testBit_and]
  cases m.testBit i <;> simp

theorem or_eq_zero_both (a b : Nat) (h : a ||| b = 0) : a = 0 ∧ b = 0 := by
  constructor
  · apply Nat.eq_of_testBit_eq
    intro i
    have hi := congrArg (fun n => n.testBit i) h
    simp only [Nat.testBit_or, Nat.zero_testBit, Bool.or_eq_false_iff] at hi
    simp [hi.1]
  · apply Nat.eq_of_testBit_eq
    intro i
    have hi := congrArg (fun n => n.testBit i) h
    simp only [Nat.testBit_or, Nat.zero_testBit, Bool.or_eq_false_iff] at hi
    simp [hi.2]

/-- The bits `c` of a byte after `m |= b`. -/
theorem setBits_and (m b c x : Nat) (hc : 255 &&& c = c) (hbc : b &&& c = x) :
    setBits m b &&& c = (m &&& c) ||| x := by
  unfold setBits
  rw [mod_256_eq_and, Nat.and_assoc, hc, Nat.and_distrib_right, hbc]

/-- The bits `c` of a byte after `m &= ~b`. -/
theorem clearBits_and (m b c x : Nat) (hc : 255 &&& c = c)
    (hbc : (0xFFFFFFFF ^^^ b) &&& c = x) : clearBits m b &&& c = m &&& x := by
  unfold clearBits
  rw [mod_256_eq_and, Nat.and_assoc, hc, Nat.and_assoc, hbc]

/-- The bits `c`, disjoint from `b`, of a byte after `m &= ~b`. -/
theorem clearBits_and_other (m b c : Nat) (hc : 255 &&& c = c)
    (hbc : (0xFFFFFFFF ^^^ b) &&& c = c) : clearBits m b &&& c = m &&& c :=
  clearBits_and m b c c hc hbc

/-- A modifier state without ALT and CTRL fails both tests of the key-up case. -/
theorem unmodified_split (m : Nat) (h : m &&& (KMOD_ALT ||| KMOD_CTRL) = 0) :
    m &&& KMOD_ALT = 0 ∧ m &&& KMOD_CTRL = 0 := by
  rw [Nat.and_or_distrib_left] at h
  exact or_eq_zero_both _ _ h

theorem setAsciiChar_eq (pi : PlayerInput) (key : SDL_Keysym) :
    setAsciiChar pi key = { pi with lastChar := (setAsciiChar pi key).lastChar } := by
  unfold setAsciiChar
  split_ifs <;> rfl

/-! ## Input: keyboard direction bits -/

/-- An unmodified key-down of an arrow key performs `dirMask |= bit`. -/
theorem keydown_arrow_dirMask (s : SystemStub_SDL) (key : SDL_Keysym) (paused : Bool)
    (bit : Nat) (hmod : key.mod &&& (KMOD_ALT ||| KMOD_CTRL) = 0)
    (hkey : (key.sym, bit) ∈
      [(SDLK_LEFT, DIR_LEFT), (SDLK_RIGHT, DIR_RIGHT), (SDLK_UP, DIR_UP), (SDLK_DOWN, DIR_DOWN)]) :
    (processEvent s (SDL_Event.keydown key) paused).1._pi.dirMask =
      setBits s._pi.dirMask bit := by
  simp only [List.mem_cons, Prod.mk.injEq, List.mem_singleton, List.not_mem_nil, or_false]
    at hkey
  have d1 : SDLK_RIGHT ≠ SDLK_LEFT := by decide
  have d2 : SDLK_UP ≠ SDLK_LEFT := by decide
  have d3 : SDLK_UP ≠ SDLK_RIGHT := by decide
  have d4 : SDLK_DOWN ≠ SDLK_LEFT := by decide
  have d5 : SDLK_DOWN ≠ SDLK_RIGHT := by decide
  have d6 : SDLK_DOWN ≠ SDLK_UP := by decide
  rcases hkey with ⟨h1, h2⟩ | ⟨h1, h2⟩ | ⟨h1, h2⟩ | ⟨h1, h2⟩ <;> subst h2 <;>
    simp [processEvent, processKeyDown, hmod, h1, d1, d2, d3, d4, d5, d6]

/-- An unmodified key-up of an arrow key performs `dirMask &= ~bit`. -/
theorem keyup_arrow_dirMask (s : SystemStub_SDL) (key : SDL_Keysym) (paused : Bool)
    (bit : Nat) (hmod : key.mod &&& (KMOD_ALT ||| KMOD_CTRL) = 0)
    (hkey : (key.sym, bit) ∈
      [(SDLK_LEFT, DIR_LEFT), (SDLK_RIGHT, DIR_RIGHT), (SDLK_UP, DIR_UP), (SDLK_DOWN, DIR_DOWN)]) :
    (processEvent s (SDL_Event.keyup key) paused).1._pi.dirMask =
      clearBits s._pi.dirMask bit := by
  simp only [List.mem_cons, Prod.mk.injEq, List.mem_singleton, List.not_mem_nil, or_false]
    at hkey
  obtain ⟨ha, hc⟩ := unmodified_split key.mod hmod
  have d1 : SDLK_RIGHT ≠ SDLK_LEFT := by decide
  have d2 : SDLK_UP ≠ SDLK_LEFT := by decide
  have d3 : SDLK_UP ≠ SDLK_RIGHT := by decide
  have d4 : SDLK_DOWN ≠ SDLK_LEFT := by decide
  have d5 : SDLK_DOWN ≠ SDLK_RIGHT := by decide
  have d6 : SDLK_DOWN ≠ SDLK_UP := by decide
  have hasc : (setAsciiChar s._pi key).dirMask = s._pi.dirMask := by
    rw [setAsciiChar_eq]
  rcases hkey with ⟨h1, h2⟩ | ⟨h1, h2⟩ | ⟨h1, h2⟩ | ⟨h1, h2⟩ <;> subst h2 <;>
    simp [processEvent, processKeyUp, ha, hc, h1, d1, d2, d3, d4, d5, d6, hasc]

/-- C8: keyboard direction bits are independent. For every prior state, an
unmodified (no ALT, no CTRL) key-down of an arrow key sets that key's bit of
`dirMask`, an unmodified key-up of it clears that bit, and both leave the other
three direction bits as they were. Starting from `dirMask = 0`, key-down LEFT,
key-down RIGHT, key-up LEFT leaves `dirMask = DIR_RIGHT`. -/
theorem keyboard_direction_bits (s : SystemStub_SDL) (key : SDL_Keysym) (paused : Bool)
    (bit : Nat) (hmod : key.mod &&& (KMOD_ALT ||| KMOD_CTRL) = 0)
    (hkey : (key.sym, bit) ∈
      [(SDLK_LEFT, DIR_LEFT), (SDLK_RIGHT, DIR_RIGHT), (SDLK_UP, DIR_UP), (SDLK_DOWN, DIR_DOWN)]) :
    (processEvent s (SDL_Event.keydown key) paused).1._pi.dirMask &&& bit = bit ∧
    (processEvent s (SDL_Event.keyup key) paused).1._pi.dirMask &&& bit = 0 ∧
    (∀ other ∈ [DIR_UP, DIR_DOWN, DIR_LEFT, DIR_RIGHT], other ≠ bit →
      (processEvent s (SDL_Event.keydown key) paused).1._pi.dirMask &&& other =
        s._pi.dirMask &&& other ∧
      (processEvent s (SDL_Event.keyup key) paused).1._pi.dirMask &&& other =
        s._pi.dirMask &&& other) ∧
    (∀ kl kr kl' : SDL_Keysym, s._pi.dirMask = 0 →
      kl.sym = SDLK_LEFT → kl.mod &&& (KMOD_ALT ||| KMOD_CTRL) = 0 →
      kr.sym = SDLK_RIGHT → kr.mod &&& (KMOD_ALT ||| KMOD_CTRL) = 0 →
      kl'.sym = SDLK_LEFT → kl'.mod &&& (KMOD_ALT ||| KMOD_CTRL) = 0 →
      (processEvent
        (processEvent (processEvent s (SDL_Event.keydown kl) paused).1
          (SDL_Event.keydown kr) paused).1
        (SDL_Event.keyup kl') paused).1._pi.dirMask = DIR_RIGHT) := by
  rw [keydown_arrow_dirMask s key paused bit hmod hkey,
    keyup_arrow_dirMask s key paused bit hmod hkey]
  have hbit : bit = DIR_LEFT ∨ bit = DIR_RIGHT ∨ bit = DIR_UP ∨ bit = DIR_DOWN := by
    simp only [List.mem_cons, Prod.mk.injEq, List.mem_singleton, List.not_mem_nil, or_false]
      at hkey
    rcases hkey with ⟨_, h2⟩ | ⟨_, h2⟩ | ⟨_, h2⟩ | ⟨_, h2⟩
    · exact Or.inl h2
    · exact Or.inr (Or.inl h2)
    · exact Or.inr (Or.inr (Or.inl h2))
    · exact Or.inr (Or.inr (Or.inr h2))
  refine ⟨?_, ?_, ?_, ?_⟩
  · rcases hbit with h | h | h | h <;> subst h <;>
      rw [setBits_and _ _ _ _ (by decide) (Nat.and_self _), and_or_self_right]
  · rcases hbit with h | h | h | h <;> subst h <;>
      rw [clearBits_and _ _ _ 0 (by decide) (by decide), Nat.and_zero]
  · intro other hother hne
    simp only [List.mem_cons, List.mem_singleton, List.not_mem_nil, or_false] at hother
    rcases hbit with h | h | h | h <;> subst h <;>
      rcases hother with h' | h' | h' | h' <;> subst h' <;>
      first
        | exact absurd rfl hne
        | exact ⟨by rw [setBits_and _ _ _ 0 (by decide) (by decide), Nat.or_zero],
            clearBits_and_other _ _ _ (by decide) (by decide)⟩
  · intro kl kr kl' h0 hl hlm hr hrm hl' hlm'
    rw [keyup_arrow_dirMask _ kl' paused DIR_LEFT hlm' (by simp [hl']),
      keydown_arrow_dirMask _ kr paused DIR_RIGHT hrm (by simp [hr]),
      keydown_arrow_dirMask _ kl paused DIR_LEFT hlm (by simp [hl]), h0]
    decide

/-- C8, at a concrete input: the unmodified LEFT arrow on a fresh stub. -/
theorem keyboard_direction_bits_witness :
    sampleKeyLeft.mod &&& (KMOD_ALT ||| KMOD_CTRL) = 0 ∧
    (processEvent sampleStub (SDL_Event.keydown sampleKeyLeft) false).1._pi.dirMask &&&
      DIR_LEFT = DIR_LEFT ∧
    (processEvent sampleStub (SDL_Event.keyup sampleKeyLeft) false).1._pi.dirMask &&&
      DIR_LEFT = 0 :=
  ⟨by decide,
    (keyboard_direction_bits sampleStub sampleKeyLeft false DIR_LEFT (by decide)
      (by decide)).1,
    (keyboard_direction_bits sampleStub sampleKeyLeft false DIR_LEFT (by decide)
      (by decide)).2.1⟩

/-! ## Input: one-shot flags and modifier combinations -/

/-- The joystick and controller cases change at most the direction mask and the
five buttons. -/
theorem processJoyHat_frame (pi : PlayerInput) (value : Nat) :
    processJoyHat pi value = { pi with dirMask := (processJoyHat pi value).dirMask } := rfl

theorem processJoyAxis_frame (pi : PlayerInput) (axis : Nat) (value : Int) :
    processJoyAxis pi axis value =
      { pi with dirMask := (processJoyAxis pi axis value).dirMask } := by
  generalize hr : processJoyAxis pi axis value = r
  unfold processJoyAxis at hr
  split_ifs at hr <;> subst hr <;> rfl

theorem processJoyButton_frame (pi : PlayerInput) (state button : Nat) :
    processJoyButton pi state button =
      { pi with
        space := (processJoyButton pi state button).space
        shift := (processJoyButton pi state button).shift
        enter := (processJoyButton pi state button).enter
        backspace := (processJoyButton pi state button).backspace } := by
  generalize hr : processJoyButton pi state button = r
  unfold processJoyButton at hr
  split_ifs at hr <;> subst hr <;> rfl

theorem processControllerAxis_frame (pi : PlayerInput) (axis : Nat) (value : Int) :
    processControllerAxis pi axis value =
      { pi with dirMask := (processControllerAxis pi axis value).dirMask } := by
  generalize hr : processControllerAxis pi axis value = r
  unfold processControllerAxis at hr
  split_ifs at hr <;> subst hr <;> rfl

/-- A property of both branches holds of the conditional. -/
theorem ite_both {α : Type} (P : α → Prop) (c : Prop) [Decidable c] (a b : α)
    (ha : P a) (hb : P b) : P (if c then a else b) := by
  split_ifs
  · exact ha
  · exact hb

theorem processControllerButton_frame (pi : PlayerInput) (state button : Nat) :
    SameRequests pi (processControllerButton pi state button) ∧
      (processControllerButton pi state button).lastChar = pi.lastChar := by
  unfold processControllerButton
  simp only
  repeat' (first
    | exact ⟨⟨rfl, rfl, rfl, rfl, rfl, rfl⟩, rfl⟩
    | apply ite_both (fun r : PlayerInput => SameRequests pi r ∧ r.lastChar = pi.lastChar))

/-- The key-down case changes at most the direction mask and the five buttons. -/
theorem processKeyDown_frame (s : SystemStub_SDL) (key : SDL_Keysym) :
    SameRequests s._pi (processKeyDown s key)._pi ∧
      (processKeyDown s key)._pi.lastChar = s._pi.lastChar ∧
      processKeyDown s key = { s with _pi := (processKeyDown s key)._pi } := by
  unfold processKeyDown
  repeat' (first
    | exact ⟨⟨rfl, rfl, rfl, rfl, rfl, rfl⟩, rfl, rfl⟩
    | apply ite_both (fun r : SystemStub_SDL =>
        SameRequests s._pi r._pi ∧ r._pi.lastChar = s._pi.lastChar ∧
          r = { s with _pi := r._pi }))

/-- The key-up case without ALT and CTRL changes at most the captured character,
the direction mask and the buttons. -/
theorem processKeyUp_frame_unmodified (s : SystemStub_SDL) (key : SDL_Keysym)
    (ha : key.mod &&& KMOD_ALT = 0) (hc : key.mod &&& KMOD_CTRL = 0) :
    SameRequests s._pi (processKeyUp s key)._pi ∧
      processKeyUp s key = { s with _pi := (processKeyUp s key)._pi } := by
  unfold processKeyUp
  simp only [ha, hc, ne_eq, not_true_eq_false, if_false]
  rw [setAsciiChar_eq]
  repeat' (first
    | exact ⟨⟨rfl, rfl, rfl, rfl, rfl, rfl⟩, rfl⟩
    | apply ite_both (fun r : SystemStub_SDL =>
        SameRequests s._pi r._pi ∧ r = { s with _pi := r._pi }))

/-- The key-up case with ALT or CTRL changes at most the fullscreen setting and
the meta-command fields, and sets, never clears, the one-shot requests. -/
theorem processKeyUp_modified (s : SystemStub_SDL) (key : SDL_Keysym)
    (hm : key.mod &&& KMOD_ALT ≠ 0 ∨ key.mod &&& KMOD_CTRL ≠ 0) :
    processKeyUp s key =
      { s with
        _fullscreen := (processKeyUp s key)._fullscreen
        _pi := { s._pi with
          quit := (processKeyUp s key)._pi.quit
          dbgMask := (processKeyUp s key)._pi.dbgMask
          save := (processKeyUp s key)._pi.save
          load := (processKeyUp s key)._pi.load
          rewind := (processKeyUp s key)._pi.rewind
          stateSlot := (processKeyUp s key)._pi.stateSlot } } ∧
    (s._pi.save = true → (processKeyUp s key)._pi.save = true) ∧
    (s._pi.load = true → (processKeyUp s key)._pi.load = true) ∧
    (s._pi.rewind = true → (processKeyUp s key)._pi.rewind = true) ∧
    (s._pi.quit = true → (processKeyUp s key)._pi.quit = true) ∧
    (s._pi.stateSlot ≠ 0 → (processKeyUp s key)._pi.stateSlot ≠ 0) := by
  have main : MetaCommandOnly s (processKeyUp s key) := by
    unfold processKeyUp changeGraphics
    by_cases ha : key.mod &&& KMOD_ALT ≠ 0
    · rw [if_pos ha]
      repeat' (first
        | exact ⟨rfl, fun h => h, fun h => h, fun h => h, fun h => h, fun h => h⟩
        | exact ⟨rfl, fun h => h, fun h => h, fun h => h, fun _ => rfl, fun h => h⟩
        | apply ite_both (MetaCommandOnly s))
    · have hc : key.mod &&& KMOD_CTRL ≠ 0 := hm.resolve_left ha
      rw [if_neg ha, if_pos hc]
      repeat' (first
        | exact ⟨rfl, fun h => h, fun h => h, fun h => h, fun h => h, fun h => h⟩
        | exact ⟨rfl, fun _ => rfl, fun h => h, fun h => h, fun h => h, fun h => h⟩
        | exact ⟨rfl, fun h => h, fun _ => rfl, fun h => h, fun h => h, fun h => h⟩
        | exact ⟨rfl, fun h => h, fun h => h, fun _ => rfl, fun h => h, fun h => h⟩
        | exact ⟨rfl, fun h => h, fun h => h, fun h => h, fun h => h,
            fun _ => (by decide : (1 : Int) ≠ 0)⟩
        | exact ⟨rfl, fun h => h, fun h => h, fun h => h, fun h => h,
            fun _ => (by decide : (-1 : Int) ≠ 0)⟩
        | apply ite_both (MetaCommandOnly s))
  exact main

/-- One event never clears a one-shot flag. -/
theorem processEvent_keeps_flags (s : SystemStub_SDL) (ev : SDL_Event) (paused : Bool) :
    (s._pi.save = true → (processEvent s ev paused).1._pi.save = true) ∧
    (s._pi.load = true → (processEvent s ev paused).1._pi.load = true) ∧
    (s._pi.rewind = true → (processEvent s ev paused).1._pi.rewind = true) ∧
    (s._pi.quit = true → (processEvent s ev paused).1._pi.quit = true) ∧
    (s._pi.stateSlot ≠ 0 → (processEvent s ev paused).1._pi.stateSlot ≠ 0) := by
  cases ev with
  | quit => simp [processEvent]
  | window event =>
    simp only [processEvent]
    split_ifs <;> simp
  | jhat value =>
    simp only [processEvent]
    split_ifs
    · rw [processJoyHat_frame]
      simp
    · simp
  | jaxis axis value =>
    simp only [processEvent]
    split_ifs
    · rw [processJoyAxis_frame]
      simp
    · simp
  | jbuttondown state button =>
    simp only [processEvent]
    split_ifs
    · rw [processJoyButton_frame]
      simp
    · simp
  | jbuttonup state button =>
    simp only [processEvent]
    split_ifs
    · rw [processJoyButton_frame]
      simp
    · simp
  | caxis axis value =>
    simp only [processEvent]
    split_ifs
    · rw [processControllerAxis_frame]
      simp
    · simp
  | cbuttondown state button =>
    simp only [processEvent]
    split_ifs
    · obtain ⟨⟨h1, h2, h3, h4, h5, _⟩, _⟩ := processControllerButton_frame s._pi state button
      simp only [h1, h2, h3, h4, h5]
      simp
    · simp
  | cbuttonup state button =>
    simp only [processEvent]
    split_ifs
    · obtain ⟨⟨h1, h2, h3, h4, h5, _⟩, _⟩ := processControllerButton_frame s._pi state button
      simp only [h1, h2, h3, h4, h5]
      simp
    · simp
  | keyup key =>
    simp only [processEvent]
    by_cases hm : key.mod &&& KMOD_ALT ≠ 0 ∨ key.mod &&& KMOD_CTRL ≠ 0
    · exact (processKeyUp_modified s key hm).2
    · have ha : key.mod &&& KMOD_ALT = 0 := by
        by_contra h
        exact hm (Or.inl h)
      have hc : key.mod &&& KMOD_CTRL = 0 := by
        by_contra h
        exact hm (Or.inr h)
      obtain ⟨⟨h1, h2, h3, h4, h5, _⟩, _⟩ := processKeyUp_frame_unmodified s key ha hc
      simp only [h1, h2, h3, h4, h5]
      simp
  | keydown key =>
    simp only [processEvent]
    obtain ⟨⟨h1, h2, h3, h4, h5, _⟩, _⟩ := processKeyDown_frame s key
    simp only [h1, h2, h3, h4, h5]
    simp
  | other => simp [processEvent]

/-- A poll never clears a one-shot flag. -/
theorem processEventsLoop_keeps_flags :
    ∀ (polls : List (Option SDL_Event)) (s s1 : SystemStub_SDL) (paused : Bool),
      processEventsLoop s paused polls = some s1 →
      (s._pi.save = true → s1._pi.save = true) ∧
      (s._pi.load = true → s1._pi.load = true) ∧
      (s._pi.rewind = true → s1._pi.rewind = true) ∧
      (s._pi.quit = true → s1._pi.quit = true) ∧
      (s._pi.stateSlot ≠ 0 → s1._pi.stateSlot ≠ 0) := by
  intro polls
  induction polls with
  | nil =>
    intro s s1 paused h
    simp [processEventsLoop] at h
  | cons p rest ih =>
    intro s s1 paused h
    cases p with
    | none =>
      simp only [processEventsLoop] at h
      split_ifs at h
      · simp only [Option.some.injEq] at h
        subst h
        simp
      · exact ih s s1 paused h
    | some ev =>
      simp only [processEventsLoop] at h
      obtain ⟨k1, k2, k3, k4, k5⟩ := processEvent_keeps_flags s ev paused
      split_ifs at h
      · simp only [Option.some.injEq] at h
        subst h
        exact ⟨k1, k2, k3, k4, k5⟩
      · obtain ⟨j1, j2, j3, j4, j5⟩ := ih _ s1 _ h
        exact ⟨fun a => j1 (k1 a), fun a => j2 (k2 a), fun a => j3 (k3 a),
          fun a => j4 (k4 a), fun a => j5 (k5 a)⟩

/-- C9: the platform layer never clears a one-shot flag. For every state and every
event, `processEvent` does not change `save`, `load`, `rewind` or `quit` from true
to false and does not change a non-zero `stateSlot` to 0; hence whatever the
answers of `SDL_PollEvent`, a flag that is set when `processEvents` is entered is
still set when it returns. -/
theorem oneShot_flags_never_cleared (s : SystemStub_SDL) (ev : SDL_Event) (paused : Bool) :
    ((s._pi.save = true → (processEvent s ev paused).1._pi.save = true) ∧
      (s._pi.load = true → (processEvent s ev paused).1._pi.load = true) ∧
      (s._pi.rewind = true → (processEvent s ev paused).1._pi.rewind = true) ∧
      (s._pi.quit = true → (processEvent s ev paused).1._pi.quit = true) ∧
      (s._pi.stateSlot ≠ 0 → (processEvent s ev paused).1._pi.stateSlot ≠ 0)) ∧
    (∀ (polls : List (Option SDL_Event)) (s1 : SystemStub_SDL),
      processEvents s polls = some s1 →
      (s._pi.save = true → s1._pi.save = true) ∧
      (s._pi.load = true → s1._pi.load = true) ∧
      (s._pi.rewind = true → s1._pi.rewind = true) ∧
      (s._pi.quit = true → s1._pi.quit = true) ∧
      (s._pi.stateSlot ≠ 0 → s1._pi.stateSlot ≠ 0)) :=
  ⟨processEvent_keeps_flags s ev paused,
    fun polls s1 h => processEventsLoop_keeps_flags polls s s1 false h⟩

/-- C9, at a concrete input: a save requested by CTRL+S and not consumed is still
set after a further event and after a further poll that returns. -/
theorem oneShot_flags_never_cleared_witness :
    sampleSaved._pi.save = true ∧
    (processEvent sampleSaved (SDL_Event.keyup sampleKeyLeft) false).1._pi.save = true ∧
    ∃ s1, processEvents sampleSaved samplePolls = some s1 ∧ s1._pi.save = true :=
  ⟨by decide,
    (oneShot_flags_never_cleared sampleSaved (SDL_Event.keyup sampleKeyLeft) false).1.1
      (by decide),
    _, rfl,
    ((oneShot_flags_never_cleared sampleSaved (SDL_Event.keyup sampleKeyLeft) false).2
      samplePolls _ rfl).1 (by decide)⟩

/-- A modifier state with ALT or CTRL passes one of the two tests of the key-up
case. -/
theorem modified_split (m : Nat) (h : m &&& (KMOD_ALT ||| KMOD_CTRL) ≠ 0) :
    m &&& KMOD_ALT ≠ 0 ∨ m &&& KMOD_CTRL ≠ 0 := by
  by_contra hn
  push_neg at hn
  apply h
  rw [Nat.and_or_distrib_left, hn.1, hn.2]
  rfl

/-- C10: for a key-down or key-up event whose modifier state contains ALT or CTRL,
`processEvent` leaves `dirMask`, the five button flags and `lastChar` unchanged.
The key-down changes nothing at all; the key-up changes at most `quit`, `dbgMask`,
`save`, `load`, `rewind`, `stateSlot` and the fullscreen setting. -/
theorem modifier_combo_is_meta_only (s : SystemStub_SDL) (key : SDL_Keysym) (paused : Bool)
    (hmod : key.mod &&& (KMOD_ALT ||| KMOD_CTRL) ≠ 0) :
    processEvent s (SDL_Event.keydown key) paused = (s, paused) ∧
    (processEvent s (SDL_Event.keyup key) paused).2 = paused ∧
    (processEvent s (SDL_Event.keyup key) paused).1._pi.dirMask = s._pi.dirMask ∧
    (processEvent s (SDL_Event.keyup key) paused).1._pi.space = s._pi.space ∧
    (processEvent s (SDL_Event.keyup key) paused).1._pi.shift = s._pi.shift ∧
    (processEvent s (SDL_Event.keyup key) paused).1._pi.enter = s._pi.enter ∧
    (processEvent s (SDL_Event.keyup key) paused).1._pi.backspace = s._pi.backspace ∧
    (processEvent s (SDL_Event.keyup key) paused).1._pi.escape = s._pi.escape ∧
    (processEvent s (SDL_Event.keyup key) paused).1._pi.lastChar = s._pi.lastChar ∧
    (processEvent s (SDL_Event.keyup key) paused).1 =
      { s with
        _fullscreen := (processEvent s (SDL_Event.keyup key) paused).1._fullscreen
        _pi := { s._pi with
          quit := (processEvent s (SDL_Event.keyup key) paused).1._pi.quit
          dbgMask := (processEvent s (SDL_Event.keyup key) paused).1._pi.dbgMask
          save := (processEvent s (SDL_Event.keyup key) paused).1._pi.save
          load := (processEvent s (SDL_Event.keyup key) paused).1._pi.load
          rewind := (processEvent s (SDL_Event.keyup key) paused).1._pi.rewind
          stateSlot := (processEvent s (SDL_Event.keyup key) paused).1._pi.stateSlot } } := by
  have hup : (processEvent s (SDL_Event.keyup key) paused) = (processKeyUp s key, paused) := rfl
  have hframe := (processKeyUp_modified s key (modified_split key.mod hmod)).1
  rw [hup]
  refine ⟨?_, rfl, ?_, ?_, ?_, ?_, ?_, ?_, ?_, hframe⟩
  · simp only [processEvent, processKeyDown, hmod, ne_eq, not_false_eq_true, if_true]
  all_goals rw [hframe]

/-- C10, at a concrete input: CTRL+S on a fresh stub. -/
theorem modifier_combo_is_meta_only_witness :
    sampleKeyCtrlS.mod &&& (KMOD_ALT ||| KMOD_CTRL) ≠ 0 ∧
    processEvent sampleStub (SDL_Event.keydown sampleKeyCtrlS) false = (sampleStub, false) ∧
    (processEvent sampleStub (SDL_Event.keyup sampleKeyCtrlS) false).1._pi.dirMask =
      sampleStub._pi.dirMask ∧
    (processEvent sampleStub (SDL_Event.keyup sampleKeyCtrlS) false).1._pi.lastChar =
      sampleStub._pi.lastChar :=
  ⟨by decide,
    (modifier_combo_is_meta_only sampleStub sampleKeyCtrlS false (by decide)).1,
    (modifier_combo_is_meta_only sampleStub sampleKeyCtrlS false (by decide)).2.2.1,
    (modifier_combo_is_meta_only sampleStub sampleKeyCtrlS false (by decide)).2.2.2.2.2.2.2.2.1⟩

/-! ## Input: absent devices -/

/-- C19: events of an absent device class are ignored. Without an open joystick
every hat, axis and button event of the joystick, and without an open controller
every axis and button event of the controller, leaves the whole state (the
`PlayerInput` record included) and `paused` unchanged. -/
theorem absent_device_events_ignored (s : SystemStub_SDL) (paused : Bool) :
    (s._joystick = false →
      (∀ value : Nat, processEvent s (SDL_Event.jhat value) paused = (s, paused)) ∧
      (∀ (axis : Nat) (value : Int),
        processEvent s (SDL_Event.jaxis axis value) paused = (s, paused)) ∧
      (∀ state button : Nat,
        processEvent s (SDL_Event.jbuttondown state button) paused = (s, paused)) ∧
      (∀ state button : Nat,
        processEvent s (SDL_Event.jbuttonup state button) paused = (s, paused))) ∧
    (s._controller = false →
      (∀ (axis : Nat) (value : Int),
        processEvent s (SDL_Event.caxis axis value) paused = (s, paused)) ∧
      (∀ state button : Nat,
        processEvent s (SDL_Event.cbuttondown state button) paused = (s, paused)) ∧
      (∀ state button : Nat,
        processEvent s (SDL_Event.cbuttonup state button) paused = (s, paused))) := by
  constructor
  · intro hj
    refine ⟨?_, ?_, ?_, ?_⟩ <;> intros <;> simp only [processEvent, hj] <;> rfl
  · intro hc
    refine ⟨?_, ?_, ?_⟩ <;> intros <;> simp only [processEvent, hc] <;> rfl

/-- C19, at a concrete input: a fresh stub without joystick and controller. -/
theorem absent_device_events_ignored_witness :
    sampleStub._joystick = false ∧ sampleStub._controller = false ∧
    processEvent sampleStub (SDL_Event.jhat SDL_HAT_UP) false = (sampleStub, false) ∧
    processEvent sampleStub (SDL_Event.cbuttondown SDL_PRESSED SDL_CONTROLLER_BUTTON_A) false =
      (sampleStub, false) :=
  ⟨by decide, by decide,
    ((absent_device_events_ignored sampleStub false).1 (by decide)).1 SDL_HAT_UP,
    ((absent_device_events_ignored sampleStub false).2 (by decide)).2.1 SDL_PRESSED
      SDL_CONTROLLER_BUTTON_A⟩

/-! ## Input: joystick hat and axes -/

/-- The direction mask after a hat event, as a function of the hat value alone. -/
theorem processJoyHat_dirMask (pi : PlayerInput) (v : Nat) :
    (processJoyHat pi v).dirMask =
      (if v &&& SDL_HAT_UP ≠ 0 then DIR_UP else 0) |||
      (if v &&& SDL_HAT_DOWN ≠ 0 then DIR_DOWN else 0) |||
      (if v &&& SDL_HAT_LEFT ≠ 0 then DIR_LEFT else 0) |||
      (if v &&& SDL_HAT_RIGHT ≠ 0 then DIR_RIGHT else 0) := by
  unfold processJoyHat
  by_cases h1 : v &&& SDL_HAT_UP = 0 <;> by_cases h2 : v &&& SDL_HAT_DOWN = 0 <;>
    by_cases h3 : v &&& SDL_HAT_LEFT = 0 <;> by_cases h4 : v &&& SDL_HAT_RIGHT = 0 <;>
    simp only [h1, h2, h3, h4, ne_eq, eq_self_iff_true, if_true, if_false,
      not_true_eq_false, not_false_eq_true] <;> decide

/-- C13: with a joystick open, a hat event replaces the whole direction mask. The
mask afterwards contains `DIR_UP`, `DIR_DOWN`, `DIR_LEFT`, `DIR_RIGHT` exactly
when the hat value contains `SDL_HAT_UP`, `SDL_HAT_DOWN`, `SDL_HAT_LEFT`,
`SDL_HAT_RIGHT`, it contains no other bit, and it is the same for every prior
state. -/
theorem joyhat_replaces_dirMask (s : SystemStub_SDL) (v : Nat) (paused : Bool)
    (hj : s._joystick = true) :
    ((processEvent s (SDL_Event.jhat v) paused).1._pi.dirMask &&& DIR_UP ≠ 0 ↔
      v &&& SDL_HAT_UP ≠ 0) ∧
    ((processEvent s (SDL_Event.jhat v) paused).1._pi.dirMask &&& DIR_DOWN ≠ 0 ↔
      v &&& SDL_HAT_DOWN ≠ 0) ∧
    ((processEvent s (SDL_Event.jhat v) paused).1._pi.dirMask &&& DIR_LEFT ≠ 0 ↔
      v &&& SDL_HAT_LEFT ≠ 0) ∧
    ((processEvent s (SDL_Event.jhat v) paused).1._pi.dirMask &&& DIR_RIGHT ≠ 0 ↔
      v &&& SDL_HAT_RIGHT ≠ 0) ∧
    (processEvent s (SDL_Event.jhat v) paused).1._pi.dirMask &&&
      (DIR_UP ||| DIR_DOWN ||| DIR_LEFT ||| DIR_RIGHT) =
      (processEvent s (SDL_Event.jhat v) paused).1._pi.dirMask ∧
    (∀ (s' : SystemStub_SDL) (paused' : Bool), s'._joystick = true →
      (processEvent s' (SDL_Event.jhat v) paused').1._pi.dirMask =
        (processEvent s (SDL_Event.jhat v) paused).1._pi.dirMask) := by
  have hd : ∀ (t : SystemStub_SDL) (p : Bool), t._joystick = true →
      (processEvent t (SDL_Event.jhat v) p).1._pi.dirMask = (processJoyHat t._pi v).dirMask := by
    intro t p ht
    simp only [processEvent, ht, if_true]
  rw [hd s paused hj, processJoyHat_dirMask]
  refine ⟨?_, ?_, ?_, ?_, ?_, ?_⟩
  · by_cases h1 : v &&& SDL_HAT_UP = 0 <;> by_cases h2 : v &&& SDL_HAT_DOWN = 0 <;>
      by_cases h3 : v &&& SDL_HAT_LEFT = 0 <;> by_cases h4 : v &&& SDL_HAT_RIGHT = 0 <;>
      simp only [h1, h2, h3, h4, ne_eq, eq_self_iff_true, if_true, if_false,
        not_true_eq_false, not_false_eq_true, iff_true, iff_false] <;> decide
  · by_cases h1 : v &&& SDL_HAT_UP = 0 <;> by_cases h2 : v &&& SDL_HAT_DOWN = 0 <;>
      by_cases h3 : v &&& SDL_HAT_LEFT = 0 <;> by_cases h4 : v &&& SDL_HAT_RIGHT = 0 <;>
      simp only [h1, h2, h3, h4, ne_eq, eq_self_iff_true, if_true, if_false,
        not_true_eq_false, not_false_eq_true, iff_true, iff_false] <;> decide
  · by_cases h1 : v &&& SDL_HAT_UP = 0 <;> by_cases h2 : v &&& SDL_HAT_DOWN = 0 <;>
      by_cases h3 : v &&& SDL_HAT_LEFT = 0 <;> by_cases h4 : v &&& SDL_HAT_RIGHT = 0 <;>
      simp only [h1, h2, h3, h4, ne_eq, eq_self_iff_true, if_true, if_false,
        not_true_eq_false, not_false_eq_true, iff_true, iff_false] <;> decide
  · by_cases h1 : v &&& SDL_HAT_UP = 0 <;> by_cases h2 : v &&& SDL_HAT_DOWN = 0 <;>
      by_cases h3 : v &&& SDL_HAT_LEFT = 0 <;> by_cases h4 : v &&& SDL_HAT_RIGHT = 0 <;>
      simp only [h1, h2, h3, h4, ne_eq, eq_self_iff_true, if_true, if_false,
        not_true_eq_false, not_false_eq_true, iff_true, iff_false] <;> decide
  · by_cases h1 : v &&& SDL_HAT_UP = 0 <;> by_cases h2 : v &&& SDL_HAT_DOWN = 0 <;>
      by_cases h3 : v &&& SDL_HAT_LEFT = 0 <;> by_cases h4 : v &&& SDL_HAT_RIGHT = 0 <;>
      simp only [h1, h2, h3, h4, ne_eq, eq_self_iff_true, if_true, if_false,
      not_true_eq_false, not_false_eq_true] <;> decide
  · intro s' paused' hj'
    rw [hd s' paused' hj', processJoyHat_dirMask]

/-- C13, at a concrete input: the hat pushed up and left on a stub with an open
joystick. -/
theorem joyhat_replaces_dirMask_witness :
    sampleJoyStub._joystick = true ∧
    ((processEvent sampleJoyStub (SDL_Event.jhat 9) false).1._pi.dirMask &&& DIR_UP ≠ 0 ↔
      9 &&& SDL_HAT_UP ≠ 0) ∧
    (processEvent sampleJoyStub (SDL_Event.jhat 9) false).1._pi.dirMask = DIR_UP ||| DIR_LEFT :=
  ⟨by decide, (joyhat_replaces_dirMask sampleJoyStub 9 false (by decide)).1, by decide⟩

/-- The bits `c` of a byte after `m &= ~k` followed by `m |= b`. -/
theorem setBits_clearBits_and (m k b c x y : Nat) (hc : 255 &&& c = c)
    (hx : (0xFFFFFFFF ^^^ k) &&& c = x) (hy : b &&& c = y) :
    setBits (clearBits m k) b &&& c = (m &&& x) ||| y := by
  rw [setBits_and _ _ _ y hc hy, clearBits_and _ _ _ x hc hx]

/-- The direction mask after a joystick axis event. -/
theorem processJoyAxis_dirMask (pi : PlayerInput) (v : Int) :
    (processJoyAxis pi 0 v).dirMask =
      (if v > 3200 then setBits (clearBits pi.dirMask (DIR_RIGHT ||| DIR_LEFT)) DIR_RIGHT
       else if v < -3200 then setBits (clearBits pi.dirMask (DIR_RIGHT ||| DIR_LEFT)) DIR_LEFT
       else clearBits pi.dirMask (DIR_RIGHT ||| DIR_LEFT)) ∧
    (processJoyAxis pi 1 v).dirMask =
      (if v > 3200 then setBits (clearBits pi.dirMask (DIR_UP ||| DIR_DOWN)) DIR_DOWN
       else if v < -3200 then setBits (clearBits pi.dirMask (DIR_UP ||| DIR_DOWN)) DIR_UP
       else clearBits pi.dirMask (DIR_UP ||| DIR_DOWN)) := by
  have hk : kJoystickCommitValue = 3200 := rfl
  unfold processJoyAxis
  simp only [hk, if_true, Nat.one_ne_zero, if_false]
  constructor
  · split_ifs <;> rfl
  · split_ifs <;> rfl

/-- C14: with a joystick open, for every prior direction mask and every axis
value `v`: after an axis-0 event `DIR_RIGHT` is set iff `v > 3200` and `DIR_LEFT`
iff `v < -3200`, with `DIR_UP` and `DIR_DOWN` unchanged; after an axis-1 event
`DIR_DOWN` is set iff `v > 3200` and `DIR_UP` iff `v < -3200`, with `DIR_LEFT` and
`DIR_RIGHT` unchanged. Inside the dead zone both bits of the axis are clear. -/
theorem joyaxis_threshold_bits (s : SystemStub_SDL) (v : Int) (paused : Bool)
    (hj : s._joystick = true) :
    (((processEvent s (SDL_Event.jaxis 0 v) paused).1._pi.dirMask &&& DIR_RIGHT ≠ 0 ↔
        v > 3200) ∧
      ((processEvent s (SDL_Event.jaxis 0 v) paused).1._pi.dirMask &&& DIR_LEFT ≠ 0 ↔
        v < -3200) ∧
      (processEvent s (SDL_Event.jaxis 0 v) paused).1._pi.dirMask &&& DIR_UP =
        s._pi.dirMask &&& DIR_UP ∧
      (processEvent s (SDL_Event.jaxis 0 v) paused).1._pi.dirMask &&& DIR_DOWN =
        s._pi.dirMask &&& DIR_DOWN) ∧
    (((processEvent s (SDL_Event.jaxis 1 v) paused).1._pi.dirMask &&& DIR_DOWN ≠ 0 ↔
        v > 3200) ∧
      ((processEvent s (SDL_Event.jaxis 1 v) paused).1._pi.dirMask &&& DIR_UP ≠ 0 ↔
        v < -3200) ∧
      (processEvent s (SDL_Event.jaxis 1 v) paused).1._pi.dirMask &&& DIR_LEFT =
        s._pi.dirMask &&& DIR_LEFT ∧
      (processEvent s (SDL_Event.jaxis 1 v) paused).1._pi.dirMask &&& DIR_RIGHT =
        s._pi.dirMask &&& DIR_RIGHT) ∧
    (-3200 ≤ v → v ≤ 3200 →
      (processEvent s (SDL_Event.jaxis 0 v) paused).1._pi.dirMask &&&
        (DIR_RIGHT ||| DIR_LEFT) = 0 ∧
      (processEvent s (SDL_Event.jaxis 1 v) paused).1._pi.dirMask &&&
        (DIR_UP ||| DIR_DOWN) = 0) := by
  have hd : ∀ axis : Nat, (processEvent s (SDL_Event.jaxis axis v) paused).1._pi.dirMask =
      (processJoyAxis s._pi axis v).dirMask := by
    intro axis
    simp only [processEvent, hj, if_true]
  obtain ⟨e0, e1⟩ := processJoyAxis_dirMask s._pi v
  rw [hd 0, hd 1, e0, e1]
  have z : ∀ n : Nat, n &&& 0 = 0 := fun n => Nat.and_zero n
  by_cases h1 : v > 3200
  · have h2 : ¬ v < -3200 := by omega
    simp only [if_pos h1]
    refine ⟨⟨?_, ?_, ?_, ?_⟩, ⟨?_, ?_, ?_, ?_⟩, ?_⟩
    · rw [setBits_clearBits_and _ _ _ _ 0 DIR_RIGHT (by decide) (by decide) (by decide), z]
      exact iff_of_true (by decide) h1
    · rw [setBits_clearBits_and _ _ _ _ 0 0 (by decide) (by decide) (by decide), z]
      exact iff_of_false (by decide) h2
    · rw [setBits_clearBits_and _ _ _ _ DIR_UP 0 (by decide) (by decide) (by decide),
        Nat.or_zero]
    · rw [setBits_clearBits_and _ _ _ _ DIR_DOWN 0 (by decide) (by decide) (by decide),
        Nat.or_zero]
    · rw [setBits_clearBits_and _ _ _ _ 0 DIR_DOWN (by decide) (by decide) (by decide), z]
      exact iff_of_true (by decide) h1
    · rw [setBits_clearBits_and _ _ _ _ 0 0 (by decide) (by decide) (by decide), z]
      exact iff_of_false (by decide) h2
    · rw [setBits_clearBits_and _ _ _ _ DIR_LEFT 0 (by decide) (by decide) (by decide),
        Nat.or_zero]
    · rw [setBits_clearBits_and _ _ _ _ DIR_RIGHT 0 (by decide) (by decide) (by decide),
        Nat.or_zero]
    · intro _ h4
      omega
  · by_cases h2 : v < -3200
    · simp only [if_neg h1, if_pos h2]
      refine ⟨⟨?_, ?_, ?_, ?_⟩, ⟨?_, ?_, ?_, ?_⟩, ?_⟩
      · rw [setBits_clearBits_and _ _ _ _ 0 0 (by decide) (by decide) (by decide), z]
        exact iff_of_false (by decide) h1
      · rw [setBits_clearBits_and _ _ _ _ 0 DIR_LEFT (by decide) (by decide) (by decide), z]
        exact iff_of_true (by decide) h2
      · rw [setBits_clearBits_and _ _ _ _ DIR_UP 0 (by decide) (by decide) (by decide),
          Nat.or_zero]
      · rw [setBits_clearBits_and _ _ _ _ DIR_DOWN 0 (by decide) (by decide) (by decide),
          Nat.or_zero]
      · rw [setBits_clearBits_and _ _ _ _ 0 0 (by decide) (by decide) (by decide), z]
        exact iff_of_false (by decide) h1
      · rw [setBits_clearBits_and _ _ _ _ 0 DIR_UP (by decide) (by decide) (by decide), z]
        exact iff_of_true (by decide) h2
      · rw [setBits_clearBits_and _ _ _ _ DIR_LEFT 0 (by decide) (by decide) (by decide),
          Nat.or_zero]
      · rw [setBits_clearBits_and _ _ _ _ DIR_RIGHT 0 (by decide) (by decide) (by decide),
          Nat.or_zero]
      · intro h3 _
        omega
    · simp only [if_neg h1, if_neg h2]
      refine ⟨⟨?_, ?_, ?_, ?_⟩, ⟨?_, ?_, ?_, ?_⟩, ?_⟩
      · rw [clearBits_and _ _ _ 0 (by decide) (by decide), z]
        exact iff_of_false (by decide) h1
      · rw [clearBits_and _ _ _ 0 (by decide) (by decide), z]
        exact iff_of_false (by decide) h2
      · exact clearBits_and_other _ _ _ (by decide) (by decide)
      · exact clearBits_and_other _ _ _ (by decide) (by decide)
      · rw [clearBits_and _ _ _ 0 (by decide) (by decide), z]
        exact iff_of_false (by decide) h1
      · rw [clearBits_and _ _ _ 0 (by decide) (by decide), z]
        exact iff_of_false (by decide) h2
      · exact clearBits_and_other _ _ _ (by decide) (by decide)
      · exact clearBits_and_other _ _ _ (by decide) (by decide)
      · intro _ _
        exact ⟨by rw [clearBits_and _ _ _ 0 (by decide) (by decide), z],
          by rw [clearBits_and _ _ _ 0 (by decide) (by decide), z]⟩

/-- C14, at a concrete input: the stick pushed right past the threshold on a stub
with an open joystick. -/
theorem joyaxis_threshold_bits_witness :
    sampleJoyStub._joystick = true ∧
    ((processEvent sampleJoyStub (SDL_Event.jaxis 0 3201) false).1._pi.dirMask &&&
      DIR_RIGHT ≠ 0 ↔ (3201 : Int) > 3200) ∧
    (processEvent sampleJoyStub (SDL_Event.jaxis 0 3200) false).1._pi.dirMask = 0 :=
  ⟨by decide, (joyaxis_threshold_bits sampleJoyStub 3201 false (by decide)).1.1, by decide⟩

/-! ## Input: captured character -/

/-- An unmodified key-up stores the character chosen by `setAsciiChar`. -/
theorem processKeyUp_lastChar (s : SystemStub_SDL) (key : SDL_Keysym)
    (ha : key.mod &&& KMOD_ALT = 0) (hc : key.mod &&& KMOD_CTRL = 0) :
    (processKeyUp s key)._pi.lastChar = (setAsciiChar s._pi key).lastChar := by
  unfold processKeyUp
  simp only [ha, hc, ne_eq, not_true_eq_false, if_false]
  repeat' (first
    | exact rfl
    | apply ite_both (fun r : SystemStub_SDL =>
        r._pi.lastChar = (setAsciiChar s._pi key).lastChar))

/-- Every event other than an unmodified key-up leaves the captured character. -/
theorem processEvent_lastChar_frame (s : SystemStub_SDL) (ev : SDL_Event) (paused : Bool)
    (hev : ∀ key, ev = SDL_Event.keyup key → key.mod &&& (KMOD_ALT ||| KMOD_CTRL) ≠ 0) :
    (processEvent s ev paused).1._pi.lastChar = s._pi.lastChar := by
  cases ev with
  | quit => rfl
  | window event =>
    simp only [processEvent]
    split_ifs <;> rfl
  | jhat value =>
    simp only [processEvent]
    split_ifs <;> rfl
  | jaxis axis value =>
    simp only [processEvent]
    split_ifs
    · rw [processJoyAxis_frame]
    · rfl
  | jbuttondown state button =>
    simp only [processEvent]
    split_ifs
    · rw [processJoyButton_frame]
    · rfl
  | jbuttonup state button =>
    simp only [processEvent]
    split_ifs
    · rw [processJoyButton_frame]
    · rfl
  | caxis axis value =>
    simp only [processEvent]
    split_ifs
    · rw [processControllerAxis_frame]
    · rfl
  | cbuttondown state button =>
    simp only [processEvent]
    split_ifs
    · exact (processControllerButton_frame s._pi state button).2
    · rfl
  | cbuttonup state button =>
    simp only [processEvent]
    split_ifs
    · exact (processControllerButton_frame s._pi state button).2
    · rfl
  | keyup key =>
    have hm := modified_split key.mod (hev key rfl)
    have hframe := (processKeyUp_modified s key hm).1
    simp only [processEvent]
    rw [hframe]
  | keydown key =>
    simp only [processEvent]
    exact (processKeyDown_frame s key).2.1
  | other => rfl

/-- The character chosen by `setAsciiChar`, case by case. -/
theorem setAsciiChar_lastChar (pi : PlayerInput) (key : SDL_Keysym) :
    (∀ d : Int, 0 ≤ d → d ≤ 9 → key.sym = SDLK_0 + d →
      (setAsciiChar pi key).lastChar = 48 + d) ∧
    (∀ k : Int, 0 ≤ k → k ≤ 25 → key.sym = SDLK_a + k →
      (setAsciiChar pi key).lastChar = 65 + k) ∧
    (¬ (SDLK_0 ≤ key.sym ∧ key.sym ≤ SDLK_9) → ¬ (SDLK_a ≤ key.sym ∧ key.sym ≤ SDLK_z) →
      (key.scancode = SDL_SCANCODE_0 → (setAsciiChar pi key).lastChar = 48) ∧
      (∀ d : Int, 1 ≤ d → d ≤ 9 → key.scancode = SDL_SCANCODE_1 + (d - 1) →
        (setAsciiChar pi key).lastChar = 48 + d) ∧
      (¬ (SDL_SCANCODE_1 ≤ key.scancode ∧ key.scancode ≤ SDL_SCANCODE_0) →
        ((key.sym = SDLK_SPACE ∨ key.sym = SDLK_KP_SPACE) →
          (setAsciiChar pi key).lastChar = 32) ∧
        (¬ (key.sym = SDLK_SPACE ∨ key.sym = SDLK_KP_SPACE) →
          (setAsciiChar pi key).lastChar = 0))) ∧
    ((setAsciiChar pi key).lastChar = 0 ∨
      (48 ≤ (setAsciiChar pi key).lastChar ∧ (setAsciiChar pi key).lastChar ≤ 57) ∨
      (65 ≤ (setAsciiChar pi key).lastChar ∧ (setAsciiChar pi key).lastChar ≤ 90) ∨
      (setAsciiChar pi key).lastChar = 32) := by
  have c0 : SDLK_0 = 48 := rfl
  have c9 : SDLK_9 = 57 := rfl
  have ca : SDLK_a = 97 := rfl
  have cz : SDLK_z = 122 := rfl
  have s0 : SDL_SCANCODE_0 = 39 := rfl
  have s1 : SDL_SCANCODE_1 = 30 := rfl
  have s9 : SDL_SCANCODE_9 = 38 := rfl
  have csp : SDLK_SPACE = 32 := rfl
  have ckp : SDLK_KP_SPACE = 1073742029 := rfl
  unfold setAsciiChar
  simp only [c0, c9, ca, cz, s0, s1, s9, csp, ckp]
  refine ⟨?_, ?_, ?_, ?_⟩
  · intro d h0 h9 hs
    split_ifs <;> simp only <;> omega
  · intro k h0 h25 hs
    split_ifs <;> simp only <;> omega
  · intro hnd hnl
    refine ⟨?_, ?_, ?_⟩
    · intro hsc
      rw [if_neg hnd, if_neg hnl, if_pos hsc]
    · intro d h1 h9 hsc
      split_ifs <;> simp only <;> omega
    · intro hns
      constructor
      · intro hsp
        split_ifs <;> first | rfl | omega
      · intro hsp
        split_ifs <;> first | rfl | omega
  · split_ifs <;> first | (simp only; omega) | simp

/-- One event keeps the captured character inside its range. -/
theorem processEvent_lastChar_range (s : SystemStub_SDL) (ev : SDL_Event) (paused : Bool)
    (hs : s._pi.lastChar = 0 ∨ (48 ≤ s._pi.lastChar ∧ s._pi.lastChar ≤ 57) ∨
      (65 ≤ s._pi.lastChar ∧ s._pi.lastChar ≤ 90) ∨ s._pi.lastChar = 32) :
    (processEvent s ev paused).1._pi.lastChar = 0 ∨
      (48 ≤ (processEvent s ev paused).1._pi.lastChar ∧
        (processEvent s ev paused).1._pi.lastChar ≤ 57) ∨
      (65 ≤ (processEvent s ev paused).1._pi.lastChar ∧
        (processEvent s ev paused).1._pi.lastChar ≤ 90) ∨
      (processEvent s ev paused).1._pi.lastChar = 32 := by
  by_cases hev : ∀ key, ev = SDL_Event.keyup key → key.mod &&& (KMOD_ALT ||| KMOD_CTRL) ≠ 0
  · rw [processEvent_lastChar_frame s ev paused hev]
    exact hs
  · push_neg at hev
    obtain ⟨key, rfl, hmod⟩ := hev
    obtain ⟨ha, hc⟩ := unmodified_split key.mod hmod
    have e : (processEvent s (SDL_Event.keyup key) paused).1._pi.lastChar =
        (setAsciiChar s._pi key).lastChar := processKeyUp_lastChar s key ha hc
    rw [e]
    exact (setAsciiChar_lastChar s._pi key).2.2.2

/-- A sequence of events keeps the captured character inside its range. -/
theorem runEvents_lastChar_range :
    ∀ (evs : List SDL_Event) (s : SystemStub_SDL) (paused : Bool),
      (s._pi.lastChar = 0 ∨ (48 ≤ s._pi.lastChar ∧ s._pi.lastChar ≤ 57) ∨
        (65 ≤ s._pi.lastChar ∧ s._pi.lastChar ≤ 90) ∨ s._pi.lastChar = 32) →
      ((runEvents s paused evs).1._pi.lastChar = 0 ∨
        (48 ≤ (runEvents s paused evs).1._pi.lastChar ∧
          (runEvents s paused evs).1._pi.lastChar ≤ 57) ∨
        (65 ≤ (runEvents s paused evs).1._pi.lastChar ∧
          (runEvents s paused evs).1._pi.lastChar ≤ 90) ∨
        (runEvents s paused evs).1._pi.lastChar = 32) := by
  intro evs
  induction evs with
  | nil =>
    intro s paused hs
    exact hs
  | cons ev rest ih =>
    intro s paused hs
    have step : runEvents s paused (ev :: rest) =
        runEvents (processEvent s ev paused).1 (processEvent s ev paused).2 rest := rfl
    rw [step]
    exact ih _ _ (processEvent_lastChar_range s ev paused hs)

/-- C11: the captured character `lastChar` is changed only by a key-up event
without ALT and CTRL: every other event (key-down, modified key-up, device and
window events) leaves it. Such a key-up stores `'0' + d` for the digit key `d`
(key code `SDLK_0 + d`, or, when the key code is neither a digit nor a letter, the
scan code of the digit key `d`), `'A' + k` for the letter key `SDLK_a + k`, `' '`
for `SDLK_SPACE` and `SDLK_KP_SPACE`, and 0 for every other key. After any
sequence of events from `init` it is 0 or one of `'0'..'9'`, `'A'..'Z'`, `' '`. -/
theorem lastChar_capture (s : SystemStub_SDL) (paused : Bool) :
    (∀ ev : SDL_Event,
      (∀ key, ev = SDL_Event.keyup key → key.mod &&& (KMOD_ALT ||| KMOD_CTRL) ≠ 0) →
      (processEvent s ev paused).1._pi.lastChar = s._pi.lastChar) ∧
    (∀ key : SDL_Keysym, key.mod &&& (KMOD_ALT ||| KMOD_CTRL) = 0 →
      (∀ d : Int, 0 ≤ d → d ≤ 9 → key.sym = SDLK_0 + d →
        (processEvent s (SDL_Event.keyup key) paused).1._pi.lastChar = 48 + d) ∧
      (∀ k : Int, 0 ≤ k → k ≤ 25 → key.sym = SDLK_a + k →
        (processEvent s (SDL_Event.keyup key) paused).1._pi.lastChar = 65 + k) ∧
      (¬ (SDLK_0 ≤ key.sym ∧ key.sym ≤ SDLK_9) → ¬ (SDLK_a ≤ key.sym ∧ key.sym ≤ SDLK_z) →
        (key.scancode = SDL_SCANCODE_0 →
          (processEvent s (SDL_Event.keyup key) paused).1._pi.lastChar = 48) ∧
        (∀ d : Int, 1 ≤ d → d ≤ 9 → key.scancode = SDL_SCANCODE_1 + (d - 1) →
          (processEvent s (SDL_Event.keyup key) paused).1._pi.lastChar = 48 + d) ∧
        (¬ (SDL_SCANCODE_1 ≤ key.scancode ∧ key.scancode ≤ SDL_SCANCODE_0) →
          ((key.sym = SDLK_SPACE ∨ key.sym = SDLK_KP_SPACE) →
            (processEvent s (SDL_Event.keyup key) paused).1._pi.lastChar = 32) ∧
          (¬ (key.sym = SDLK_SPACE ∨ key.sym = SDLK_KP_SPACE) →
            (processEvent s (SDL_Event.keyup key) paused).1._pi.lastChar = 0)))) ∧
    (∀ (w h : Int) (fullscreen nj gc co jo : Bool) (evs : List SDL_Event),
      (runEvents (init w h fullscreen nj gc co jo) false evs).1._pi.lastChar = 0 ∨
      (48 ≤ (runEvents (init w h fullscreen nj gc co jo) false evs).1._pi.lastChar ∧
        (runEvents (init w h fullscreen nj gc co jo) false evs).1._pi.lastChar ≤ 57) ∨
      (65 ≤ (runEvents (init w h fullscreen nj gc co jo) false evs).1._pi.lastChar ∧
        (runEvents (init w h fullscreen nj gc co jo) false evs).1._pi.lastChar ≤ 90) ∨
      (runEvents (init w h fullscreen nj gc co jo) false evs).1._pi.lastChar = 32) := by
  refine ⟨fun ev hev => processEvent_lastChar_frame s ev paused hev, ?_, ?_⟩
  · intro key hmod
    obtain ⟨ha, hc⟩ := unmodified_split key.mod hmod
    have e : (processEvent s (SDL_Event.keyup key) paused).1._pi.lastChar =
        (setAsciiChar s._pi key).lastChar := processKeyUp_lastChar s key ha hc
    rw [e]
    obtain ⟨h1, h2, h3, _⟩ := setAsciiChar_lastChar s._pi key
    exact ⟨h1, h2, h3⟩
  · intro w h fullscreen nj gc co jo evs
    apply runEvents_lastChar_range
    left
    unfold init setScreenSize
    simp only
    split_ifs <;> rfl

/-- C11, at a concrete input: on a fresh stub the key-up of A stores `'A'`, the
key-down of A and the key-up of CTRL+S store nothing. -/
theorem lastChar_capture_witness :
    sampleKeyA.mod &&& (KMOD_ALT ||| KMOD_CTRL) = 0 ∧
    (processEvent sampleStub (SDL_Event.keyup sampleKeyA) false).1._pi.lastChar = 65 + 0 ∧
    (processEvent sampleStub (SDL_Event.keydown sampleKeyA) false).1._pi.lastChar =
      sampleStub._pi.lastChar ∧
    (processEvent sampleStub (SDL_Event.keyup sampleKeyCtrlS) false).1._pi.lastChar =
      sampleStub._pi.lastChar :=
  ⟨by decide,
    ((lastChar_capture sampleStub false).2.1 sampleKeyA (by decide)).2.1 0 (by decide)
      (by decide) (by decide),
    (lastChar_capture sampleStub false).1 (SDL_Event.keydown sampleKeyA)
      (fun key hk => by cases hk),
    (lastChar_capture sampleStub false).1 (SDL_Event.keyup sampleKeyCtrlS)
      (fun key hk => by cases hk; decide)⟩

/-! ## Input: keyboard buttons -/

/-- An unmodified key-down of SPACE, LSHIFT or RSHIFT, RETURN, ESCAPE sets `space`,
`shift`, `enter`, `escape`, and the unmodified key-up of the same key clears it
again; an unmodified key-down of BACKSPACE or TAB sets `backspace`. -/
theorem keyboard_buttons_press_release (s : SystemStub_SDL) (key : SDL_Keysym)
    (paused : Bool) (hmod : key.mod &&& (KMOD_ALT ||| KMOD_CTRL) = 0) :
    (key.sym = SDLK_SPACE →
      (processEvent s (SDL_Event.keydown key) paused).1._pi.space = true ∧
      (processEvent s (SDL_Event.keyup key) paused).1._pi.space = false) ∧
    (key.sym = SDLK_LSHIFT ∨ key.sym = SDLK_RSHIFT →
      (processEvent s (SDL_Event.keydown key) paused).1._pi.shift = true ∧
      (processEvent s (SDL_Event.keyup key) paused).1._pi.shift = false) ∧
    (key.sym = SDLK_RETURN →
      (processEvent s (SDL_Event.keydown key) paused).1._pi.enter = true ∧
      (processEvent s (SDL_Event.keyup key) paused).1._pi.enter = false) ∧
    (key.sym = SDLK_ESCAPE →
      (processEvent s (SDL_Event.keydown key) paused).1._pi.escape = true ∧
      (processEvent s (SDL_Event.keyup key) paused).1._pi.escape = false) ∧
    (key.sym = SDLK_BACKSPACE ∨ key.sym = SDLK_TAB →
      (processEvent s (SDL_Event.keydown key) paused).1._pi.backspace = true) := by
  obtain ⟨ha, hc⟩ := unmodified_split key.mod hmod
  have hasc : ∀ pi : PlayerInput, setAsciiChar pi key =
      { pi with lastChar := (setAsciiChar pi key).lastChar } := fun pi => setAsciiChar_eq pi key
  refine ⟨?_, ?_, ?_, ?_, ?_⟩
  · intro h1
    have d1 : SDLK_SPACE ≠ SDLK_LEFT := by decide
    have d2 : SDLK_SPACE ≠ SDLK_RIGHT := by decide
    have d3 : SDLK_SPACE ≠ SDLK_UP := by decide
    have d4 : SDLK_SPACE ≠ SDLK_DOWN := by decide
    have d5 : SDLK_SPACE ≠ SDLK_BACKSPACE := by decide
    have d6 : SDLK_SPACE ≠ SDLK_TAB := by decide
    constructor
    · simp [processEvent, processKeyDown, hmod, h1, d1, d2, d3, d4, d5, d6]
    · rw [show processEvent s (SDL_Event.keyup key) paused = (processKeyUp s key, paused) from rfl]
      unfold processKeyUp
      rw [hasc]
      simp [ha, hc, h1, d1, d2, d3, d4]
  · intro h1
    have e1 : ∀ k : Int, (k = SDLK_LSHIFT ∨ k = SDLK_RSHIFT) → k ≠ SDLK_LEFT ∧ k ≠ SDLK_RIGHT ∧
        k ≠ SDLK_UP ∧ k ≠ SDLK_DOWN ∧ k ≠ SDLK_BACKSPACE ∧ k ≠ SDLK_TAB ∧ k ≠ SDLK_SPACE := by
      intro k hk
      rcases hk with hk | hk <;> subst hk <;> decide
    obtain ⟨d1, d2, d3, d4, d5, d6, d7⟩ := e1 key.sym h1
    have h1' : key.sym = SDLK_RSHIFT ∨ key.sym = SDLK_LSHIFT := h1.symm
    constructor
    · simp [processEvent, processKeyDown, hmod, h1', d1, d2, d3, d4, d5, d6, d7]
    · rw [show processEvent s (SDL_Event.keyup key) paused = (processKeyUp s key, paused) from rfl]
      unfold processKeyUp
      rw [hasc]
      simp [ha, hc, h1', d1, d2, d3, d4, d7]
  · intro h1
    have d1 : SDLK_RETURN ≠ SDLK_LEFT := by decide
    have d2 : SDLK_RETURN ≠ SDLK_RIGHT := by decide
    have d3 : SDLK_RETURN ≠ SDLK_UP := by decide
    have d4 : SDLK_RETURN ≠ SDLK_DOWN := by decide
    have d5 : SDLK_RETURN ≠ SDLK_BACKSPACE := by decide
    have d6 : SDLK_RETURN ≠ SDLK_TAB := by decide
    have d7 : SDLK_RETURN ≠ SDLK_SPACE := by decide
    have d8 : SDLK_RETURN ≠ SDLK_RSHIFT := by decide
    have d9 : SDLK_RETURN ≠ SDLK_LSHIFT := by decide
    constructor
    · simp [processEvent, processKeyDown, hmod, h1, d1, d2, d3, d4, d5, d6, d7, d8, d9]
    · rw [show processEvent s (SDL_Event.keyup key) paused = (processKeyUp s key, paused) from rfl]
      unfold processKeyUp
      rw [hasc]
      simp [ha, hc, h1, d1, d2, d3, d4, d7, d8, d9]
  · intro h1
    have d1 : SDLK_ESCAPE ≠ SDLK_LEFT := by decide
    have d2 : SDLK_ESCAPE ≠ SDLK_RIGHT := by decide
    have d3 : SDLK_ESCAPE ≠ SDLK_UP := by decide
    have d4 : SDLK_ESCAPE ≠ SDLK_DOWN := by decide
    have d5 : SDLK_ESCAPE ≠ SDLK_BACKSPACE := by decide
    have d6 : SDLK_ESCAPE ≠ SDLK_TAB := by decide
    have d7 : SDLK_ESCAPE ≠ SDLK_SPACE := by decide
    have d8 : SDLK_ESCAPE ≠ SDLK_RSHIFT := by decide
    have d9 : SDLK_ESCAPE ≠ SDLK_LSHIFT := by decide
    have d10 : SDLK_ESCAPE ≠ SDLK_RETURN := by decide
    constructor
    · simp [processEvent, processKeyDown, hmod, h1, d1, d2, d3, d4, d5, d6, d7, d8, d9, d10]
    · rw [show processEvent s (SDL_Event.keyup key) paused = (processKeyUp s key, paused) from rfl]
      unfold processKeyUp
      rw [hasc]
      simp [ha, hc, h1, d1, d2, d3, d4, d7, d8, d9, d10]
  · intro h1
    have e1 : ∀ k : Int, (k = SDLK_BACKSPACE ∨ k = SDLK_TAB) → k ≠ SDLK_LEFT ∧
        k ≠ SDLK_RIGHT ∧ k ≠ SDLK_UP ∧ k ≠ SDLK_DOWN := by
      intro k hk
      rcases hk with hk | hk <;> subst hk <;> decide
    obtain ⟨d1, d2, d3, d4⟩ := e1 key.sym h1
    simp [processEvent, processKeyDown, hmod, h1, d1, d2, d3, d4]

/-- C12, evaluated where it fails: on a fresh stub the unmodified key-down of
BACKSPACE (and of TAB) sets `backspace`, and the unmodified key-up of the same key
leaves it true. The SPACE key is released by its key-up, and button 3 of a
joystick, which is mapped to `backspace` too, clears it when released. -/
theorem backspace_key_up_does_not_release :
    sampleKeyBackspace.mod &&& (KMOD_ALT ||| KMOD_CTRL) = 0 ∧
    sampleStub._pi.backspace = false ∧
    (processEvent sampleStub (SDL_Event.keydown sampleKeyBackspace) false).1._pi.backspace =
      true ∧
    (processEvent (processEvent sampleStub (SDL_Event.keydown sampleKeyBackspace) false).1
      (SDL_Event.keyup sampleKeyBackspace) false).1._pi.backspace = true ∧
    (processEvent
      (processEvent sampleStub
        (SDL_Event.keydown { scancode := 43, sym := SDLK_TAB, mod := 0 }) false).1
      (SDL_Event.keyup { scancode := 43, sym := SDLK_TAB, mod := 0 }) false).1._pi.backspace =
      true ∧
    (processEvent (processEvent sampleStub (SDL_Event.keydown sampleKeySpace) false).1
      (SDL_Event.keyup sampleKeySpace) false).1._pi.space = false ∧
    (processEvent (processEvent sampleJoyStub (SDL_Event.jbuttondown SDL_PRESSED 3) false).1
      (SDL_Event.jbuttonup 0 3) false).1._pi.backspace = false := by
  decide

/-! ## Fade request -/

/-- C15, evaluated where it fails: for every state and window size, after
`fadeScreen()` and one `updateScreen()` the flag `_fadeOnUpdateScreen` is still
true (it is true after any number of further calls as well), and the frame handed
to the GPU is the framebuffer itself, the same pixels as without the fade
request; `_darkPalette` is not consulted. -/
theorem fade_request_never_consumed (s : SystemStub_SDL) (shakeOffset w h : Int) :
    (fadeScreen s)._fadeOnUpdateScreen = true ∧
    (updateScreen (fadeScreen s) shakeOffset w h).1._fadeOnUpdateScreen = true ∧
    (updateScreen (updateScreen (fadeScreen s) shakeOffset w h).1
      shakeOffset w h).1._fadeOnUpdateScreen = true ∧
    (updateScreen (fadeScreen s) shakeOffset w h).2.pixels = s._screenBuffer ∧
    (updateScreen (fadeScreen s) shakeOffset w h).2.pixels =
      (updateScreen s shakeOffset w h).2.pixels ∧
    (init 256 224 false false false false false)._fadeOnUpdateScreen = false :=
  ⟨rfl, rfl, rfl, rfl, rfl, by decide⟩

/-! ## Palette: frame -/

/-- C20: `setPalette(pal, n)` with `n ≤ 256` returns and changes only the first `n`
slots: for every `i` with `n ≤ i < 256` both `_rgbPalette[i]` and `_darkPalette[i]`
are unchanged. Neither `setPalette` nor `setPaletteEntry` changes a pixel of the
framebuffer, and `setPaletteEntry(i, c)` changes no slot other than `i`. -/
theorem setPalette_changes_first_slots_only (s : SystemStub_SDL) (pal : Nat → Nat) (n : Int)
    (hn : n ≤ 256) :
    ∃ s', setPalette s pal n = some s' ∧
      (∀ i : Nat, n ≤ (i : Int) → i < 256 →
        s'._rgbPalette i = s._rgbPalette i ∧ s'._darkPalette i = s._darkPalette i) ∧
      s'._screenBuffer = s._screenBuffer ∧
      (∀ (i : Int) (c : Color), 0 ≤ i → i < 256 →
        ∃ s'', setPaletteEntry s i c = some s'') ∧
      (∀ (i : Int) (c : Color) (s'' : SystemStub_SDL), setPaletteEntry s i c = some s'' →
        s''._screenBuffer = s._screenBuffer ∧
        (∀ j : Nat, (j : Int) ≠ i →
          s''._rgbPalette j = s._rgbPalette j ∧ s''._darkPalette j = s._darkPalette j)) := by
  refine ⟨paletteAfter s pal n.toNat, setPalette_eq s pal n hn, ?_, rfl, ?_, ?_⟩
  · intro i hi _
    have h1 : ¬ i < n.toNat := by omega
    simp only [paletteAfter, if_neg h1, and_self]
  · intro i c h0 h1
    have hg : 0 ≤ i ∧ i < 256 := ⟨h0, h1⟩
    simp only [setPaletteEntry, setPaletteColor, if_pos hg]
    exact ⟨_, rfl⟩
  · intro i c s'' hs
    unfold setPaletteEntry setPaletteColor at hs
    split_ifs at hs with hg
    simp only [Option.some.injEq] at hs
    subst hs
    refine ⟨rfl, ?_⟩
    intro j hj
    have hne : j ≠ i.toNat := by omega
    simp only [Function.update_noteq hne, and_self]

/-- C20, at a concrete input: two entries set on a fresh stub. -/
theorem setPalette_changes_first_slots_only_witness :
    ∃ s', setPalette sampleStub samplePal 2 = some s' ∧
      (∀ i : Nat, (2 : Int) ≤ (i : Int) → i < 256 →
        s'._rgbPalette i = sampleStub._rgbPalette i ∧
          s'._darkPalette i = sampleStub._darkPalette i) ∧
      s'._screenBuffer = sampleStub._screenBuffer := by
  obtain ⟨s', h1, h2, h3, _⟩ :=
    setPalette_changes_first_slots_only sampleStub samplePal 2 (by decide)
  exact ⟨s', h1, h2, h3⟩

/-! ## Version detection -/

/-- The loop returns the type of the first entry whose file opens. -/
theorem detectVersionLoop_first (canOpen : String → Bool) :
    ∀ (pre : List (String × Int × String)) (e : String × Int × String)
      (post : List (String × Int × String)),
      canOpen e.1 = true → (∀ x ∈ pre, canOpen x.1 = false) →
      detectVersionLoop canOpen (pre ++ e :: post) = e.2.1 := by
  intro pre
  induction pre with
  | nil =>
    intro e post he _
    simp [detectVersionLoop, he]
  | cons x pre ih =>
    intro e post he hpre
    have hx : canOpen x.1 = false := hpre x (List.mem_cons_self x pre)
    have hrest : ∀ y ∈ pre, canOpen y.1 = false :=
      fun y hy => hpre y (List.mem_cons_of_mem x hy)
    simp only [List.cons_append, detectVersionLoop, hx, Bool.false_eq_true, if_false]
    exact ih e post he hrest

/-- The loop returns -1 exactly when no file of the table opens, provided no type
of the table is -1. -/
theorem detectVersionLoop_eq_neg_one (canOpen : String → Bool) :
    ∀ (l : List (String × Int × String)), (∀ e ∈ l, e.2.1 ≠ -1) →
      (detectVersionLoop canOpen l = -1 ↔ ∀ e ∈ l, canOpen e.1 = false) := by
  intro l
  induction l with
  | nil =>
    intro _
    simp [detectVersionLoop]
  | cons x l ih =>
    intro hty
    have hx : x.2.1 ≠ -1 := hty x (List.mem_cons_self x l)
    have hl : ∀ e ∈ l, e.2.1 ≠ -1 := fun e he => hty e (List.mem_cons_of_mem x he)
    simp only [detectVersionLoop, List.mem_cons, forall_eq_or_imp]
    by_cases hc : canOpen x.1 = true
    · simp [hc, hx]
    · have hc' : canOpen x.1 = false := by simpa using hc
      simp only [hc', Bool.false_eq_true, if_false, true_and]
      exact ih hl

/-- C18: `detectVersion`, as a function of which files can be opened, returns the
type of the first entry of its table (in the order `INTRO.SEQ`, `MENU1SSI.MAP`,
`LEVEL1.MAP`, `LEVEL1.BNQ`, `LEVEL1.LEV`, `DEMO.LEV`) whose file opens, and -1 if
and only if none of the six opens; it returns the DOS type whenever one of the
first four opens, whatever the Amiga files; and `main`, once the command line is
accepted, returns -1 exactly when `detectVersion` returns -1. The two resource
types are enumerators different from -1. -/
theorem detectVersion_first_match (kResourceTypeDOS kResourceTypeAmiga : Int)
    (canOpen : String → Bool) (hdos : kResourceTypeDOS ≠ -1) (hamiga : kResourceTypeAmiga ≠ -1) :
    (detectVersionTable kResourceTypeDOS kResourceTypeAmiga).map (fun e => (e.1, e.2.1)) =
      [("INTRO.SEQ", kResourceTypeDOS), ("MENU1SSI.MAP", kResourceTypeDOS),
       ("LEVEL1.MAP", kResourceTypeDOS), ("LEVEL1.BNQ", kResourceTypeDOS),
       ("LEVEL1.LEV", kResourceTypeAmiga), ("DEMO.LEV", kResourceTypeAmiga)] ∧
    (∀ (pre : List (String × Int × String)) (e : String × Int × String)
      (post : List (String × Int × String)),
      detectVersionTable kResourceTypeDOS kResourceTypeAmiga = pre ++ e :: post →
      canOpen e.1 = true → (∀ x ∈ pre, canOpen x.1 = false) →
      detectVersion kResourceTypeDOS kResourceTypeAmiga canOpen = e.2.1) ∧
    (detectVersion kResourceTypeDOS kResourceTypeAmiga canOpen = -1 ↔
      (canOpen "INTRO.SEQ" = false ∧ canOpen "MENU1SSI.MAP" = false ∧
        canOpen "LEVEL1.MAP" = false ∧ canOpen "LEVEL1.BNQ" = false ∧
        canOpen "LEVEL1.LEV" = false ∧ canOpen "DEMO.LEV" = false)) ∧
    ((canOpen "INTRO.SEQ" = true ∨ canOpen "MENU1SSI.MAP" = true ∨
        canOpen "LEVEL1.MAP" = true ∨ canOpen "LEVEL1.BNQ" = true) →
      detectVersion kResourceTypeDOS kResourceTypeAmiga canOpen = kResourceTypeDOS) ∧
    (main kResourceTypeDOS kResourceTypeAmiga true canOpen = -1 ↔
      detectVersion kResourceTypeDOS kResourceTypeAmiga canOpen = -1) ∧
    (detectVersion kResourceTypeDOS kResourceTypeAmiga canOpen ≠ -1 →
      main kResourceTypeDOS kResourceTypeAmiga true canOpen = 0) := by
  refine ⟨rfl, ?_, ?_, ?_, ?_, ?_⟩
  · intro pre e post htab he hpre
    unfold detectVersion
    rw [htab]
    exact detectVersionLoop_first canOpen pre e post he hpre
  · unfold detectVersion
    rw [detectVersionLoop_eq_neg_one canOpen _ (by
      intro e he
      simp only [detectVersionTable, List.mem_cons, List.mem_singleton, List.not_mem_nil,
        or_false] at he
      rcases he with rfl | rfl | rfl | rfl | rfl | rfl <;> assumption)]
    simp only [detectVersionTable, List.mem_cons, List.mem_singleton, List.not_mem_nil,
      or_false, forall_eq_or_imp, forall_eq]
  · intro hany
    simp only [detectVersion, detectVersionTable, detectVersionLoop]
    rcases hany with h | h | h | h
    · simp [h]
    · by_cases h1 : canOpen "INTRO.SEQ" = true <;> simp [h, h1]
    · by_cases h1 : canOpen "INTRO.SEQ" = true <;>
        by_cases h2 : canOpen "MENU1SSI.MAP" = true <;> simp [h, h1, h2]
    · by_cases h1 : canOpen "INTRO.SEQ" = true <;>
        by_cases h2 : canOpen "MENU1SSI.MAP" = true <;>
        by_cases h3 : canOpen "LEVEL1.MAP" = true <;> simp [h, h1, h2, h3]
  · simp only [main, Bool.not_true, Bool.false_eq_true, if_false]
    split_ifs with hv
    · simp [hv]
    · simp [hv]
  · intro hv
    simp only [main, Bool.not_true, Bool.false_eq_true, if_false, if_neg hv]

/-- C18, at a concrete input: a data directory with `LEVEL1.MAP` and `LEVEL1.LEV`,
DOS type 1 and Amiga type 0: the DOS type is detected and `main` goes on. -/
theorem detectVersion_first_match_witness :
    ((1 : Int) ≠ -1 ∧ (0 : Int) ≠ -1) ∧
    (sampleCanOpen "LEVEL1.MAP" = true ∧ sampleCanOpen "LEVEL1.LEV" = true) ∧
    detectVersion 1 0 sampleCanOpen = 1 ∧ main 1 0 true sampleCanOpen = 0 :=
  ⟨⟨by decide, by decide⟩, ⟨by decide, by decide⟩,
    (detectVersion_first_match 1 0 sampleCanOpen (by decide) (by decide)).2.2.2.1
      (Or.inr (Or.inr (Or.inl (by decide)))),
    (detectVersion_first_match 1 0 sampleCanOpen (by decide) (by decide)).2.2.2.2.2
      (by decide)⟩

/-! ## Options: one line of the configuration file -/

/-- No name of the table is the beginning of another one, no name occurs twice,
and no name contains `=`. -/
theorem optNames_facts :
    (∀ a ∈ optNames, ∀ b ∈ optNames, a <+: b → a = b) ∧ optNames.Nodup ∧
      (∀ a ∈ optNames, ∀ x ∈ a, x ≠ '=') := by
  decide

/-- The loop over the table assigns through the first entry whose name begins
`buf`. -/
theorem assignOption_first (o : Options) (buf : List Char) (value : Bool) :
    ∀ (pre : List OptEntry) (e : OptEntry) (post : List OptEntry),
      (∀ x ∈ pre, ¬ x.name <+: buf) → e.name <+: buf →
      assignOption o buf value (pre ++ e :: post) = some (e.set o value) := by
  intro pre
  induction pre with
  | nil =>
    intro e post _ he
    have he' : e.name.isPrefixOf buf = true := List.isPrefixOf_iff_prefix.mpr he
    simp [assignOption, he']
  | cons x pre ih =>
    intro e post hpre he
    have hx : x.name.isPrefixOf buf = false := by
      cases hb : x.name.isPrefixOf buf with
      | false => rfl
      | true =>
        exact absurd (List.isPrefixOf_iff_prefix.mp hb) (hpre x (List.mem_cons_self x pre))
    simp only [List.cons_append, assignOption, hx, Bool.false_eq_true, if_false]
    exact ih e post (fun y hy => hpre y (List.mem_cons_of_mem x hy)) he

/-- The loop over the table finds nothing when no name begins `buf`. -/
theorem assignOption_none (o : Options) (buf : List Char) (value : Bool) :
    ∀ (l : List OptEntry), (∀ x ∈ l, ¬ x.name <+: buf) →
      assignOption o buf value l = none := by
  intro l
  induction l with
  | nil =>
    intro _
    rfl
  | cons x l ih =>
    intro hl
    have hx : x.name.isPrefixOf buf = false := by
      cases hb : x.name.isPrefixOf buf with
      | false => rfl
      | true =>
        exact absurd (List.isPrefixOf_iff_prefix.mp hb) (hl x (List.mem_cons_self x l))
    simp only [assignOption, hx, Bool.false_eq_true, if_false]
    exact ih (fun y hy => hl y (List.mem_cons_of_mem x hy))

/-- A line that begins with a name of the table is assigned through the entry of
that name. -/
theorem assignOption_of_mem (o : Options) (e : OptEntry) (he : e ∈ opts) (rest : List Char)
    (value : Bool) :
    assignOption o (e.name ++ rest) value opts = some (e.set o value) := by
  obtain ⟨pre, post, hsplit⟩ := List.append_of_mem he
  obtain ⟨hpfx, hnodup, _⟩ := optNames_facts
  have hnames : optNames = pre.map (fun x => x.name) ++ e.name :: post.map (fun x => x.name) := by
    simp [optNames, hsplit]
  rw [hsplit]
  apply assignOption_first
  · intro x hx hxpre
    have hxmem : x.name ∈ optNames := by
      rw [hnames]
      exact List.mem_append_left _ (List.mem_map_of_mem _ hx)
    have hemem : e.name ∈ optNames := by
      rw [hnames]
      exact List.mem_append_right _ (List.mem_cons_self _ _)
    have hcmp := List.prefix_or_prefix_of_prefix hxpre (List.prefix_append e.name rest)
    have heq : x.name = e.name := by
      rcases hcmp with h | h
      · exact hpfx _ hxmem _ hemem h
      · exact (hpfx _ hemem _ hxmem h).symm
    rw [hnames] at hnodup
    have hdisj := (List.nodup_append.mp hnodup).2.2
    exact hdisj (List.mem_map_of_mem _ hx) (heq ▸ List.mem_cons_self _ _)
  · exact List.prefix_append e.name rest

/-- The text after the first `=` of a line `name = v`. -/
theorem strchr_assignment (name v : List Char) (hname : ∀ x ∈ name, x ≠ '=') :
    strchr (name ++ [' ', '=', ' '] ++ v) '=' = some ('=' :: ' ' :: v) := by
  have h1 : (name ++ [' ', '=', ' '] ++ v).dropWhile (fun x => x != '=') =
      '=' :: ' ' :: v := by
    rw [List.append_assoc, List.dropWhile_append_of_pos]
    · simp [List.dropWhile]
    · intro a ha
      simpa using hname a ha
  unfold strchr
  rw [h1]

/-- The first character that is not white space heads the text left after the
white space is skipped. -/
theorem dropWhile_isspace_of_find (v : List Char) (c : Char)
    (hc : v.find? (fun x => !isspace x) = some c) :
    ∃ tail, v.dropWhile isspace = c :: tail := by
  rw [List.find?_eq_head?_dropWhile_not] at hc
  simp only [Bool.not_not] at hc
  cases hd : v.dropWhile isspace with
  | nil =>
    have hd' : List.dropWhile (fun x => isspace x) v = [] := hd
    rw [hd'] at hc
    simp at hc
  | cons a tail =>
    have hd' : List.dropWhile (fun x => isspace x) v = a :: tail := hd
    rw [hd'] at hc
    simp only [List.head?_cons, Option.some.injEq] at hc
    exact ⟨tail, by rw [hc]⟩

/-- No name of the table is empty or begins with `#`. -/
theorem optNames_head : ∀ a ∈ optNames, a ≠ [] ∧ a.head? ≠ some '#' := by
  decide

/-- Writing through an entry of the table and reading back gives the value
written, and reading through an entry of another name gives the old value. -/
theorem opts_get_set (o : Options) (b : Bool) (e : OptEntry) (he : e ∈ opts) :
    e.get (e.set o b) = b ∧
      ∀ e' ∈ opts, e'.name ≠ e.name → e'.get (e.set o b) = e'.get o := by
  simp only [opts, List.mem_cons, List.mem_singleton, List.not_mem_nil, or_false] at he
  refine ⟨?_, ?_⟩
  · rcases he with h | h | h | h | h | h | h | h | h | h | h | h | h | h <;> subst h <;> rfl
  · intro e' he' hne
    simp only [opts, List.mem_cons, List.mem_singleton, List.not_mem_nil, or_false] at he'
    rcases he with h | h | h | h | h | h | h | h | h | h | h | h | h | h <;> subst h <;>
      rcases he' with h' | h' | h' | h' | h' | h' | h' | h' | h' | h' | h' | h' | h' | h' <;>
      subst h' <;> first | rfl | exact absurd rfl hne

/-- The loop body on a line `name = v` whose name is in the table. -/
theorem configLine_assignment (o : Options) (e : OptEntry) (he : e ∈ opts) (v : List Char)
    (c : Char) (hc : v.find? (fun x => !isspace x) = some c) :
    configLine o (e.name ++ [' ', '=', ' '] ++ v) =
      (e.set o (c == 't' || c == 'T' || c == '1'), []) := by
  have hmem : e.name ∈ optNames := List.mem_map_of_mem _ he
  obtain ⟨hne, hhash⟩ := optNames_head e.name hmem
  have hnoeq := optNames_facts.2.2 e.name hmem
  obtain ⟨tail, htail⟩ := dropWhile_isspace_of_find v c hc
  have hhead : (e.name ++ [' ', '=', ' '] ++ v).head? ≠ some '#' := by
    cases hn : e.name with
    | nil => exact absurd hn hne
    | cons a rest =>
      rw [hn] at hhash
      simpa using hhash
  have hdrop : (List.drop 1 ('=' :: ' ' :: v)).dropWhile isspace = c :: tail := by
    have hsp : isspace ' ' = true := by decide
    simp only [List.drop_succ_cons, List.drop_zero, List.dropWhile_cons, hsp, if_true]
    exact htail
  have hassign := assignOption_of_mem o e he ([' ', '=', ' '] ++ v)
    (c == 't' || c == 'T' || c == '1')
  rw [← List.append_assoc] at hassign
  unfold configLine
  rw [if_neg hhead, strchr_assignment e.name v hnoeq]
  simp only [hdrop, hassign]

/-- The loop body of `initOptions` on one content of the buffer: for every name
`k` of the option table and every value text `v` with a first character `c` that
is not white space, the body on `k = v` sets option `k` to true iff `c` is `t`,
`T` or `1` (false otherwise), leaves every other option of the table unchanged
and warns of nothing. Starting from the defaults, the file
`use_white_tshirt = True`, `# comment`, `foo = bar` yields
`use_white_tshirt = true` and every other option at its default, with one warning
for the line `foo = bar`. -/
theorem configLine_sets_named_option (o : Options) (e : OptEntry) (he : e ∈ opts)
    (v : List Char) (c : Char) (hc : v.find? (fun x => !isspace x) = some c) :
    configLine o (e.name ++ [' ', '=', ' '] ++ v) =
      (e.set o (c == 't' || c == 'T' || c == '1'), []) ∧
    (e.get (configLine o (e.name ++ [' ', '=', ' '] ++ v)).1 = true ↔
      (c = 't' ∨ c = 'T' ∨ c = '1')) ∧
    (∀ e' ∈ opts, e'.name ≠ e.name →
      e'.get (configLine o (e.name ++ [' ', '=', ' '] ++ v)).1 = e'.get o) ∧
    initOptions Options.zero (some sampleConfig) =
      ({ setDefaults Options.zero with use_white_tshirt := true },
        ["foo = bar\n".toList]) := by
  rw [configLine_assignment o e he v c hc]
  obtain ⟨hget, hother⟩ := opts_get_set o (c == 't' || c == 'T' || c == '1') e he
  refine ⟨rfl, ?_, hother, by decide⟩
  simp only [hget, Bool.or_eq_true, beq_iff_eq, or_assoc]

/-- The loop body at a concrete input: the buffer `use_white_tshirt = True` on the
zeroed options. -/
theorem configLine_sets_named_option_witness :
    sampleOptEntry ∈ opts ∧
    "True\n".toList.find? (fun x => !isspace x) = some 'T' ∧
    configLine Options.zero ("use_white_tshirt".toList ++ [' ', '=', ' '] ++ "True\n".toList) =
      ({ Options.zero with use_white_tshirt := ('T' == 't' || 'T' == 'T' || 'T' == '1') },
        []) :=
  ⟨by simp [opts, sampleOptEntry], by decide,
    (configLine_sets_named_option Options.zero sampleOptEntry (by simp [opts, sampleOptEntry])
      "True\n".toList 'T' (by decide)).1⟩

/-- The loop body of `initOptions` on one content of the buffer that is not a
recognised assignment: for every option state the body leaves all options
unchanged on a content whose first character is `#`, on one without `=`, and on
one that does not begin with any name of the option table; the first two warn of
nothing, the last one emits at most one warning, and an unknown `key = value`
with a value emits exactly the warning for that content. -/
theorem configLine_unrecognised_keeps_options (o : Options) (buf : List Char) :
    (buf.head? = some '#' → configLine o buf = (o, [])) ∧
    ((∀ x ∈ buf, x ≠ '=') → configLine o buf = (o, [])) ∧
    ((∀ e ∈ opts, ¬ e.name <+: buf) →
      (configLine o buf).1 = o ∧
      ((configLine o buf).2 = [] ∨ (configLine o buf).2 = [buf])) ∧
    (∀ (key v : List Char) (c : Char), buf = key ++ [' ', '=', ' '] ++ v →
      (∀ e ∈ opts, ¬ e.name <+: buf) → key.head? ≠ some '#' → (∀ x ∈ key, x ≠ '=') →
      v.find? (fun x => !isspace x) = some c →
      configLine o buf = (o, [buf])) := by
  refine ⟨?_, ?_, ?_, ?_⟩
  · intro h
    unfold configLine
    rw [if_pos h]
  · intro h
    have hdrop : buf.dropWhile (fun x => x != '=') = [] := by
      rw [List.dropWhile_eq_nil_iff]
      intro x hx
      simpa using h x hx
    unfold configLine strchr
    rw [hdrop]
    split_ifs <;> rfl
  · intro h
    have hnone : ∀ value : Bool, assignOption o buf value opts = none :=
      fun value => assignOption_none o buf value opts h
    unfold configLine
    split_ifs
    · exact ⟨rfl, Or.inl rfl⟩
    · cases strchr buf '=' with
      | none => exact ⟨rfl, Or.inl rfl⟩
      | some p =>
        simp only
        cases (List.drop 1 p).dropWhile isspace with
        | nil => exact ⟨rfl, Or.inl rfl⟩
        | cons a tail =>
          simp only [hnone]
          exact ⟨trivial, Or.inr trivial⟩
  · intro key v c hbuf h hhash hnoeq hc
    obtain ⟨tail, htail⟩ := dropWhile_isspace_of_find v c hc
    have hhead : buf.head? ≠ some '#' := by
      rw [hbuf]
      cases hk : key with
      | nil => simp
      | cons a rest =>
        rw [hk] at hhash
        simpa using hhash
    have hdrop : (List.drop 1 ('=' :: ' ' :: v)).dropWhile isspace = c :: tail := by
      have hsp : isspace ' ' = true := by decide
      simp only [List.drop_succ_cons, List.drop_zero, List.dropWhile_cons, hsp, if_true]
      exact htail
    have hnone := assignOption_none o buf (c == 't' || c == 'T' || c == '1') opts h
    have hstr : strchr buf '=' = some ('=' :: ' ' :: v) := by
      rw [hbuf]
      exact strchr_assignment key v hnoeq
    unfold configLine
    rw [if_neg hhead, hstr]
    simp only [hdrop, hnone]

/-- The loop body at a concrete input: the comment and the unknown key of the
sample file. -/
theorem configLine_unrecognised_keeps_options_witness :
    "# comment\n".toList.head? = some '#' ∧
    configLine (setDefaults Options.zero) "# comment\n".toList =
      (setDefaults Options.zero, []) ∧
    (∀ e ∈ opts, ¬ e.name <+: "foo = bar\n".toList) ∧
    (configLine (setDefaults Options.zero) "foo = bar\n".toList).1 = setDefaults Options.zero :=
  ⟨by decide,
    (configLine_unrecognised_keeps_options (setDefaults Options.zero)
      "# comment\n".toList).1 (by decide),
    by decide,
    ((configLine_unrecognised_keeps_options (setDefaults Options.zero)
      "foo = bar\n".toList).2.2.1 (by decide)).1⟩

set_option maxRecDepth 100000 in
/-- The reading layer of `initOptions`: a line that fits the buffer is handed to
the loop body whole, a longer one in pieces of 255 characters. So the value of an
assignment that lies beyond the first 255 characters of its line is not seen, and
the tail of an over-long comment line is read as a line of its own. -/
theorem initOptions_splits_long_lines :
    fgetsChunks 255 sampleConfig [] =
      ["use_white_tshirt = True\n".toList, "# comment\n".toList, "foo = bar\n".toList] ∧
    sampleLongAssignment.length = 321 ∧
    (initOptions Options.zero (some sampleLongAssignment)).1 = setDefaults Options.zero ∧
    sampleLongComment.length = 276 ∧
    (initOptions Options.zero (some sampleLongComment)).1 =
      { setDefaults Options.zero with use_white_tshirt := true } ∧
    initOptions Options.zero none = (setDefaults Options.zero, []) := by
  refine ⟨by decide, by decide, by decide, by decide, by decide, rfl⟩

/-! ## Input: the two axis paths -/

/-- The statement `m &= ~k` only looks at the low byte of `m`. -/
theorem clearBits_mod (m k : Nat) : clearBits m k = clearBits (m % 256) k := by
  unfold clearBits
  rw [mod_256_eq_and, mod_256_eq_and, mod_256_eq_and]
  apply Nat.eq_of_testBit_eq
  intro i
  simp only [Nat.testBit_and]
  cases m.testBit i <;> cases (255 : Nat).testBit i <;>
    cases (4294967295 ^^^ k).testBit i <;> rfl

/-- The statement `m |= b` only looks at the low byte of `m`. -/
theorem setBits_mod (m b : Nat) : setBits m b = setBits (m % 256) b := by
  unfold setBits
  rw [mod_256_eq_and, mod_256_eq_and, mod_256_eq_and]
  apply Nat.eq_of_testBit_eq
  intro i
  simp only [Nat.testBit_and, Nat.testBit_or]
  cases m.testBit i <;> cases (255 : Nat).testBit i <;> cases b.testBit i <;> rfl

set_option maxRecDepth 100000 in
/-- On every byte, clearing both bits of an axis and setting at most one gives the
same mask as setting or clearing each bit on its own. -/
theorem axis_paths_agree_on_bytes :
    ∀ k, k < 256 →
      (setBits (clearBits k (DIR_RIGHT ||| DIR_LEFT)) DIR_RIGHT =
          setBits (clearBits k DIR_LEFT) DIR_RIGHT ∧
        setBits (clearBits k (DIR_RIGHT ||| DIR_LEFT)) DIR_LEFT =
          clearBits (setBits k DIR_LEFT) DIR_RIGHT ∧
        clearBits k (DIR_RIGHT ||| DIR_LEFT) = clearBits (clearBits k DIR_LEFT) DIR_RIGHT) ∧
      (setBits (clearBits k (DIR_UP ||| DIR_DOWN)) DIR_DOWN =
          setBits (clearBits k DIR_UP) DIR_DOWN ∧
        setBits (clearBits k (DIR_UP ||| DIR_DOWN)) DIR_UP =
          clearBits (setBits k DIR_UP) DIR_DOWN ∧
        clearBits k (DIR_UP ||| DIR_DOWN) = clearBits (clearBits k DIR_UP) DIR_DOWN) := by
  decide

/-- The same for every value of the mask. -/
theorem axis_paths_agree (m : Nat) :
    (setBits (clearBits m (DIR_RIGHT ||| DIR_LEFT)) DIR_RIGHT =
        setBits (clearBits m DIR_LEFT) DIR_RIGHT ∧
      setBits (clearBits m (DIR_RIGHT ||| DIR_LEFT)) DIR_LEFT =
        clearBits (setBits m DIR_LEFT) DIR_RIGHT ∧
      clearBits m (DIR_RIGHT ||| DIR_LEFT) = clearBits (clearBits m DIR_LEFT) DIR_RIGHT) ∧
    (setBits (clearBits m (DIR_UP ||| DIR_DOWN)) DIR_DOWN =
        setBits (clearBits m DIR_UP) DIR_DOWN ∧
      setBits (clearBits m (DIR_UP ||| DIR_DOWN)) DIR_UP =
        clearBits (setBits m DIR_UP) DIR_DOWN ∧
      clearBits m (DIR_UP ||| DIR_DOWN) = clearBits (clearBits m DIR_UP) DIR_DOWN) := by
  have hb := axis_paths_agree_on_bytes (m % 256) (Nat.mod_lt m (by decide))
  rw [clearBits_mod m (DIR_RIGHT ||| DIR_LEFT), clearBits_mod m DIR_LEFT,
    setBits_mod m DIR_LEFT, clearBits_mod m (DIR_UP ||| DIR_DOWN), clearBits_mod m DIR_UP,
    setBits_mod m DIR_UP]
  exact hb

/-- The direction mask after a controller axis event. -/
theorem processControllerAxis_dirMask (pi : PlayerInput) (v : Int) :
    (∀ axis : Nat, axis = SDL_CONTROLLER_AXIS_LEFTX ∨ axis = SDL_CONTROLLER_AXIS_RIGHTX →
      (processControllerAxis pi axis v).dirMask =
        (if v > 3200 then setBits (clearBits pi.dirMask DIR_LEFT) DIR_RIGHT
         else if v < -3200 then clearBits (setBits pi.dirMask DIR_LEFT) DIR_RIGHT
         else clearBits (clearBits pi.dirMask DIR_LEFT) DIR_RIGHT)) ∧
    (∀ axis : Nat, axis = SDL_CONTROLLER_AXIS_LEFTY ∨ axis = SDL_CONTROLLER_AXIS_RIGHTY →
      (processControllerAxis pi axis v).dirMask =
        (if v > 3200 then setBits (clearBits pi.dirMask DIR_UP) DIR_DOWN
         else if v < -3200 then clearBits (setBits pi.dirMask DIR_UP) DIR_DOWN
         else clearBits (clearBits pi.dirMask DIR_UP) DIR_DOWN)) := by
  have hk : kJoystickCommitValue = 3200 := rfl
  constructor
  · intro axis hax
    unfold processControllerAxis
    simp only [hk, if_pos hax]
    by_cases h1 : v > 3200
    · have h2 : ¬ v < -3200 := by omega
      simp only [if_pos h1, if_neg h2]
    · by_cases h2 : v < -3200
      · simp only [if_neg h1, if_pos h2]
      · simp only [if_neg h1, if_neg h2]
  · intro axis hax
    have hnx : ¬ (axis = SDL_CONTROLLER_AXIS_LEFTX ∨ axis = SDL_CONTROLLER_AXIS_RIGHTX) := by
      rcases hax with h | h <;> subst h <;> decide
    unfold processControllerAxis
    simp only [hk, if_neg hnx, if_pos hax]
    by_cases h1 : v > 3200
    · have h2 : ¬ v < -3200 := by omega
      simp only [if_pos h1, if_neg h2]
    · by_cases h2 : v < -3200
      · simp only [if_neg h1, if_pos h2]
      · simp only [if_neg h1, if_neg h2]

/-- C24: the two axis code paths agree. For every prior `PlayerInput` record and
every axis value `v`, the record produced by a joystick axis-0 event (clear both
horizontal bits, then set at most one) equals the one produced by a controller
`LEFTX` or `RIGHTX` event (set or clear each horizontal bit on its own) with the
same `v`, and likewise joystick axis 1 and controller `LEFTY` or `RIGHTY`; so a
stub with an open joystick and a stub with an open controller that hold the same
record hold the same direction mask afterwards. -/
theorem joystick_and_controller_axis_agree (pi : PlayerInput) (v : Int) :
    (∀ axis : Nat, axis = SDL_CONTROLLER_AXIS_LEFTX ∨ axis = SDL_CONTROLLER_AXIS_RIGHTX →
      processJoyAxis pi 0 v = processControllerAxis pi axis v) ∧
    (∀ axis : Nat, axis = SDL_CONTROLLER_AXIS_LEFTY ∨ axis = SDL_CONTROLLER_AXIS_RIGHTY →
      processJoyAxis pi 1 v = processControllerAxis pi axis v) ∧
    (∀ (sj sc : SystemStub_SDL) (paused : Bool), sj._joystick = true → sc._controller = true →
      sj._pi = pi → sc._pi = pi →
      (∀ axis : Nat, axis = SDL_CONTROLLER_AXIS_LEFTX ∨ axis = SDL_CONTROLLER_AXIS_RIGHTX →
        (processEvent sj (SDL_Event.jaxis 0 v) paused).1._pi.dirMask =
          (processEvent sc (SDL_Event.caxis axis v) paused).1._pi.dirMask) ∧
      (∀ axis : Nat, axis = SDL_CONTROLLER_AXIS_LEFTY ∨ axis = SDL_CONTROLLER_AXIS_RIGHTY →
        (processEvent sj (SDL_Event.jaxis 1 v) paused).1._pi.dirMask =
          (processEvent sc (SDL_Event.caxis axis v) paused).1._pi.dirMask)) := by
  obtain ⟨j0, j1⟩ := processJoyAxis_dirMask pi v
  obtain ⟨c0, c1⟩ := processControllerAxis_dirMask pi v
  obtain ⟨⟨a1, a2, a3⟩, ⟨b1, b2, b3⟩⟩ := axis_paths_agree pi.dirMask
  have hx : ∀ axis : Nat,
      axis = SDL_CONTROLLER_AXIS_LEFTX ∨ axis = SDL_CONTROLLER_AXIS_RIGHTX →
      processJoyAxis pi 0 v = processControllerAxis pi axis v := by
    intro axis hax
    rw [processJoyAxis_frame, processControllerAxis_frame, j0, c0 axis hax, a1, a2, a3]
  have hy : ∀ axis : Nat,
      axis = SDL_CONTROLLER_AXIS_LEFTY ∨ axis = SDL_CONTROLLER_AXIS_RIGHTY →
      processJoyAxis pi 1 v = processControllerAxis pi axis v := by
    intro axis hax
    rw [processJoyAxis_frame, processControllerAxis_frame, j1, c1 axis hax, b1, b2, b3]
  refine ⟨hx, hy, ?_⟩
  intro sj sc paused hj hc hsj hsc
  constructor
  · intro axis hax
    simp only [processEvent, hj, hc, if_true, hsj, hsc]
    rw [hx axis hax]
  · intro axis hax
    simp only [processEvent, hj, hc, if_true, hsj, hsc]
    rw [hy axis hax]

/-- C24, at a concrete input: the stick pushed left on a stub with a joystick and
on a stub with a controller. -/
theorem joystick_and_controller_axis_agree_witness :
    sampleJoyStub._joystick = true ∧ samplePadStub._controller = true ∧
    sampleJoyStub._pi = PlayerInput.zero ∧ samplePadStub._pi = PlayerInput.zero ∧
    (processEvent sampleJoyStub (SDL_Event.jaxis 0 (-20000)) false).1._pi.dirMask =
      (processEvent samplePadStub (SDL_Event.caxis SDL_CONTROLLER_AXIS_LEFTX (-20000))
        false).1._pi.dirMask ∧
    (processEvent sampleJoyStub (SDL_Event.jaxis 0 (-20000)) false).1._pi.dirMask = DIR_LEFT :=
  ⟨by decide, by decide, by decide, by decide,
    ((joystick_and_controller_axis_agree PlayerInput.zero (-20000)).2.2 sampleJoyStub
      samplePadStub false (by decide) (by decide) (by decide) (by decide)).1
      SDL_CONTROLLER_AXIS_LEFTX (Or.inl rfl),
    by decide⟩

/-! ## Block copy: bounds of the accesses -/

/-- The rectangle on entry to the loops of `copyRect` starts at non-negative
coordinates and does not pass the right and bottom edges of the framebuffer. -/
theorem copyRectClip_bounds (W H x y w h cx cy cw ch : Int)
    (hc : copyRectClip W H x y w h = some (cx, cy, cw, ch)) :
    0 ≤ cx ∧ 0 ≤ cy ∧ cx + cw ≤ W ∧ cy + ch ≤ H ∧
      cx = max x 0 ∧ cy = max y 0 ∧ (cw = w ∨ cw = W - cx) ∧ (ch = h ∨ ch = H - cy) := by
  rw [copyRectClip_eq] at hc
  by_cases hret : (0 ≤ x ∧ W ≤ x) ∨ (0 ≤ y ∧ H ≤ y)
  · rw [if_pos hret] at hc
    exact absurd hc (by simp)
  · rw [if_neg hret] at hc
    simp only [Option.some.injEq, Prod.mk.injEq] at hc
    obtain ⟨h1, h2, h3, h4⟩ := hc
    have hm2 := le_max_right x 0
    have hm4 := le_max_right y 0
    rw [h1] at h3 hm2
    rw [h2] at h4 hm4
    refine ⟨hm2, hm4, ?_, ?_, h1.symm, h2.symm, ?_, ?_⟩
    · split_ifs at h3 <;> omega
    · split_ifs at h4 <;> omega
    · split_ifs at h3 <;> omega
    · split_ifs at h4 <;> omega

/-- The offset of a position inside a grid of rows of length `P ≥ W` lies inside
the grid. -/
theorem offset_in_grid (W H P r c : Int) (hc0 : 0 ≤ c) (hcW : c < W) (hr0 : 0 ≤ r)
    (hrH : r < H) (hP : W ≤ P) : 0 ≤ r * P + c ∧ r * P + c < P * H := by
  have hP0 : 0 ≤ P := by omega
  have h1 : 0 ≤ r * P := mul_nonneg hr0 hP0
  have h2 : r * P ≤ (H - 1) * P := mul_le_mul_of_nonneg_right (by omega) hP0
  constructor
  · omega
  · have h3 : (H - 1) * P = P * H - P := by ring
    omega

/-- C22: `copyRect` never writes outside the framebuffer. For every `x`, `y`, `w`,
`h` (negative and oversized values included) every framebuffer offset written by
its loops lies in `[0, _screenW * _screenH)`; with the debug-blocks bit clear the
call returns and no offset outside that range changes; and if `pitch ≥ _screenW`
every offset read in `buf` lies in `[0, pitch * _screenH)`. -/
theorem copyRect_stays_in_bounds (s : SystemStub_SDL) (x y w h : Int) (buf : Int → Nat)
    (pitch : Int) (hdbg : s._pi.dbgMask &&& DF_DBLOCKS = 0) :
    (∀ k ∈ copyRectWritten s x y w h pitch, 0 ≤ k ∧ k < s._screenW * s._screenH) ∧
    (∃ s', copyRect s x y w h buf pitch = some s' ∧
      ∀ k : Int, ¬ (0 ≤ k ∧ k < s._screenW * s._screenH) →
        s'._screenBuffer k = s._screenBuffer k) ∧
    (s._screenW ≤ pitch →
      ∀ k ∈ copyRectRead s x y w h pitch, 0 ≤ k ∧ k < pitch * s._screenH) := by
  have hwritten : ∀ k ∈ copyRectWritten s x y w h pitch,
      0 ≤ k ∧ k < s._screenW * s._screenH := by
    intro k hk
    unfold copyRectWritten at hk
    cases hc : copyRectClip s._screenW s._screenH x y w h with
    | none =>
      rw [hc] at hk
      exact absurd hk (List.not_mem_nil k)
    | some r =>
      obtain ⟨cx, cy, cw, ch⟩ := r
      rw [hc] at hk
      simp only [List.mem_map] at hk
      obtain ⟨a, ha, rfl⟩ := hk
      rw [mem_copyRectAccesses] at ha
      obtain ⟨j, hj, i, hi, rfl⟩ := ha
      obtain ⟨b1, b2, b3, b4, _⟩ := copyRectClip_bounds _ _ _ _ _ _ _ _ _ _ hc
      have hg := offset_in_grid s._screenW s._screenH s._screenW (cy + (j : Int))
        (cx + (i : Int)) (by omega) (by omega) (by omega) (by omega) (le_refl _)
      have e : cy * s._screenW + cx + (j : Int) * s._screenW + (i : Int) =
          (cy + (j : Int)) * s._screenW + (cx + (i : Int)) := by ring
      simp only [e]
      exact hg
  refine ⟨hwritten, ⟨_, copyRect_of_dbg_clear s x y w h buf pitch hdbg, ?_⟩, ?_⟩
  · intro k hk
    simp only
    cases hc : copyRectClip s._screenW s._screenH x y w h with
    | none => rfl
    | some r =>
      obtain ⟨cx, cy, cw, ch⟩ := r
      simp only
      apply storePixels_of_not_mem
      intro a ha hak
      apply hk
      apply hwritten
      unfold copyRectWritten
      rw [hc]
      simp only [List.mem_map]
      exact ⟨a, ha, hak⟩
  · intro hP k hk
    unfold copyRectRead at hk
    cases hc : copyRectClip s._screenW s._screenH x y w h with
    | none =>
      rw [hc] at hk
      exact absurd hk (List.not_mem_nil k)
    | some r =>
      obtain ⟨cx, cy, cw, ch⟩ := r
      rw [hc] at hk
      simp only [List.mem_map] at hk
      obtain ⟨a, ha, rfl⟩ := hk
      rw [mem_copyRectAccesses] at ha
      obtain ⟨j, hj, i, hi, rfl⟩ := ha
      obtain ⟨b1, b2, b3, b4, _⟩ := copyRectClip_bounds _ _ _ _ _ _ _ _ _ _ hc
      have hg := offset_in_grid s._screenW s._screenH pitch (cy + (j : Int))
        (cx + (i : Int)) (by omega) (by omega) (by omega) (by omega) hP
      have e : cy * pitch + cx + (j : Int) * pitch + (i : Int) =
          (cy + (j : Int)) * pitch + (cx + (i : Int)) := by ring
      simp only [e]
      exact hg

/-- C22, at a concrete input: an oversized rectangle starting left of and above
the 256 x 224 framebuffer. -/
theorem copyRect_stays_in_bounds_witness :
    sampleStub2._pi.dbgMask &&& DF_DBLOCKS = 0 ∧
    (∀ k ∈ copyRectWritten sampleStub2 (-7) (-3) 1000 1000 256,
      0 ≤ k ∧ k < sampleStub2._screenW * sampleStub2._screenH) ∧
    (sampleStub2._screenW ≤ 256 →
      ∀ k ∈ copyRectRead sampleStub2 (-7) (-3) 1000 1000 256,
        0 ≤ k ∧ k < 256 * sampleStub2._screenH) :=
  ⟨by decide,
    (copyRect_stays_in_bounds sampleStub2 (-7) (-3) 1000 1000 sampleBuf 256 (by decide)).1,
    (copyRect_stays_in_bounds sampleStub2 (-7) (-3) 1000 1000 sampleBuf 256 (by decide)).2.2⟩

/-! ## True-colour block copy -/

/-- An offset that no access of the true-colour copy writes keeps its value. -/
theorem storeRgb24_of_not_mem (rgb : Int → Nat) (k : Int) :
    ∀ (acc : List (Int × Int)) (fb : Int → Nat), (∀ a ∈ acc, a.1 ≠ k) →
      storeRgb24 rgb acc fb k = fb k := by
  intro acc
  induction acc with
  | nil =>
    intro fb _
    rfl
  | cons a l ih =>
    intro fb hne
    have ha : a.1 ≠ k := hne a (List.mem_cons_self a l)
    have hl : ∀ b ∈ l, b.1 ≠ k := fun b hb => hne b (List.mem_cons_of_mem a hb)
    show storeRgb24 rgb l (Function.update fb a.1 _) k = fb k
    rw [ih _ hl, Function.update_noteq (Ne.symm ha)]

/-- An offset that some access of the true-colour copy writes, all of them from
the source triple at `t`, holds the packed colour of that triple. -/
theorem storeRgb24_of_mem (rgb : Int → Nat) (k t : Int) :
    ∀ (acc : List (Int × Int)) (fb : Int → Nat), (∃ a ∈ acc, a.1 = k) →
      (∀ a ∈ acc, a.1 = k → a.2 = t) →
      storeRgb24 rgb acc fb k =
        SDL_MapRGB ((rgb t % 256 : Nat) : Int) ((rgb (t + 1) % 256 : Nat) : Int)
          ((rgb (t + 2) % 256 : Nat) : Int) := by
  intro acc
  induction acc with
  | nil =>
    intro fb hex _
    obtain ⟨a, ha, _⟩ := hex
    exact absurd ha (List.not_mem_nil a)
  | cons a l ih =>
    intro fb hex hval
    show storeRgb24 rgb l (Function.update fb a.1 _) k = _
    by_cases hl : ∃ b ∈ l, b.1 = k
    · exact ih _ hl (fun b hb hbk => hval b (List.mem_cons_of_mem a hb) hbk)
    · have hne : ∀ b ∈ l, b.1 ≠ k := fun b hb hbk => hl ⟨b, hb, hbk⟩
      rw [storeRgb24_of_not_mem rgb k l _ hne]
      obtain ⟨c, hc, hck⟩ := hex
      rcases List.mem_cons.mp hc with hca | hcl
      · subst hca
        rw [← hck, Function.update_same, hval c (List.mem_cons_self c l) hck]
      · exact absurd hck (hne c hcl)

/-- The accesses of the loops of `copyRectRgb24` are the pairs for `j < h`,
`i < w`. -/
theorem mem_copyRectRgb24Accesses (screenW x y w h : Int) (a : Int × Int) :
    a ∈ copyRectRgb24Accesses screenW x y w h ↔
      ∃ j : Nat, j < h.toNat ∧ ∃ i : Nat, i < w.toNat ∧
        a = (y * screenW + x + (j : Int) * screenW + (i : Int),
             3 * ((j : Int) * (w.toNat : Int) + (i : Int))) := by
  simp only [copyRectRgb24Accesses, List.mem_flatMap, List.mem_map, List.mem_range]
  constructor
  · rintro ⟨j, hj, i, hi, rfl⟩
    exact ⟨j, hj, i, hi, rfl⟩
  · rintro ⟨j, hj, i, hi, rfl⟩
    exact ⟨j, hj, i, hi, rfl⟩

/-- C21: for a rectangle that satisfies the asserted precondition (`x ≥ 0`,
`x + w ≤ _screenW`, `y ≥ 0`, `y + h ≤ _screenH`) and the debug-blocks bit clear,
`copyRectRgb24` returns; afterwards the pixel `(x + i, y + j)` for `0 ≤ i < w`,
`0 ≤ j < h` holds the packed colour of the source triple at offset
`3 * (j * w + i)`, every framebuffer pixel outside the rectangle is unchanged, no
other offset is written and nothing but the framebuffer changes. When the
precondition is violated the call fails its assertion, whatever the debug bit. -/
theorem copyRectRgb24_inside (s : SystemStub_SDL) (x y w h : Int) (rgb : Int → Nat)
    (hdbg : s._pi.dbgMask &&& DF_DBLOCKS = 0) (hx : 0 ≤ x) (hy : 0 ≤ y)
    (hxw : x + w ≤ s._screenW) (hyh : y + h ≤ s._screenH) :
    (∃ s', copyRectRgb24 s x y w h rgb = some s' ∧
      (∀ i j : Int, 0 ≤ i → i < w → 0 ≤ j → j < h →
        s'._screenBuffer ((y + j) * s._screenW + (x + i)) =
          SDL_MapRGB ((rgb (3 * (j * w + i)) % 256 : Nat) : Int)
            ((rgb (3 * (j * w + i) + 1) % 256 : Nat) : Int)
            ((rgb (3 * (j * w + i) + 2) % 256 : Nat) : Int)) ∧
      (∀ col row : Int, 0 ≤ col → col < s._screenW → 0 ≤ row → row < s._screenH →
        ¬ (x ≤ col ∧ col < x + w ∧ y ≤ row ∧ row < y + h) →
        s'._screenBuffer (row * s._screenW + col) =
          s._screenBuffer (row * s._screenW + col)) ∧
      (∀ k : Int,
        (¬ ∃ col row : Int, x ≤ col ∧ col < x + w ∧ y ≤ row ∧ row < y + h ∧
          k = row * s._screenW + col) →
        s'._screenBuffer k = s._screenBuffer k) ∧
      s' = { s with _screenBuffer := s'._screenBuffer }) ∧
    (∀ (t : SystemStub_SDL) (x' y' w' h' : Int) (rgb' : Int → Nat),
      ¬ (x' ≥ 0 ∧ x' + w' ≤ t._screenW ∧ y' ≥ 0 ∧ y' + h' ≤ t._screenH) →
      copyRectRgb24 t x' y' w' h' rgb' = none) := by
  have hpre : x ≥ 0 ∧ x + w ≤ s._screenW ∧ y ≥ 0 ∧ y + h ≤ s._screenH := ⟨hx, hxw, hy, hyh⟩
  have hrun : copyRectRgb24 s x y w h rgb =
      some { s with
        _screenBuffer :=
          (storeRgb24 rgb (copyRectRgb24Accesses s._screenW x y w h) s._screenBuffer) } := by
    unfold copyRectRgb24
    rw [if_pos hpre]
    simp only [hdbg, ne_eq, not_true_eq_false, if_false]
  refine ⟨⟨_, hrun, ?_, ?_, ?_, rfl⟩, ?_⟩
  · intro i j hi0 hiw hj0 hjh
    simp only
    apply storeRgb24_of_mem
    · refine ⟨(y * s._screenW + x + ((j.toNat : Nat) : Int) * s._screenW +
        ((i.toNat : Nat) : Int), 3 * (((j.toNat : Nat) : Int) * (w.toNat : Int) +
        ((i.toNat : Nat) : Int))), ?_, ?_⟩
      · rw [mem_copyRectRgb24Accesses]
        exact ⟨j.toNat, by omega, i.toNat, by omega, rfl⟩
      · have e1 : ((j.toNat : Nat) : Int) = j := Int.toNat_of_nonneg hj0
        have e2 : ((i.toNat : Nat) : Int) = i := Int.toNat_of_nonneg hi0
        simp only [e1, e2]
        ring
    · intro a ha hak
      rw [mem_copyRectRgb24Accesses] at ha
      obtain ⟨j', hj', i', hi', rfl⟩ := ha
      simp only at hak
      have hu := row_col_unique s._screenW (y + (j' : Int)) (y + j) (x + (i' : Int)) (x + i)
        (by omega) (by omega) (by omega) (by omega) (by linarith)
      obtain ⟨hrow, hcol⟩ := hu
      have e3 : ((w.toNat : Nat) : Int) = w := Int.toNat_of_nonneg (by omega)
      have e4 : (j' : Int) = j := by omega
      have e5 : (i' : Int) = i := by omega
      simp only [e3, e4, e5]
  · intro col row hc1 hc2 hr1 hr2 hout
    simp only
    apply storeRgb24_of_not_mem
    intro a ha hak
    rw [mem_copyRectRgb24Accesses] at ha
    obtain ⟨j', hj', i', hi', rfl⟩ := ha
    simp only at hak
    have hu := row_col_unique s._screenW (y + (j' : Int)) row (x + (i' : Int)) col
      (by omega) (by omega) (by omega) (by omega) (by linarith)
    obtain ⟨hrow, hcol⟩ := hu
    exact hout (by omega)
  · intro k hout
    simp only
    apply storeRgb24_of_not_mem
    intro a ha hak
    rw [mem_copyRectRgb24Accesses] at ha
    obtain ⟨j', hj', i', hi', rfl⟩ := ha
    simp only at hak
    exact hout ⟨x + (i' : Int), y + (j' : Int), by omega, by omega, by omega, by omega,
      by rw [← hak]; ring⟩
  · intro t x' y' w' h' rgb' hviol
    unfold copyRectRgb24
    rw [if_neg hviol]

/-- C21, at a concrete input: a 4 x 2 block at (2, 3) of the 256 x 224
framebuffer, and the same block moved one column past the left edge. -/
theorem copyRectRgb24_inside_witness :
    sampleStub2._pi.dbgMask &&& DF_DBLOCKS = 0 ∧
    ((0 : Int) ≤ 2 ∧ (0 : Int) ≤ 3 ∧ 2 + 4 ≤ sampleStub2._screenW ∧
      3 + 2 ≤ sampleStub2._screenH) ∧
    (∃ s', copyRectRgb24 sampleStub2 2 3 4 2 sampleRgb = some s' ∧
      (∀ i j : Int, 0 ≤ i → i < 4 → 0 ≤ j → j < 2 →
        s'._screenBuffer ((3 + j) * sampleStub2._screenW + (2 + i)) =
          SDL_MapRGB ((sampleRgb (3 * (j * 4 + i)) % 256 : Nat) : Int)
            ((sampleRgb (3 * (j * 4 + i) + 1) % 256 : Nat) : Int)
            ((sampleRgb (3 * (j * 4 + i) + 2) % 256 : Nat) : Int))) ∧
    copyRectRgb24 sampleStub2 (-1) 3 4 2 sampleRgb = none := by
  obtain ⟨⟨s', h1, h2, _⟩, hfail⟩ :=
    copyRectRgb24_inside sampleStub2 2 3 4 2 sampleRgb (by decide) (by decide) (by decide)
      (by decide) (by decide)
  exact ⟨by decide, ⟨by decide, by decide, by decide, by decide⟩, ⟨s', h1, h2⟩,
    hfail sampleStub2 (-1) 3 4 2 sampleRgb (by decide)⟩

/-! ## Block copy: the debug outline -/

/-- The assertion of the `drawRect` call at the end of `copyRect` never fails:
`copyRect` returns for every input, whatever the debug-blocks bit. -/
theorem copyRect_returns (s : SystemStub_SDL) (x y w h : Int) (buf : Int → Nat)
    (pitch : Int) : ∃ s', copyRect s x y w h buf pitch = some s' := by
  unfold copyRect
  cases hc : copyRectClip s._screenW s._screenH x y w h with
  | none => exact ⟨s, rfl⟩
  | some c =>
    obtain ⟨cx, cy, cw, ch⟩ := c
    obtain ⟨h1, h2, h3, h4, _⟩ := copyRectClip_bounds _ _ _ _ _ _ _ _ _ _ hc
    simp only
    by_cases hd : s._pi.dbgMask &&& DF_DBLOCKS = 0
    · simp only [hd, ne_eq, not_true_eq_false, if_false]
      exact ⟨_, rfl⟩
    · rw [if_pos hd]
      unfold drawRect
      simp only
      rw [if_pos ⟨by omega, by omega, by omega, by omega⟩]
      exact ⟨_, rfl⟩

/-- The offsets written by the loops of `drawRect` are those of the top and
bottom rows for the columns `x1 .. x2` and of the left and right columns for the
rows `y1 .. y2`. -/
theorem mem_drawRectWrites (W x1 y1 x2 y2 k : Int) :
    k ∈ drawRectWrites W x1 y1 x2 y2 ↔
      (∃ i : Int, x1 ≤ i ∧ i ≤ x2 ∧ (k = y2 * W + i ∨ k = y1 * W + i)) ∨
      (∃ j : Int, y1 ≤ j ∧ j ≤ y2 ∧ (k = j * W + x2 ∨ k = j * W + x1)) := by
  simp only [drawRectWrites, List.mem_append, List.mem_flatMap, List.mem_range,
    List.mem_cons, List.mem_singleton, List.not_mem_nil, or_false]
  constructor
  · rintro (⟨n, hn, hk⟩ | ⟨n, hn, hk⟩)
    · exact Or.inl ⟨x1 + (n : Int), by omega, by omega, hk⟩
    · exact Or.inr ⟨y1 + (n : Int), by omega, by omega, hk⟩
  · rintro (⟨i, hi1, hi2, hk⟩ | ⟨j, hj1, hj2, hk⟩)
    · refine Or.inl ⟨(i - x1).toNat, by omega, ?_⟩
      have e : x1 + (((i - x1).toNat : Nat) : Int) = i := by omega
      rw [e]
      exact hk
    · refine Or.inr ⟨(j - y1).toNat, by omega, ?_⟩
      have e : y1 + (((j - y1).toNat : Nat) : Int) = j := by omega
      rw [e]
      exact hk

/-- When the rectangle on entry to the loops of `copyRect` has a width and a
height of at least 1, every offset of the outline is the offset of a pixel on the
border of that rectangle and lies in `[0, _screenW * _screenH)`. -/
theorem copyRectOutline_on_border (s : SystemStub_SDL) (x y w h cx cy cw ch : Int)
    (hc : copyRectClip s._screenW s._screenH x y w h = some (cx, cy, cw, ch))
    (hw : 1 ≤ cw) (hh : 1 ≤ ch) :
    ∀ k ∈ copyRectOutline s x y w h,
      (∃ col row : Int, k = row * s._screenW + col ∧
        cx ≤ col ∧ col < cx + cw ∧ cy ≤ row ∧ row < cy + ch ∧
        (col = cx ∨ col = cx + cw - 1 ∨ row = cy ∨ row = cy + ch - 1)) ∧
      0 ≤ k ∧ k < s._screenW * s._screenH := by
  intro k hk
  obtain ⟨h1, h2, h3, h4, _⟩ := copyRectClip_bounds _ _ _ _ _ _ _ _ _ _ hc
  unfold copyRectOutline at hk
  rw [hc] at hk
  simp only at hk
  rw [mem_drawRectWrites] at hk
  have key : ∀ col row : Int, k = row * s._screenW + col → cx ≤ col → col < cx + cw →
      cy ≤ row → row < cy + ch →
      (col = cx ∨ col = cx + cw - 1 ∨ row = cy ∨ row = cy + ch - 1) →
      (∃ col row : Int, k = row * s._screenW + col ∧
        cx ≤ col ∧ col < cx + cw ∧ cy ≤ row ∧ row < cy + ch ∧
        (col = cx ∨ col = cx + cw - 1 ∨ row = cy ∨ row = cy + ch - 1)) ∧
      0 ≤ k ∧ k < s._screenW * s._screenH := by
    intro col row e a1 a2 a3 a4 a5
    refine ⟨⟨col, row, e, a1, a2, a3, a4, a5⟩, ?_⟩
    have hg := offset_in_grid s._screenW s._screenH s._screenW row col (by omega) (by omega)
      (by omega) (by omega) (le_refl _)
    rw [e]
    exact hg
  rcases hk with ⟨i, hi1, hi2, hk | hk⟩ | ⟨j, hj1, hj2, hk | hk⟩
  · exact key i (cy + ch - 1) hk (by omega) (by omega) (by omega) (by omega)
      (Or.inr (Or.inr (Or.inr rfl)))
  · exact key i cy hk (by omega) (by omega) (by omega) (by omega)
      (Or.inr (Or.inr (Or.inl rfl)))
  · exact key (cx + cw - 1) j hk (by omega) (by omega) (by omega) (by omega)
      (Or.inr (Or.inl rfl))
  · exact key cx j hk (by omega) (by omega) (by omega) (by omega) (Or.inl rfl)

/-- C23, evaluated where it fails: on the 256 x 224 stub with the palette set and
the debug-blocks bit set by CTRL+B, `copyRect(0, 0, 0, 1, buf, 256)` is not
rejected by the early returns and enters the loops with a width of 0; the
assertion of `drawRect` holds and the call returns, yet the outline stores go to
the offsets -1 and 0: the offset -1 is before the first pixel of the framebuffer,
and its content changes from 0 to `_rgbPalette[0xE7]`. -/
theorem copyRect_debug_outline_writes_before_buffer :
    sampleDebugStub._pi.dbgMask &&& DF_DBLOCKS ≠ 0 ∧
    copyRectClip sampleDebugStub._screenW sampleDebugStub._screenH 0 0 0 1 =
      some (0, 0, 0, 1) ∧
    (copyRect sampleDebugStub 0 0 0 1 (fun _ => 0) 256).isSome = true ∧
    copyRectOutline sampleDebugStub 0 0 0 1 = [-1, 0] ∧
    ¬ ((0 : Int) ≤ -1 ∧ (-1 : Int) < sampleDebugStub._screenW * sampleDebugStub._screenH) ∧
    sampleDebugStub._screenBuffer (-1) = 0 ∧
    sampleDebugStub._rgbPalette 0xE7 = 4286075694 ∧
    (copyRect sampleDebugStub 0 0 0 1 (fun _ => 0) 256).map
      (fun t => t._screenBuffer (-1)) = some 4286075694 := by
  refine ⟨by decide, by decide, by decide, by decide, by decide, by decide, by decide,
    by decide⟩

/-! ## Options: the reading layer of the configuration file -/

/-- A non-empty text of at most `cap` characters with no line feed before its
last character is stored by one call of `fgets`, whole. -/
theorem fgetsChunks_single (cap : Nat) :
    ∀ (l cur : List Char), l ≠ [] → (cur ++ l).length ≤ cap →
      (∀ x ∈ (cur ++ l).dropLast, x ≠ '\n') → fgetsChunks cap l cur = [cur ++ l] := by
  intro l
  induction l with
  | nil =>
    intro cur h _ _
    exact absurd rfl h
  | cons c rest ih =>
    intro cur _ hlen hnl
    cases rest with
    | nil =>
      unfold fgetsChunks
      split_ifs
      · simp [fgetsChunks]
      · simp [fgetsChunks]
    | cons d rest' =>
      have hmem : c ∈ (cur ++ c :: d :: rest').dropLast := by
        rw [List.dropLast_append_of_ne_nil _ (List.cons_ne_nil c (d :: rest'))]
        simp
      have hc : c ≠ '\n' := hnl c hmem
      have hl : (cur ++ [c]).length ≠ cap := by
        simp only [List.length_append, List.length_cons, List.length_nil] at hlen ⊢
        omega
      have hcond : ¬ (c = '\n' ∨ (cur ++ [c]).length = cap) := by
        rintro (h | h)
        · exact hc h
        · exact hl h
      have hassoc : cur ++ [c] ++ d :: rest' = cur ++ c :: d :: rest' := by simp
      unfold fgetsChunks
      rw [if_neg hcond, ih (cur ++ [c]) (List.cons_ne_nil d rest') (by rw [hassoc]; exact hlen)
        (by rw [hassoc]; exact hnl), hassoc]

/-- What `fgets` stores for a stream that continues after a line feed: the
contents for the text up to that line feed, then those for the rest. -/
theorem fgetsChunks_append (cap : Nat) (l : List Char) :
    ∀ (p cur : List Char), fgetsChunks cap (p ++ '\n' :: l) cur =
      fgetsChunks cap (p ++ ['\n']) cur ++ fgetsChunks cap l [] := by
  intro p
  induction p with
  | nil =>
    intro cur
    simp [fgetsChunks]
  | cons c p ih =>
    intro cur
    have e1 : (c :: p) ++ '\n' :: l = c :: (p ++ '\n' :: l) := rfl
    have e2 : (c :: p) ++ ['\n'] = c :: (p ++ ['\n']) := rfl
    rw [e1, e2]
    simp only [fgetsChunks]
    split_ifs
    · rw [ih []]
      rfl
    · exact ih (cur ++ [c])

/-- The loop of `initOptions` on a file that ends with a line which fits the
buffer (at most 255 characters with its line feed) after complete lines: the
loop body runs on that line, as a C string, from the options left by the lines
before it. -/
theorem initOptions_append_line (g : Options) (pre line : List Char)
    (hpre : pre = [] ∨ ∃ p, pre = p ++ ['\n']) (hne : line ≠ []) (hlen : line.length ≤ 255)
    (hnl : ∀ x ∈ line.dropLast, x ≠ '\n') :
    initOptions g (some (pre ++ line)) =
      ((configLine (initOptions g (some pre)).1
          (line.takeWhile (fun x => x != Char.ofNat 0))).1,
        (initOptions g (some pre)).2 ++
          (configLine (initOptions g (some pre)).1
            (line.takeWhile (fun x => x != Char.ofNat 0))).2) := by
  have hone : fgetsChunks 255 line [] = [line] :=
    fgetsChunks_single 255 line [] hne (by simpa using hlen) (by simpa using hnl)
  have hchunks : fgetsChunks 255 (pre ++ line) [] = fgetsChunks 255 pre [] ++ [line] := by
    rcases hpre with h | ⟨p, h⟩
    · subst h
      simp [fgetsChunks, hone]
    · subst h
      rw [List.append_assoc, List.singleton_append, fgetsChunks_append, hone]
  simp only [initOptions, hchunks, List.foldl_append, List.foldl_cons, List.foldl_nil]

/-- No name of the table contains a line feed or a NUL. -/
theorem optNames_plain : ∀ a ∈ optNames, ∀ x ∈ a, x ≠ '\n' ∧ x ≠ Char.ofNat 0 := by
  decide

/-- The first character that is not white space, when it is not NUL, is also the
first such character of the text as a C string. -/
theorem find_nonspace_takeWhile (c : Char) (hnul : c ≠ Char.ofNat 0) :
    ∀ (v : List Char), v.find? (fun x => !isspace x) = some c →
      (v.takeWhile (fun x => x != Char.ofNat 0)).find? (fun x => !isspace x) = some c := by
  intro v
  induction v with
  | nil =>
    intro h
    simp at h
  | cons a t ih =>
    intro h
    by_cases hs : isspace a = true
    · have ha : a ≠ Char.ofNat 0 := by
        intro h0
        rw [h0] at hs
        exact absurd hs (by decide)
      have ha' : (a != Char.ofNat 0) = true := by simpa using ha
      simp only [List.find?_cons, hs, Bool.not_true] at h
      simp only [List.takeWhile_cons, ha', if_true, List.find?_cons, hs, Bool.not_true]
      exact ih h
    · have hs' : isspace a = false := by simpa using hs
      simp only [List.find?_cons, hs', Bool.not_false, Option.some.injEq] at h
      subst h
      have ha' : (a != Char.ofNat 0) = true := by simpa using hnul
      simp only [List.takeWhile_cons, ha', if_true, List.find?_cons, hs', Bool.not_false]

/-- The text that the loop body sees of a line `name = v` whose name is in the
table: the line up to the first NUL of `v`. -/
theorem takeWhile_assignment (e : OptEntry) (he : e ∈ opts) (v : List Char) :
    (e.name ++ [' ', '=', ' '] ++ v).takeWhile (fun x => x != Char.ofNat 0) =
      e.name ++ [' ', '=', ' '] ++ v.takeWhile (fun x => x != Char.ofNat 0) := by
  have hmem : e.name ∈ optNames := List.mem_map_of_mem _ he
  have hplain := optNames_plain e.name hmem
  apply List.takeWhile_append_of_pos
  intro a ha
  rcases List.mem_append.mp ha with h | h
  · simpa using (hplain a h).2
  · simp only [List.mem_cons, List.mem_singleton, List.not_mem_nil, or_false] at h
    rcases h with h | h | h <;> subst h <;> decide

/-- A line `name = v` whose name is in the table and whose value text has no line
feed before its last character has no line feed before its last character. -/
theorem assignment_line_feed_last (e : OptEntry) (he : e ∈ opts) (v : List Char)
    (hv : v ≠ []) (hnl : ∀ x ∈ v.dropLast, x ≠ '\n') :
    ∀ x ∈ (e.name ++ [' ', '=', ' '] ++ v).dropLast, x ≠ '\n' := by
  have hmem : e.name ∈ optNames := List.mem_map_of_mem _ he
  have hplain := optNames_plain e.name hmem
  rw [List.dropLast_append_of_ne_nil _ hv]
  intro x hx
  rcases List.mem_append.mp hx with h | h
  · rcases List.mem_append.mp h with h | h
    · exact (hplain x h).1
    · simp only [List.mem_cons, List.mem_singleton, List.not_mem_nil, or_false] at h
      rcases h with h | h | h <;> subst h <;> decide
  · exact hnl x h

set_option maxRecDepth 100000 in
/-- C16, evaluated where it fails: the file whose only line is
`use_white_tshirt = `, 300 blanks and `1` is a line `k = v` with `k` in the option
table and `1` the first character of `v` that is not white space, yet
`initOptions` leaves `use_white_tshirt` false. The line has 321 characters: `fgets`
hands it over in two pieces, the first with only blanks after `=`, the second
without `=`. -/
theorem initOptions_long_assignment_not_seen :
    sampleOptEntry ∈ opts ∧
    sampleLongAssignment =
      sampleOptEntry.name ++ [' ', '=', ' '] ++ (List.replicate 300 ' ' ++ "1\n".toList) ∧
    (List.replicate 300 ' ' ++ "1\n".toList).find? (fun x => !isspace x) = some '1' ∧
    sampleLongAssignment.length = 321 ∧
    (fgetsChunks 255 sampleLongAssignment []).map List.length = [255, 66] ∧
    sampleOptEntry.get (initOptions Options.zero (some sampleLongAssignment)).1 = false ∧
    initOptions Options.zero (some sampleLongAssignment) = (setDefaults Options.zero, []) := by
  refine ⟨by simp [opts, sampleOptEntry], by decide, by decide, by decide, by decide,
    by decide, by decide⟩

/-- C16, for lines that fit the buffer: let the file end, after complete lines
`pre`, with the line `k = v`, where `k` is a name of the option table, the line
has at most 255 characters with its line feed, `v` has no line feed before its
last character and the first character `c` of `v` that is not white space is not
NUL. Then `initOptions` returns the options left by `pre` with option `k` set to
true iff `c` is `t`, `T` or `1` (false otherwise), every other option of the table
unchanged and no warning added. Starting from the defaults, the file
`use_white_tshirt = True`, `# comment`, `foo = bar` yields `use_white_tshirt = true`
and every other option at its default, with one warning for the line `foo = bar`. -/
theorem initOptions_sets_named_option (g : Options) (pre : List Char) (e : OptEntry)
    (he : e ∈ opts) (v : List Char) (c : Char)
    (hpre : pre = [] ∨ ∃ p, pre = p ++ ['\n'])
    (hc : v.find? (fun x => !isspace x) = some c) (hnul : c ≠ Char.ofNat 0)
    (hlen : (e.name ++ [' ', '=', ' '] ++ v).length ≤ 255)
    (hnl : ∀ x ∈ v.dropLast, x ≠ '\n') :
    initOptions g (some (pre ++ (e.name ++ [' ', '=', ' '] ++ v))) =
      (e.set (initOptions g (some pre)).1 (c == 't' || c == 'T' || c == '1'),
        (initOptions g (some pre)).2) ∧
    (e.get (initOptions g (some (pre ++ (e.name ++ [' ', '=', ' '] ++ v)))).1 = true ↔
      (c = 't' ∨ c = 'T' ∨ c = '1')) ∧
    (∀ e' ∈ opts, e'.name ≠ e.name →
      e'.get (initOptions g (some (pre ++ (e.name ++ [' ', '=', ' '] ++ v)))).1 =
        e'.get (initOptions g (some pre)).1) ∧
    initOptions Options.zero (some sampleConfig) =
      ({ setDefaults Options.zero with use_white_tshirt := true },
        ["foo = bar\n".toList]) := by
  have hv : v ≠ [] := by
    intro h
    rw [h] at hc
    simp at hc
  have hrun : initOptions g (some (pre ++ (e.name ++ [' ', '=', ' '] ++ v))) =
      (e.set (initOptions g (some pre)).1 (c == 't' || c == 'T' || c == '1'),
        (initOptions g (some pre)).2) := by
    rw [initOptions_append_line g pre _ hpre (by simp) hlen
      (assignment_line_feed_last e he v hv hnl), takeWhile_assignment e he v,
      configLine_assignment _ e he _ c (find_nonspace_takeWhile c hnul v hc)]
    simp only [List.append_nil]
  rw [hrun]
  obtain ⟨hget, hother⟩ :=
    opts_get_set (initOptions g (some pre)).1 (c == 't' || c == 'T' || c == '1') e he
  refine ⟨rfl, ?_, hother, by decide⟩
  simp only [hget, Bool.or_eq_true, beq_iff_eq, or_assoc]

/-- C16, at a concrete input: the line `use_white_tshirt = True` after a comment
line, on the zeroed options. -/
theorem initOptions_sets_named_option_witness :
    sampleOptEntry ∈ opts ∧
    "True\n".toList.find? (fun x => !isspace x) = some 'T' ∧
    (sampleOptEntry.name ++ [' ', '=', ' '] ++ "True\n".toList).length ≤ 255 ∧
    initOptions Options.zero
        (some ("# comment\n".toList ++
          (sampleOptEntry.name ++ [' ', '=', ' '] ++ "True\n".toList))) =
      (sampleOptEntry.set (initOptions Options.zero (some "# comment\n".toList)).1
          ('T' == 't' || 'T' == 'T' || 'T' == '1'),
        (initOptions Options.zero (some "# comment\n".toList)).2) :=
  ⟨by simp [opts, sampleOptEntry], by decide, by decide,
    (initOptions_sets_named_option Options.zero "# comment\n".toList sampleOptEntry
      (by simp [opts, sampleOptEntry]) "True\n".toList 'T'
      (Or.inr ⟨"# comment".toList, by decide⟩) (by decide) (by decide) (by decide)
      (by decide)).1⟩

/-- The loop of `initOptions` on a file that continues after a line feed: the
lines that follow are processed from the options and warnings left by the text
up to that line feed. -/
theorem initOptions_continues (g : Options) (p post : List Char) :
    initOptions g (some (p ++ '\n' :: post)) =
      (fgetsChunks 255 post []).foldl
        (fun (acc : Options × List (List Char)) (chunk : List Char) =>
          ((configLine acc.1 (chunk.takeWhile (fun x => x != Char.ofNat 0))).1,
            acc.2 ++ (configLine acc.1 (chunk.takeWhile (fun x => x != Char.ofNat 0))).2))
        (initOptions g (some (p ++ ['\n']))) := by
  unfold initOptions
  simp only
  rw [fgetsChunks_append, List.foldl_append]

end REminiCRT
